import Mathlib

/-!
# Scenery3d rendering core: a verification development

Shallow embedding of the numeric and control core of
`plugins/Scenery3d/src/Scenery3d.cpp`: the cascade splitter, the crop matrix fitter, the
outer light volume, the lighting-state selector, the cubemap face rotations and resource
set, the lazy cubemap refresh and the draw orchestrator.

Conventions of the embedding:
* C++ `float` values are modelled as elements of a linearly ordered field `K`
  (exact arithmetic; `ℚ` for evaluation, `ℝ` where `powf`, `sqrt` or `cos` are the real
  functions).
* Where the rounding of a `float` operation decides a discrete step (the two `std::ceil`
  calls of `computeCropMatrix`) the rounding is explicit: the definitions take the
  rounding `fl` of an exact result to `float` as a parameter, `roundFloat` is the
  rounding of IEEE binary32, and `fl = id` is exact arithmetic.
* Library functions and constants that are not part of the repository
  (`powf`, `sqrt`, `cos`, `std::numeric_limits<float>::max()`, the Qt matrix product) are
  parameters of the definitions.
* A floating point division by zero has no finite result; divisions whose
  denominator can vanish return `Option`.
* Stateful code is a function from the members it reads to the members it writes; calls
  to the graphics library and to other methods are recorded as a list of calls.
-/

namespace Scenery3d

/-! ## Cascade splitter -/

/-- The part of a `Frustum` that `computeFrustumSplits` reads and writes: its
near and far plane distances. -/
structure Frustum (K : Type) where
  zNear : K
  zFar : K
deriving DecidableEq, Repr

instance {K : Type} [Zero K] : Inhabited (Frustum K) := ⟨⟨0, 0⟩⟩

/-- One iteration of the loop of `computeFrustumSplits` (loop index `i`):
`frustumArray[i].zNear = w*(zNear*powf(zRatio, s_i)) + (1-w)*(zNear + zRange*s_i)`
followed by `frustumArray[i-1].zFar = frustumArray[i].zNear * 1.005f`. -/
def computeFrustumSplitsStep {K : Type} [LinearOrderedField K] (powf : K → K → K)
    (shadowSplitWeight : K) (frustumSplits : Nat) (zNear zRatio zRange : K)
    (frustumArray : List (Frustum K)) (i : Nat) : List (Frustum K) :=
  let s_i : K := (i : K) / (frustumSplits : K)
  let newNear : K := shadowSplitWeight * (zNear * powf zRatio s_i)
    + (1 - shadowSplitWeight) * (zNear + zRange * s_i)
  let arr1 := frustumArray.set i { frustumArray.getD i default with zNear := newNear }
  arr1.set (i - 1) { arr1.getD (i - 1) default with zFar := (arr1.getD i default).zNear * 1.005 }

/-- `Scenery3d::computeFrustumSplits`: reads near and far from `frustumArray[0]`
and runs the loop `for (i = 1; i < frustumSplits; i++)`. -/
def computeFrustumSplits {K : Type} [LinearOrderedField K] (powf : K → K → K)
    (shadowSplitWeight : K) (frustumSplits : Nat) (frustumArray : List (Frustum K)) :
    List (Frustum K) :=
  let zNear := (frustumArray.getD 0 default).zNear
  let zFar := (frustumArray.getD 0 default).zFar
  let zRatio := zFar / zNear
  let zRange := zFar - zNear
  (List.range' 1 (frustumSplits - 1)).foldl
    (computeFrustumSplitsStep powf shadowSplitWeight frustumSplits zNear zRatio zRange)
    frustumArray

/-- The reference split scheme of the specification (section 4.2):
`near_i = w·(near·(far/near)^(i/N)) + (1-w)·(near + (far-near)·i/N)`. -/
def referenceSplitNear {K : Type} [LinearOrderedField K] (powf : K → K → K)
    (w near far : K) (N i : Nat) : K :=
  w * (near * powf (far / near) ((i : K) / (N : K)))
    + (1 - w) * (near + (far - near) * ((i : K) / (N : K)))

/-- Near plane of split `i` after `computeFrustumSplits`. -/
def splitNear {K : Type} [LinearOrderedField K] (powf : K → K → K)
    (w : K) (N : Nat) (arr : List (Frustum K)) (i : Nat) : K :=
  ((computeFrustumSplits powf w N arr).getD i default).zNear

/-- Far plane of split `i` after `computeFrustumSplits`. -/
def splitFar {K : Type} [LinearOrderedField K] (powf : K → K → K)
    (w : K) (N : Nat) (arr : List (Frustum K)) (i : Nat) : K :=
  ((computeFrustumSplits powf w N arr).getD i default).zFar

/-- The state `adjustFrustum` leaves: `N` frusta that all hold the same near and far. -/
def uniformFrusta {K : Type} (near far : K) (N : Nat) : List (Frustum K) :=
  List.replicate N ⟨near, far⟩

/-! ## Split weight selection in `finalizeLoad` -/

/-- A `Vec3f`: the components `v[0]`, `v[1]`, `v[2]`. -/
structure Vec3 (K : Type) where
  x : K
  y : K
  z : K
deriving DecidableEq, Repr

/-- An axis aligned bounding box: its `min` and `max` corners. -/
structure AABB (K : Type) where
  min : Vec3 K
  max : Vec3 K
deriving DecidableEq, Repr

/-- The constant `std::numeric_limits<float>::max()`, which is `(2 - 2^-23) * 2^127`. -/
def FLT_MAX : Nat := 340282346638528859811704183484516925440

/-- The split weight part of `Scenery3d::finalizeLoad`: the scene bounding box is stored
(`setSceneAABB`), `maxSize` is folded from `sceneBoundingBox.max.v[0]` and
`sceneBoundingBox.max.v[1]`, and a negative configured weight is replaced by the
threshold table. The result is the value of `currentScene.shadowSplitWeight` afterwards. -/
def finalizeLoad {K : Type} [LinearOrderedField K] (bbox : AABB K) (shadowSplitWeight : K) : K :=
  let sceneBoundingBox := bbox
  let maxSize : K := -(FLT_MAX : K)
  let maxSize := max sceneBoundingBox.max.x maxSize
  let maxSize := max sceneBoundingBox.max.y maxSize
  if shadowSplitWeight < 0 then
    if maxSize < 100 then 0.5
    else if maxSize < 200 then 0.60
    else if maxSize < 400 then 0.70
    else 0.99
  else shadowSplitWeight

/-- The scene's horizontal extent in the words of the specification: the larger of the
bounding box's X and Y side lengths. -/
def horizontalExtent {K : Type} [LinearOrderedField K] (bbox : AABB K) : K :=
  max (bbox.max.x - bbox.min.x) (bbox.max.y - bbox.min.y)

/-- The default weight table of the specification (section 4.2), by horizontal extent. -/
def referenceSplitWeight {K : Type} [LinearOrderedField K] (extent : K) : K :=
  if extent < 100 then 0.5
  else if extent < 200 then 0.6
  else if extent < 400 then 0.7
  else 0.99

/-! ## Rounding to `float` -/

/-- Rounding of a rational to the nearest integer, a tie going to the even neighbour. -/
def roundNearestEven (q : ℚ) : ℤ :=
  let f := Int.floor q
  if q - f < 1 / 2 then f
  else if 1 / 2 < q - f then f + 1
  else if f % 2 = 0 then f else f + 1

/-- Rounding of an exact result to C++ `float` (IEEE 754 binary32, round to nearest, ties
to even): with `2^e ≤ |x| < 2^(e+1)` the result is the nearest multiple of `2^(e-23)`, so
that it has 24 significant bits. The exponent range is not bounded: overflow, underflow
and subnormal numbers are not modelled. -/
def roundFloat (x : ℚ) : ℚ :=
  if x = 0 then 0
  else
    let ulp : ℚ := 2 ^ (Int.log 2 |x| - 23)
    (roundNearestEven (x / ulp) : ℚ) * ulp

/-! ## Crop matrix fitter -/

/-- The six running bounds of `computeCropMatrix`. After the far plane adjustment `maxZ`
holds the far-Z bound used for the crop. -/
structure Bounds (K : Type) where
  maxX : K
  maxY : K
  maxZ : K
  minX : K
  minY : K
  minZ : K
deriving DecidableEq, Repr

/-- Initial values of the bounds: `-FLT_MAX` for the maxima, `FLT_MAX` for the minima. -/
def initialBounds {K : Type} [LinearOrderedField K] : Bounds K :=
  ⟨-(FLT_MAX : K), -(FLT_MAX : K), -(FLT_MAX : K), (FLT_MAX : K), (FLT_MAX : K), (FLT_MAX : K)⟩

/-- Body of the vertex loop of `computeCropMatrix`: six independent conditional updates
`if(transf.x() > maxX) maxX = transf.x();` and so on. `lightMVP` stands for the Qt
computation `(lightMVP * QVector4D(tmp, 1)).toVector3DAffine()`. -/
def boundsStep {K : Type} [LinearOrderedField K] (lightMVP : Vec3 K → Vec3 K)
    (b : Bounds K) (tmp : Vec3 K) : Bounds K :=
  let transf := lightMVP tmp
  { maxX := if transf.x > b.maxX then transf.x else b.maxX
    minX := if transf.x < b.minX then transf.x else b.minX
    maxY := if transf.y > b.maxY then transf.y else b.maxY
    minY := if transf.y < b.minY then transf.y else b.minY
    maxZ := if transf.z > b.maxZ then transf.z else b.maxZ
    minZ := if transf.z < b.minZ then transf.z else b.minZ }

/-- The vertex loop of `computeCropMatrix`: light-clip-space bounds of the focus body. -/
def lightSpaceBounds {K : Type} [LinearOrderedField K] (lightMVP : Vec3 K → Vec3 K)
    (focusBody : List (Vec3 K)) : Bounds K :=
  focusBody.foldl (boundsStep lightMVP) initialBounds

/-- The far plane adjustment of `computeCropMatrix`: with a perspective display
`maxZ = std::min(maxZ + zRange*0.05f, 1.0f)`, otherwise `maxZ = 1.0f`. -/
def adjustFarZ {K : Type} [LinearOrderedField K] (perspective : Bool) (b : Bounds K) : Bounds K :=
  if perspective then
    let zRange := b.maxZ - b.minZ
    { b with maxZ := min (b.maxZ + zRange * 0.05) 1 }
  else
    { b with maxZ := 1 }

/-- Bounds used to build the crop matrix: the vertex loop followed by the far plane
adjustment. -/
def cropBounds {K : Type} [LinearOrderedField K] (lightMVP : Vec3 K → Vec3 K)
    (perspective : Bool) (focusBody : List (Vec3 K)) : Bounds K :=
  adjustFarZ perspective (lightSpaceBounds lightMVP focusBody)

/-- A floating point division; a zero denominator gives no finite result. -/
def fdiv {K : Type} [LinearOrderedField K] (a b : K) : Option K :=
  if b = 0 then none else some (a / b)

/-- Scale quantization: `scale = 1.0f/std::ceil(1.0f/scale*quantizer) * quantizer` with
`quantizer = 64.0f`, evaluated from the left. Each of the four `float` operations
(`1.0f/scale`, `*quantizer`, `1.0f/std::ceil(..)`, `*quantizer`) is rounded by `fl`;
`std::ceil` is exact. -/
def quantizeScale {K : Type} [LinearOrderedField K] [FloorRing K] (fl : K → K) (scale : K) :
    Option K := do
  let quantizer : K := 64
  let inv ← (fdiv 1 scale).map fl
  let r ← (fdiv 1 ((Int.ceil (fl (inv * quantizer)) : Int) : K)).map fl
  pure (fl (r * quantizer))

/-- Offset before snapping: `-0.5f*(max + min)*scale`. -/
def cropOffset {K : Type} [LinearOrderedField K] (maxV minV scale : K) : K :=
  -0.5 * (maxV + minV) * scale

/-- Offset snapping: `offset = std::ceil(offset*halfTex)/halfTex`. -/
def snapOffset {K : Type} [LinearOrderedField K] [FloorRing K] (offset halfTex : K) : Option K :=
  fdiv ((Int.ceil (offset * halfTex) : Int) : K) halfTex

/-- Offset before snapping with the rounding of each operation:
`-0.5f*(max + min)*scale` is evaluated as `(-0.5f*(max + min))*scale`, the sum and the two
products each rounded by `fl`. With `fl = id` this is `cropOffset`. -/
def cropOffsetRounded {K : Type} [LinearOrderedField K] (fl : K → K) (maxV minV scale : K) :
    K :=
  fl (fl (-0.5 * fl (maxV + minV)) * scale)

/-- Offset snapping with the rounding of each operation:
`offset = std::ceil(offset*halfTex)/halfTex`, the product and the quotient rounded by
`fl`. With `fl = id` this is `snapOffset`. -/
def snapOffsetRounded {K : Type} [LinearOrderedField K] [FloorRing K] (fl : K → K)
    (offset halfTex : K) : Option K :=
  (fdiv ((Int.ceil (fl (offset * halfTex)) : Int) : K) halfTex).map fl

/-- The non-constant entries of the matrix `crop` built by `computeCropMatrix`. -/
structure CropMatrix (K : Type) where
  scaleX : K
  scaleY : K
  scaleZ : K
  offsetX : K
  offsetY : K
  offsetZ : K
deriving DecidableEq, Repr

/-- `Scenery3d::computeCropMatrix` up to the construction of `crop`, in source order.
`perspective` is `core->getCurrentProjectionType()==StelCore::ProjectionPerspective`, `fl`
the rounding of each `float` operation that follows the far plane adjustment (the bounds
are those of `cropBounds`); `0.5f*shadowmapSize` converts the integer to `float` first.
The products with `lightProj`, `biasMatrix` and `modelViewMatrix` that follow are not
modelled. -/
def computeCropMatrix {K : Type} [LinearOrderedField K] [FloorRing K] (fl : K → K)
    (lightMVP : Vec3 K → Vec3 K) (perspective : Bool) (shadowmapSize : Int)
    (focusBody : List (Vec3 K)) : Option (CropMatrix K) := do
  let b := cropBounds lightMVP perspective focusBody
  let scaleX ← (fdiv 2 (fl (b.maxX - b.minX))).map fl
  let scaleY ← (fdiv 2 (fl (b.maxY - b.minY))).map fl
  let scaleZ ← (fdiv 1 (fl (b.maxZ - b.minZ))).map fl
  let offsetZ := fl (-b.minZ * scaleZ)
  let scaleX ← quantizeScale fl scaleX
  let scaleY ← quantizeScale fl scaleY
  let offsetX := cropOffsetRounded fl b.maxX b.minX scaleX
  let offsetY := cropOffsetRounded fl b.maxY b.minY scaleY
  let halfTex : K := fl (0.5 * fl (shadowmapSize : K))
  let offsetX ← snapOffsetRounded fl offsetX halfTex
  let offsetY ← snapOffsetRounded fl offsetY halfTex
  pure ⟨scaleX, scaleY, scaleZ, offsetX, offsetY, offsetZ⟩

/-- The statements of `computeCropMatrix` that produce the scale and the offset of one of
the axes X and Y from the bounds `maxV`, `minV` of that axis, in source order: tight
scale, quantization, offset, half resolution, snapping. -/
def cropAxis {K : Type} [LinearOrderedField K] [FloorRing K] (fl : K → K) (maxV minV : K)
    (shadowmapSize : Int) : Option (K × K) := do
  let scale ← (fdiv 2 (fl (maxV - minV))).map fl
  let scale ← quantizeScale fl scale
  let offset := cropOffsetRounded fl maxV minV scale
  let halfTex : K := fl (0.5 * fl (shadowmapSize : K))
  let offset ← snapOffsetRounded fl offset halfTex
  pure (scale, offset)

/-- The crop transform prior to texel quantization: `computeCropMatrix` with the scale
quantization and the offset snapping left out, so the X and Y offsets are formed from the
tight scales. -/
def tightCropMatrix {K : Type} [LinearOrderedField K]
    (lightMVP : Vec3 K → Vec3 K) (perspective : Bool)
    (focusBody : List (Vec3 K)) : Option (CropMatrix K) := do
  let b := cropBounds lightMVP perspective focusBody
  let scaleX ← fdiv 2 (b.maxX - b.minX)
  let scaleY ← fdiv 2 (b.maxY - b.minY)
  let scaleZ ← fdiv 1 (b.maxZ - b.minZ)
  let offsetZ := -b.minZ * scaleZ
  let offsetX := cropOffset b.maxX b.minX scaleX
  let offsetY := cropOffset b.maxY b.minY scaleY
  pure ⟨scaleX, scaleY, scaleZ, offsetX, offsetY, offsetZ⟩

/-- Image of a point under the crop matrix (rows `(scale, 0, 0, offset)`, last row
`(0, 0, 0, 1)`). -/
def applyCrop {K : Type} [LinearOrderedField K] (c : CropMatrix K) (p : Vec3 K) : Vec3 K :=
  ⟨c.scaleX * p.x + c.offsetX, c.scaleY * p.y + c.offsetY, c.scaleZ * p.z + c.offsetZ⟩

/-- Membership in the canonical volume `[-1,1] x [-1,1] x [0,1]`. -/
def inCanonicalVolume {K : Type} [LinearOrderedField K] (p : Vec3 K) : Prop :=
  -1 ≤ p.x ∧ p.x ≤ 1 ∧ -1 ≤ p.y ∧ p.y ≤ 1 ∧ 0 ≤ p.z ∧ p.z ≤ 1

instance {K : Type} [LinearOrderedField K] (p : Vec3 K) : Decidable (inCanonicalVolume p) := by
  unfold inCanonicalVolume
  infer_instance

/-- The bounds `r` are at least as wide as the bounds `b` on every axis. -/
def Bounds.widerThan {K : Type} [LinearOrderedField K] (r b : Bounds K) : Prop :=
  r.minX ≤ b.minX ∧ b.maxX ≤ r.maxX ∧ r.minY ≤ b.minY ∧ b.maxY ≤ r.maxY
    ∧ r.minZ ≤ b.minZ ∧ b.maxZ ≤ r.maxZ

/-- The point `p` lies between the minima and the maxima of `r` on every axis. -/
def Bounds.holds {K : Type} [LinearOrderedField K] (r : Bounds K) (p : Vec3 K) : Prop :=
  r.minX ≤ p.x ∧ p.x ≤ r.maxX ∧ r.minY ≤ p.y ∧ p.y ≤ r.maxY ∧ r.minZ ≤ p.z ∧ p.z ≤ r.maxZ

/-! ## Lighting-state selector -/

/-- The enumeration `Scenery3d::ShadowCaster`. -/
inductive ShadowCaster where
  | None
  | Sun
  | Moon
  | Venus
deriving DecidableEq, Repr

/-- The constant `MINIMUM_AMBIENT = 0.075f`. -/
def MINIMUM_AMBIENT {K : Type} [LinearOrderedField K] : K := 0.075

/-- The constant `LUNAR_BRIGHTNESS_FACTOR = 0.2f`. -/
def LUNAR_BRIGHTNESS_FACTOR {K : Type} [LinearOrderedField K] : K := 0.2

/-- The constant `VENUS_BRIGHTNESS_FACTOR = 0.005f`. -/
def VENUS_BRIGHTNESS_FACTOR {K : Type} [LinearOrderedField K] : K := 0.005

/-- The values `calculateLightSource` returns: its return value and its four reference
parameters. -/
structure LightSource (K : Type) where
  shadowcaster : ShadowCaster
  ambientBrightness : K
  directionalBrightness : K
  lightsourcePosition : Vec3 K
  emissiveFactor : K

/-- The emissive factor of `calculateLightSource`: the landscape's effective lightscape
brightness when there is a current landscape (`lightscape = some b`), otherwise the
fallback model on the Sun's altitude sine. -/
def emissiveFactorOf {K : Type} [LinearOrderedField K] (lightscape : Option K)
    (sunPosition : Vec3 K) : K :=
  match lightscape with
  | some b => b
  | none =>
    if sunPosition.z < -0.14 then 1
    else if sunPosition.z < -0.05 then 1 - (sunPosition.z + 0.14) / (-0.05 + 0.14)
    else 0

/-- The ambient brightness of `calculateLightSource` when the shadow caster is searched:
`MINIMUM_AMBIENT`, plus `qMin(0.3, sinSunAngle+0.3)` if `sinSunAngle > -0.3f`, plus
`sqrt(sinMoonAngle * ((cos(moonPhaseAngle)+1)/2)) * LUNAR_BRIGHTNESS_FACTOR` if
`sinMoonAngle > 0.0f`. -/
def ambientOf {K : Type} [LinearOrderedField K] (sqrtf cosf : K → K)
    (sinSunAngle sinMoonAngle moonPhaseAngle : K) : K :=
  let ambientBrightness : K := MINIMUM_AMBIENT
  let ambientBrightness :=
    if sinSunAngle > -0.3 then ambientBrightness + min 0.3 (sinSunAngle + 0.3)
    else ambientBrightness
  let ambientBrightness :=
    if sinMoonAngle > 0 then
      ambientBrightness
        + sqrtf (sinMoonAngle * ((cosf moonPhaseAngle + 1) / 2)) * LUNAR_BRIGHTNESS_FACTOR
    else ambientBrightness
  ambientBrightness

/-- `Scenery3d::calculateLightSource`. The three positions are the alt-az positions of
Sun, Moon and Venus after `normalize()`; `shadows` is `shaderParameters.shadows`;
`lightscape` is the lightscape brightness of the current landscape, if there is one;
`sqrtf` and `cosf` are the library functions `sqrt` and `std::cos`. -/
def calculateLightSource {K : Type} [LinearOrderedField K] (sqrtf cosf : K → K)
    (shadows : Bool) (lightscape : Option K)
    (sunPosition moonPosition venusPosition : Vec3 K)
    (moonPhaseAngle venusPhaseAngle : K) : LightSource K :=
  let sinSunAngle := sunPosition.z
  let sinMoonAngle := moonPosition.z
  let sinVenusAngle := venusPosition.z
  let emissiveFactor := emissiveFactorOf lightscape sunPosition
  let ambientBrightness := ambientOf sqrtf cosf sinSunAngle sinMoonAngle moonPhaseAngle
  if sinSunAngle > 0 then
    { shadowcaster := if shadows then ShadowCaster.Sun else ShadowCaster.None
      ambientBrightness := ambientBrightness
      directionalBrightness := min 0.7 (sqrtf (sinSunAngle + 0.1))
      lightsourcePosition := sunPosition
      emissiveFactor := emissiveFactor }
  else if sinMoonAngle > 0 then
    let directionalBrightness :=
      sqrtf sinMoonAngle * ((cosf moonPhaseAngle + 1) / 2) * LUNAR_BRIGHTNESS_FACTOR
    let directionalBrightness := directionalBrightness - (ambientBrightness - 0.05) / 2
    let directionalBrightness := max 0 directionalBrightness
    if directionalBrightness > 0 then
      { shadowcaster := if shadows then ShadowCaster.Moon else ShadowCaster.None
        ambientBrightness := ambientBrightness
        directionalBrightness := directionalBrightness
        lightsourcePosition := moonPosition
        emissiveFactor := emissiveFactor }
    else
      { shadowcaster := ShadowCaster.None
        ambientBrightness := ambientBrightness
        directionalBrightness := directionalBrightness
        lightsourcePosition := sunPosition
        emissiveFactor := emissiveFactor }
  else if sinVenusAngle > 0 then
    let directionalBrightness :=
      sqrtf sinVenusAngle * ((cosf venusPhaseAngle + 1) / 2) * VENUS_BRIGHTNESS_FACTOR
    let directionalBrightness := directionalBrightness - (ambientBrightness - 0.05) / 2
    let directionalBrightness := max 0 directionalBrightness
    if directionalBrightness > 0 then
      { shadowcaster := if shadows then ShadowCaster.Venus else ShadowCaster.None
        ambientBrightness := ambientBrightness
        directionalBrightness := directionalBrightness
        lightsourcePosition := venusPosition
        emissiveFactor := emissiveFactor }
    else
      { shadowcaster := ShadowCaster.None
        ambientBrightness := ambientBrightness
        directionalBrightness := directionalBrightness
        lightsourcePosition := sunPosition
        emissiveFactor := emissiveFactor }
  else
    { shadowcaster := ShadowCaster.None
      ambientBrightness := ambientBrightness
      directionalBrightness := 0
      lightsourcePosition := sunPosition
      emissiveFactor := emissiveFactor }

/-- The Sun's ambient contribution in the words of the specification: `min(0.3, s + 0.3)`
while the altitude sine `s` is above -0.3, nothing otherwise. -/
def referenceSunAmbient {K : Type} [LinearOrderedField K] (sinSun : K) : K :=
  if sinSun > -0.3 then min 0.3 (sinSun + 0.3) else 0

/-- The Moon's ambient contribution in the words of the specification:
`0.2 * sqrt(m * (cos(phase) + 1) / 2)` while the altitude sine `m` is positive, nothing
otherwise. -/
def referenceMoonAmbient {K : Type} [LinearOrderedField K] (sqrtf cosf : K → K)
    (sinMoon moonPhase : K) : K :=
  if sinMoon > 0 then 0.2 * sqrtf (sinMoon * (cosf moonPhase + 1) / 2) else 0

/-- The fields of `lightInfo` written by `calculateLighting`. The torch attenuation
`1.0f / (torchRange * torchRange)` has no finite value for a zero range. -/
structure LightInfo (K : Type) where
  lightSource : ShadowCaster
  lightDirectionWorld : Vec3 K
  torchAttenuation : Option K
  ambient : Vec3 K
  directional : Vec3 K
  emissive : Vec3 K
  specular : Vec3 K
  torchDiffuse : Vec3 K

/-- `Scenery3d::calculateLighting`. `red` is `getVisionModeNight()`, `torchLight` is
`shaderParameters.torchLight`; the other arguments are those of `calculateLightSource`. -/
def calculateLighting {K : Type} [LinearOrderedField K] (sqrtf cosf : K → K)
    (red : Bool) (torchLight : Bool) (torchBrightness torchRange : K)
    (shadows : Bool) (lightscape : Option K)
    (sunPosition moonPosition venusPosition : Vec3 K)
    (moonPhaseAngle venusPhaseAngle : K) : LightInfo K :=
  let src := calculateLightSource sqrtf cosf shadows lightscape sunPosition moonPosition
    venusPosition moonPhaseAngle venusPhaseAngle
  let ambientBrightness := src.ambientBrightness
  let directionalBrightness := src.directionalBrightness
  let emissiveFactor := src.emissiveFactor
  let specular : K := min (ambientBrightness * directionalBrightness * 5) 1
  let torchDiff : K := if torchLight then torchBrightness else 0
  let torchAttenuation := fdiv 1 (torchRange * torchRange)
  if red then
    { lightSource := src.shadowcaster
      lightDirectionWorld := src.lightsourcePosition
      torchAttenuation := torchAttenuation
      ambient := ⟨ambientBrightness, 0, 0⟩
      directional := ⟨directionalBrightness, 0, 0⟩
      emissive := ⟨emissiveFactor, 0, 0⟩
      specular := ⟨specular, 0, 0⟩
      torchDiffuse := ⟨torchDiff, 0, 0⟩ }
  else
    { lightSource := src.shadowcaster
      lightDirectionWorld := src.lightsourcePosition
      torchAttenuation := torchAttenuation
      ambient := ⟨ambientBrightness, ambientBrightness, ambientBrightness⟩
      directional := ⟨directionalBrightness, directionalBrightness, directionalBrightness⟩
      emissive := ⟨emissiveFactor, emissiveFactor, emissiveFactor⟩
      specular := ⟨specular, specular, specular⟩
      torchDiffuse := ⟨torchDiff, torchDiff, torchDiff⟩ }

/-- What the caster selection of `generateShadowMap` writes: the shadow direction,
`lightInfo.shadowCaster` and `venusOn`. -/
structure CasterSelection (K : Type) where
  shadowDir : Vec3 K
  shadowCaster : ShadowCaster
  venusOn : Bool

/-- The caster selection of `Scenery3d::generateShadowMap` (reached when the shadow data
is not frozen): the chain `if (sunPosition[2]>0) ... else if (moonPosition[2]>0) ... else`.
The positions are the normalized alt-az positions of the three bodies. -/
def generateShadowMap.selectCaster {K : Type} [LinearOrderedField K]
    (sunPosition moonPosition venusPosition : Vec3 K) : CasterSelection K :=
  if sunPosition.z > 0 then
    { shadowDir := sunPosition, shadowCaster := ShadowCaster.Sun, venusOn := false }
  else if moonPosition.z > 0 then
    { shadowDir := moonPosition, shadowCaster := ShadowCaster.Moon, venusOn := false }
  else
    { shadowDir := venusPosition, shadowCaster := ShadowCaster.Venus, venusOn := true }

/-- The position of a body as given to the caster selection. -/
def bodyPosition {K : Type} (sunPosition moonPosition venusPosition : Vec3 K) :
    ShadowCaster → Option (Vec3 K)
  | ShadowCaster.None => none
  | ShadowCaster.Sun => some sunPosition
  | ShadowCaster.Moon => some moonPosition
  | ShadowCaster.Venus => some venusPosition

/-! ## Outer orthographic light volume -/

/-- Modelled from the spec: the `Vec3f` operations used by `computeOrthoProjVals` (dot
product, cross product `^`, difference, negation), whose header is not among the
sources; they are the usual vector operations. -/
def Vec3.dot {K : Type} [Ring K] (a b : Vec3 K) : K :=
  a.x * b.x + a.y * b.y + a.z * b.z

/-- Cross product, the operator `^` of `Vec3f`. -/
def Vec3.cross {K : Type} [Ring K] (a b : Vec3 K) : Vec3 K :=
  ⟨a.y * b.z - a.z * b.y, a.z * b.x - a.x * b.z, a.x * b.y - a.y * b.x⟩

/-- Difference of two vectors. -/
def Vec3.sub {K : Type} [Ring K] (a b : Vec3 K) : Vec3 K :=
  ⟨a.x - b.x, a.y - b.y, a.z - b.z⟩

/-- Negation of a vector. -/
def Vec3.neg {K : Type} [Ring K] (a : Vec3 K) : Vec3 K :=
  ⟨-a.x, -a.y, -a.z⟩

/-- Modelled from the spec: `Vec3f::normalize()`, scaling by one over the length; a zero
vector has no normalized form. `sqrtf` is the library square root. -/
def Vec3.normalize {K : Type} [LinearOrderedField K] (sqrtf : K → K) (a : Vec3 K) :
    Option (Vec3 K) := do
  let s ← fdiv 1 (sqrtf (a.dot a))
  pure ⟨a.x * s, a.y * s, a.z * s⟩

/-- Modelled from the spec: `AABB::getCorner`, the 8 corners by axis-selection bit
pattern (bit 0 selects the X bound, bit 1 the Y bound, bit 2 the Z bound). -/
def AABB.getCorner {K : Type} (b : AABB K) (i : Nat) : Vec3 K :=
  ⟨if i % 2 = 1 then b.max.x else b.min.x,
   if (i / 2) % 2 = 1 then b.max.y else b.min.y,
   if (i / 4) % 2 = 1 then b.max.z else b.min.z⟩

/-- The number of corners, `AABB::CORNERCOUNT`. -/
def AABB.CORNERCOUNT : Nat := 8

/-- The three outputs of `computeOrthoProjVals`. -/
structure OrthoProjVals (K : Type) where
  orthoExtent : K
  orthoNear : K
  orthoFar : K
deriving DecidableEq, Repr

/-- The running values `maxZ`, `minZ`, `orthoExtent` of the corner loop. -/
structure OrthoAcc (K : Type) where
  maxZ : K
  minZ : K
  orthoExtent : K

/-- Body of the corner loop of `computeOrthoProjVals`. -/
def computeOrthoProjValsStep {K : Type} [LinearOrderedField K] (sceneBoundingBox : AABB K)
    (eye vDir up down left right : Vec3 K) (acc : OrthoAcc K) (i : Nat) : OrthoAcc K :=
  let v := sceneBoundingBox.getCorner i
  let toCam := v.sub eye
  let dist := toCam.dot vDir
  let maxZ := max dist acc.maxZ
  let minZ := min dist acc.minZ
  let orthoExtent := max |toCam.dot left| acc.orthoExtent
  let orthoExtent := max |toCam.dot right| orthoExtent
  let orthoExtent := max |toCam.dot up| orthoExtent
  let orthoExtent := max |toCam.dot down| orthoExtent
  ⟨maxZ, minZ, orthoExtent⟩

/-- `Scenery3d::computeOrthoProjVals`: the light looks from `shadowDir` towards the
origin; the extent is the largest absolute projection of a corner (relative to the eye)
on `left`, `right`, the world `up` and `down`; near and far are the least and the
greatest projection on the view direction. -/
def computeOrthoProjVals {K : Type} [LinearOrderedField K] (sqrtf : K → K)
    (sceneBoundingBox : AABB K) (shadowDir : Vec3 K) : Option (OrthoProjVals K) := do
  let eye := shadowDir
  let vDir ← (eye.neg).normalize sqrtf
  let up : Vec3 K := ⟨0, 0, 1⟩
  let down := up.neg
  let left ← (vDir.cross up).normalize sqrtf
  let right := left.neg
  let acc := (List.range AABB.CORNERCOUNT).foldl
    (computeOrthoProjValsStep sceneBoundingBox eye vDir up down left right)
    ⟨-(FLT_MAX : K), (FLT_MAX : K), 0⟩
  pure ⟨acc.orthoExtent, acc.minZ, acc.maxZ⟩

/-- The view transform `QMatrix4x4::lookAt(eye, center, up)` of the Qt library applied to
a point: with `forward = normalize(center - eye)`, `side = normalize(forward x up)` and
`upVector = side x forward` the point `p` is sent to
`(side . (p - eye), upVector . (p - eye), -forward . (p - eye))`. -/
def lookAt {K : Type} [LinearOrderedField K] (sqrtf : K → K) (eye center up p : Vec3 K) :
    Option (Vec3 K) := do
  let forward ← (center.sub eye).normalize sqrtf
  let side ← (forward.cross up).normalize sqrtf
  let upVector := side.cross forward
  let t := p.sub eye
  pure ⟨side.dot t, upVector.dot t, -(forward.dot t)⟩

/-- Membership of a view-space point in the volume of
`ortho(-orthoExtent, orthoExtent, -orthoExtent, orthoExtent, orthoNear, orthoFar)`: the
camera looks down the negative Z axis, so the depth of the point is `-z`. -/
def inOrthoVolume {K : Type} [LinearOrderedField K] (o : OrthoProjVals K) (p : Vec3 K) : Prop :=
  -o.orthoExtent ≤ p.x ∧ p.x ≤ o.orthoExtent ∧ -o.orthoExtent ≤ p.y ∧ p.y ≤ o.orthoExtent
    ∧ o.orthoNear ≤ -p.z ∧ -p.z ≤ o.orthoFar

/-! ## Cubemap face rotations -/

/-- The rotation part (upper left 3x3 block, row by row) of a `QMatrix4x4` that holds a
rotation. The entries that occur are integers. -/
structure Mat3 where
  m00 : Int
  m01 : Int
  m02 : Int
  m10 : Int
  m11 : Int
  m12 : Int
  m20 : Int
  m21 : Int
  m22 : Int
deriving DecidableEq, Repr

/-- The identity, the value of a default constructed `QMatrix4x4`. -/
def Mat3.identity : Mat3 := ⟨1, 0, 0, 0, 1, 0, 0, 0, 1⟩

/-- Matrix product. -/
def Mat3.mul (a b : Mat3) : Mat3 :=
  ⟨a.m00 * b.m00 + a.m01 * b.m10 + a.m02 * b.m20,
   a.m00 * b.m01 + a.m01 * b.m11 + a.m02 * b.m21,
   a.m00 * b.m02 + a.m01 * b.m12 + a.m02 * b.m22,
   a.m10 * b.m00 + a.m11 * b.m10 + a.m12 * b.m20,
   a.m10 * b.m01 + a.m11 * b.m11 + a.m12 * b.m21,
   a.m10 * b.m02 + a.m11 * b.m12 + a.m12 * b.m22,
   a.m20 * b.m00 + a.m21 * b.m10 + a.m22 * b.m20,
   a.m20 * b.m01 + a.m21 * b.m11 + a.m22 * b.m21,
   a.m20 * b.m02 + a.m21 * b.m12 + a.m22 * b.m22⟩

/-- Transpose, the inverse of a rotation. -/
def Mat3.transpose (a : Mat3) : Mat3 :=
  ⟨a.m00, a.m10, a.m20, a.m01, a.m11, a.m21, a.m02, a.m12, a.m22⟩

/-- Determinant. -/
def Mat3.det (a : Mat3) : Int :=
  a.m00 * (a.m11 * a.m22 - a.m12 * a.m21) - a.m01 * (a.m10 * a.m22 - a.m12 * a.m20)
    + a.m02 * (a.m10 * a.m21 - a.m11 * a.m20)

/-- Matrix times column vector. -/
def Mat3.mulVec (a : Mat3) (v : Vec3 Int) : Vec3 Int :=
  ⟨a.m00 * v.x + a.m01 * v.y + a.m02 * v.z,
   a.m10 * v.x + a.m11 * v.y + a.m12 * v.z,
   a.m20 * v.x + a.m21 * v.y + a.m22 * v.z⟩

/-- Cosine and sine of the angles (in degrees) for which `QMatrix4x4::rotate` sets them
exactly: 90, 180 and 270 degrees and their negatives. Only these angles are used by
`initCubemapping`; every other angle is treated as 0 here. -/
def exactCosSin (angle : Int) : Int × Int :=
  if angle = 90 ∨ angle = -270 then (0, 1)
  else if angle = -90 ∨ angle = 270 then (0, -1)
  else if angle = 180 ∨ angle = -180 then (-1, 0)
  else (1, 0)

/-- The call `m.rotate(angle, x, y, z)` of the Qt library for a unit axis `(x, y, z)`: `m` is
multiplied on the right by the rotation about the axis by `angle` degrees. -/
def Mat3.rotate (m : Mat3) (angle x y z : Int) : Mat3 :=
  let c := (exactCosSin angle).1
  let s := (exactCosSin angle).2
  let ic := 1 - c
  m.mul
    ⟨x * x * ic + c, x * y * ic - z * s, x * z * ic + y * s,
     y * x * ic + z * s, y * y * ic + c, y * z * ic - x * s,
     x * z * ic - y * s, y * z * ic + x * s, z * z * ic + c⟩

/-- The enumeration `S3DEnum::CubemappingMode`, in increasing order. -/
inductive CubemappingMode where
  | TEXTURES
  | CUBEMAP
  | CUBEMAP_GSACCEL
deriving DecidableEq, Repr

/-- The test `cubemappingMode >= S3DEnum::CUBEMAP` (CUBEMAP or CUBEMAP_GSACCEL). -/
def CubemappingMode.geCubemap : CubemappingMode → Bool
  | CubemappingMode.TEXTURES => false
  | CubemappingMode.CUBEMAP => true
  | CubemappingMode.CUBEMAP_GSACCEL => true

/-- The array `cubeRotation[0..5]` as set up by `initCubemapping` for the mode in force
when the rotations are initialized. -/
def cubeRotation (cubemappingMode : CubemappingMode) : List Mat3 :=
  let stackBase := Mat3.identity.rotate 90 (-1) 0 0
  if cubemappingMode.geCubemap then
    [ (stackBase.rotate (-90) 0 1 0).rotate 90 0 0 1,
      (stackBase.rotate 90 0 1 0).rotate (-90) 0 0 1,
      stackBase,
      stackBase.rotate 180 (-1) 0 0,
      stackBase.rotate (-90) 1 0 0,
      (stackBase.rotate 90 1 0 0).rotate 180 0 0 1 ]
  else
    [ stackBase,
      stackBase.rotate 90 0 0 1,
      stackBase.rotate 90 0 0 (-1),
      stackBase.rotate 180 0 0 1,
      stackBase.rotate 90 1 0 0,
      stackBase.rotate 90 (-1) 0 0 ]

/-- The six axis directions +X, -X, +Y, -Y, +Z, -Z. -/
def sixAxes : List (Vec3 Int) :=
  [⟨1, 0, 0⟩, ⟨-1, 0, 0⟩, ⟨0, 1, 0⟩, ⟨0, -1, 0⟩, ⟨0, 0, 1⟩, ⟨0, 0, -1⟩]

/-- The canonical forward vector of a view: an OpenGL camera looks down its negative Z
axis. -/
def viewForward : Vec3 Int := ⟨0, 0, -1⟩

/-- A pure rotation: orthonormal with determinant 1. -/
def Mat3.isRotation (a : Mat3) : Prop :=
  a.mul a.transpose = Mat3.identity ∧ a.det = 1

instance (a : Mat3) : Decidable a.isRotation := by
  unfold Mat3.isRotation
  infer_instance

/-- The rotations applied to a vector, face by face. -/
def rotatedImages (rs : List Mat3) (v : Vec3 Int) : List (Vec3 Int) :=
  rs.map (fun r => r.mulVec v)

/-- The direction each face looks along in the scene: a rotation `r` used as view matrix
sends the scene direction `d` to the view direction `r d`, so the face looks along the
`d` with `r d = viewForward`, which is the inverse (transpose) of `r` applied to
`viewForward`. -/
def faceDirections (rs : List Mat3) : List (Vec3 Int) :=
  rs.map (fun r => r.transpose.mulVec viewForward)

/-! ## Lazy cubemap refresh -/

/-- What `update` reads from the core: the azimuth of the view direction (from
`rectToSphe`) and the current Julian day `core->getJDay()`. -/
structure CoreView (K : Type) where
  az : K
  curTime : K

/-- The members read and written by the cubemap mark of `update` and by
`drawWithCubeMap`. -/
structure LazyState (K : Type) where
  movement : Vec3 K
  lazyDrawing : Bool
  lazyInterval : K
  lastCubemapUpdate : K
  reinitCubemapping : Bool
  needsCubemapUpdate : Bool

/-- The squared length `Vec3d::lengthSquared()`. -/
def Vec3.lengthSquared {K : Type} [Ring K] (a : Vec3 K) : K :=
  a.x * a.x + a.y * a.y + a.z * a.z

/-- The vector `move` of `update`: the movement vector turned by the view azimuth. -/
def moveVector {K : Type} [LinearOrderedField K] (cosf sinf : K → K) (az : K)
    (movement : Vec3 K) : Vec3 K :=
  ⟨movement.x * cosf az + movement.y * sinf az,
   movement.x * sinf az - movement.y * cosf az,
   movement.z⟩

/-- `Scenery3d::update` up to the cubemap mark (the statements after it move the camera
and do not write `needsCubemapUpdate`). Nothing happens while `core` is `NULL`.
`JD_SECOND` is the constant `StelCore::JD_SECOND`, one second in days. -/
def update {K : Type} [LinearOrderedField K] (cosf sinf : K → K) (JD_SECOND : K)
    (core : Option (CoreView K)) (s : LazyState K) : LazyState K :=
  match core with
  | none => s
  | some c =>
    let move := moveVector cosf sinf c.az s.movement
    let curTime := c.curTime
    if s.lazyDrawing then
      if move.lengthSquared > 0 ∨ |curTime - s.lastCubemapUpdate| > s.lazyInterval * JD_SECOND
          ∨ s.reinitCubemapping = true then
        { s with needsCubemapUpdate := true }
      else
        { s with needsCubemapUpdate := false }
    else
      { s with needsCubemapUpdate := true }

/-- The two calls `drawWithCubeMap` can issue. -/
inductive CubeDrawCall where
  | generateCubeMap
  | drawFromCubeMap
deriving DecidableEq, Repr

/-- `Scenery3d::drawWithCubeMap`: the calls issued, in order, and the state afterwards
(`curTime` is `core->getJDay()`; the wall clock stamp is not modelled). -/
def drawWithCubeMap {K : Type} (curTime : K) (s : LazyState K) :
    List CubeDrawCall × LazyState K :=
  if s.needsCubemapUpdate then
    ([CubeDrawCall.generateCubeMap, CubeDrawCall.drawFromCubeMap],
      { s with lastCubemapUpdate := curTime })
  else
    ([CubeDrawCall.drawFromCubeMap], s)

/-! ## Draw orchestrator and shadow target allocation -/

/-- The members of `Scenery3d` that steer `draw` and `generateShadowMap`.
`hasStelModels` is `objModel && objModel->hasStelModels()`, `shadows` is
`shaderParameters.shadows`, `shadowFBOs` is `shadowFBOs.size()`. -/
structure DrawState where
  hasStelModels : Bool
  cubeMappingCreated : Bool
  reinitCubemapping : Bool
  shadows : Bool
  needsCubemapUpdate : Bool
  reinitShadowmapping : Bool
  shadowFBOs : Nat
  fixShadowData : Bool
  shadowmapSize : Int
  frustumSplits : Nat
  textEnabled : Bool
  debugEnabled : Bool
deriving DecidableEq, Repr

/-- The calls of `draw` that are recorded, in the order they are issued. -/
inductive DrawCall where
  | initCubemapping
  | deleteCubemapping
  | calculateLighting
  | showMessage
  | renderShadowMaps
  | drawDirect
  | drawWithCubeMap
  | drawCoordinatesText
  | drawDebug
deriving DecidableEq, Repr

/-- The framebuffer loop of `initShadowmapping`, entered at split `i` with `k` splits
left: an incomplete framebuffer breaks out of the loop with `valid` still false, the
last split (`i == frustumSplits-1`) being complete sets `valid`. `fboComplete i` is the
result of `glCheckFramebufferStatus` for split `i`. -/
def initShadowmappingLoop (fboComplete : Nat → Bool) (frustumSplits : Nat) :
    Nat → Nat → Bool
  | 0, _ => false
  | k + 1, i =>
    if !fboComplete i then false
    else if i = frustumSplits - 1 then true
    else initShadowmappingLoop fboComplete frustumSplits k (i + 1)

/-- `Scenery3d::initShadowmapping`: the old targets are deleted, the targets are
allocated when `shadowmapSize > 0`, and a message is shown when the result is not valid.
Returns `valid`, the state and the calls recorded. -/
def initShadowmapping (fboComplete : Nat → Bool) (s : DrawState) :
    Bool × DrawState × List DrawCall :=
  let s := { s with shadowFBOs := 0 }
  let r : Bool × DrawState :=
    if s.shadowmapSize > 0 then
      (initShadowmappingLoop fboComplete s.frustumSplits s.frustumSplits 0,
        { s with shadowFBOs := s.frustumSplits })
    else (false, s)
  if r.1 then (true, r.2, []) else (false, r.2, [DrawCall.showMessage])

/-- `Scenery3d::generateShadowMap` as seen from `draw`: its return value, the state and
the calls recorded. -/
def generateShadowMap (fboComplete : Nat → Bool) (s : DrawState) :
    Bool × DrawState × List DrawCall :=
  let r : Bool × DrawState × List DrawCall :=
    if s.reinitShadowmapping || s.shadowFBOs == 0 then
      initShadowmapping fboComplete { s with reinitShadowmapping := false }
    else (true, s, [])
  if !r.1 then (false, r.2.1, r.2.2)
  else if r.2.1.fixShadowData then (true, r.2.1, r.2.2)
  else (true, r.2.1, r.2.2 ++ [DrawCall.renderShadowMaps])

/-- `Scenery3d::draw`. `isPerspectiveProjection` is the test of the current projection
type; the result is the state afterwards and the calls recorded, in order. -/
def draw (isPerspectiveProjection : Bool) (fboComplete : Nat → Bool) (s : DrawState) :
    DrawState × List DrawCall :=
  if !s.hasStelModels then (s, [])
  else
    let r1 : DrawState × List DrawCall :=
      if !isPerspectiveProjection then
        if !s.cubeMappingCreated || s.reinitCubemapping then
          ({ s with cubeMappingCreated := true, reinitCubemapping := false },
            [DrawCall.initCubemapping])
        else (s, [])
      else ({ s with cubeMappingCreated := false }, [DrawCall.deleteCubemapping])
    let s1 := r1.1
    let calls := r1.2 ++ [DrawCall.calculateLighting]
    let r2 : Bool × DrawState × List DrawCall :=
      if s1.shadows then
        if isPerspectiveProjection || s1.needsCubemapUpdate then
          generateShadowMap fboComplete s1
        else (true, s1, [])
      else (true, { s1 with shadowFBOs := 0 }, [])
    if !r2.1 then (r2.2.1, calls ++ r2.2.2)
    else
      let s2 := r2.2.1
      let calls := calls ++ r2.2.2
      let calls := calls ++
        (if isPerspectiveProjection then [DrawCall.drawDirect] else [DrawCall.drawWithCubeMap])
      let calls := calls ++ (if s2.textEnabled then [DrawCall.drawCoordinatesText] else [])
      let calls := calls ++ (if s2.debugEnabled then [DrawCall.drawDebug] else [])
      (s2, calls)

/-! ## Cubemap resource set -/

/-- The cubemap members of `Scenery3d`: the mode, the GPU handles (0 means none) and the
created flag. `cubeMapTex` and `cubeSideFBO` are the arrays of 6 handles. -/
structure CubemapResources where
  cubemappingMode : CubemappingMode
  cubeMapCubeTex : Nat
  cubeMapCubeDepth : Nat
  cubeMapTex : List Nat
  cubeRB : Nat
  cubeFBO : Nat
  cubeSideFBO : List Nat
  cubeMappingCreated : Bool
deriving DecidableEq, Repr

/-- What the graphics library answers during `initCubemapping`: the names handed out by
`glGenTextures`, `glGenRenderbuffers` and `glGenFramebuffers`, the result of
`glCheckFramebufferStatus` for the framebuffer bound in iteration `i` (0 for the single
framebuffer), and `isGeometryShaderCubemapSupported()`. -/
structure GLAnswers where
  cubeTex : Nat
  depthTex : Nat
  faceTex : List Nat
  renderbuffer : Nat
  framebuffer : Nat
  sideFramebuffers : List Nat
  fboComplete : Nat → Bool
  geometryShaderSupported : Bool

/-- `Scenery3d::deleteCubemapping`: while the created flag is set, each handle that is
not zero is deleted and zeroed (the arrays are tested by their first entry and zeroed as a
whole), then the flag is cleared. -/
def deleteCubemapping (s : CubemapResources) : CubemapResources :=
  if s.cubeMappingCreated then
    { cubemappingMode := s.cubemappingMode
      cubeFBO := if s.cubeFBO ≠ 0 then 0 else s.cubeFBO
      cubeSideFBO := if s.cubeSideFBO.getD 0 0 ≠ 0 then List.replicate 6 0 else s.cubeSideFBO
      cubeRB := if s.cubeRB ≠ 0 then 0 else s.cubeRB
      cubeMapCubeDepth := if s.cubeMapCubeDepth ≠ 0 then 0 else s.cubeMapCubeDepth
      cubeMapTex := if s.cubeMapTex.getD 0 0 ≠ 0 then List.replicate 6 0 else s.cubeMapTex
      cubeMapCubeTex := if s.cubeMapCubeTex ≠ 0 then 0 else s.cubeMapCubeTex
      cubeMappingCreated := false }
  else s

/-- The framebuffer loop of the 6-FBO branch of `initCubemapping` over the remaining
face indices: an incomplete framebuffer sets `ret = false` and breaks, a complete one
sets `ret = true`. -/
def sideFramebufferLoop (fboComplete : Nat → Bool) : List Nat → Bool → Bool
  | [], ret => ret
  | i :: rest, _ => if !fboComplete i then false else sideFramebufferLoop fboComplete rest true

/-- `Scenery3d::initCubemapping` up to the framebuffer checks (the rotations and the cube
mesh that follow do not touch the handles or the flag): its return value and the
resources afterwards. -/
def initCubemapping (gl : GLAnswers) (s : CubemapResources) : Bool × CubemapResources :=
  let s := deleteCubemapping s
  let s := { s with cubeMappingCreated := true }
  let s :=
    if !gl.geometryShaderSupported ∧ s.cubemappingMode = CubemappingMode.CUBEMAP_GSACCEL then
      { s with cubemappingMode := CubemappingMode.TEXTURES }
    else s
  let s :=
    if s.cubemappingMode.geCubemap then { s with cubeMapCubeTex := gl.cubeTex }
    else { s with cubeMapTex := gl.faceTex }
  let s :=
    if s.cubemappingMode = CubemappingMode.CUBEMAP_GSACCEL then
      { s with cubeMapCubeDepth := gl.depthTex }
    else { s with cubeRB := gl.renderbuffer }
  if s.cubemappingMode = CubemappingMode.CUBEMAP_GSACCEL then
    (gl.fboComplete 0, { s with cubeFBO := gl.framebuffer })
  else
    (sideFramebufferLoop gl.fboComplete (List.range 6) false,
      { s with cubeSideFBO := gl.sideFramebuffers })

/-- Every cubemap handle is zero. -/
def CubemapResources.allZero (s : CubemapResources) : Prop :=
  s.cubeMapCubeTex = 0 ∧ s.cubeMapCubeDepth = 0 ∧ (∀ h ∈ s.cubeMapTex, h = 0) ∧ s.cubeRB = 0
    ∧ s.cubeFBO = 0 ∧ (∀ h ∈ s.cubeSideFBO, h = 0)

/-- Every handle the current mode needs is allocated: the cube texture, the cube depth
texture and the single framebuffer in the geometry accelerated mode; the cube texture, the
renderbuffer and 6 framebuffers in the cubemap mode; 6 textures, the renderbuffer and 6
framebuffers in the 6-textures mode. -/
def CubemapResources.neededAllocated (s : CubemapResources) : Prop :=
  match s.cubemappingMode with
  | CubemappingMode.CUBEMAP_GSACCEL =>
    s.cubeMapCubeTex ≠ 0 ∧ s.cubeMapCubeDepth ≠ 0 ∧ s.cubeFBO ≠ 0
  | CubemappingMode.CUBEMAP =>
    s.cubeMapCubeTex ≠ 0 ∧ s.cubeRB ≠ 0
      ∧ s.cubeSideFBO.length = 6 ∧ (∀ h ∈ s.cubeSideFBO, h ≠ 0)
  | CubemappingMode.TEXTURES =>
    s.cubeMapTex.length = 6 ∧ (∀ h ∈ s.cubeMapTex, h ≠ 0) ∧ s.cubeRB ≠ 0
      ∧ s.cubeSideFBO.length = 6 ∧ (∀ h ∈ s.cubeSideFBO, h ≠ 0)

/-- The graphics library hands out non-zero names, six for each array. -/
def GLAnswers.namesValid (gl : GLAnswers) : Prop :=
  gl.cubeTex ≠ 0 ∧ gl.depthTex ≠ 0 ∧ gl.renderbuffer ≠ 0 ∧ gl.framebuffer ≠ 0
    ∧ gl.faceTex.length = 6 ∧ (∀ h ∈ gl.faceTex, h ≠ 0)
    ∧ gl.sideFramebuffers.length = 6 ∧ (∀ h ∈ gl.sideFramebuffers, h ≠ 0)

/-- The state of the handles that `deleteCubemapping` relies on: while the created flag
is clear every handle is zero, and a handle array whose first entry is zero is zero
throughout ("if one is created, all have been created"). -/
def CubemapResources.consistent (s : CubemapResources) : Prop :=
  (s.cubeMappingCreated = false → s.allZero)
    ∧ (s.cubeMapTex.getD 0 0 = 0 → ∀ h ∈ s.cubeMapTex, h = 0)
    ∧ (s.cubeSideFBO.getD 0 0 = 0 → ∀ h ∈ s.cubeSideFBO, h = 0)

/-- The cubemap members as the constructor leaves them. -/
def initialCubemapResources : CubemapResources :=
  ⟨CubemappingMode.CUBEMAP, 0, 0, List.replicate 6 0, 0, 0, List.replicate 6 0, false⟩

/-! ## Shader requests of `drawArrays` -/

/-- Modelled from the spec: the enumeration `S3DEnum::ShadowFilterQuality`, whose header
is not among the sources; `OFF` is its lowest setting. -/
inductive ShadowFilterQuality where
  | OFF
  | HARDWARE
  | LOW
  | HIGH
deriving DecidableEq, Repr

/-- Position of a quality in the enumeration. -/
def ShadowFilterQuality.rank : ShadowFilterQuality → Nat
  | ShadowFilterQuality.OFF => 0
  | ShadowFilterQuality.HARDWARE => 1
  | ShadowFilterQuality.LOW => 2
  | ShadowFilterQuality.HIGH => 3

/-- The structure `GlobalShaderParameters`, with the members the constructor
initializes. -/
structure GlobalShaderParameters where
  shadowTransform : Bool
  pixelLighting : Bool
  shadows : Bool
  bump : Bool
  shadowFilterQuality : ShadowFilterQuality
  geometryShader : Bool
  torchLight : Bool
deriving DecidableEq, Repr

/-- The model loop of `drawArrays` as far as shaders are requested: `lastMaterial` is the
material of the previous model (`none` for `NULL`), the list holds the materials of the
remaining models. A changed material requests a shader with `getShader(pm, pMaterial)`;
a `NULL` shader (`none`) breaks out of the loop. The result lists the requests made, each
with the parameters passed. -/
def drawArraysLoop (getShader : GlobalShaderParameters → Nat → Option Nat)
    (pm : GlobalShaderParameters) : Option Nat → List Nat → List (GlobalShaderParameters × Nat)
  | _, [] => []
  | lastMaterial, pMaterial :: rest =>
    if lastMaterial ≠ some pMaterial then
      (pm, pMaterial) ::
        (match getShader pm pMaterial with
          | none => []
          | some _ => drawArraysLoop getShader pm (some pMaterial) rest)
    else drawArraysLoop getShader pm lastMaterial rest

/-- `Scenery3d::drawArrays` as far as shaders are requested: the parameters are copied
(`pm = shaderParameters`), the copy gets the filter quality `OFF` while `venusOn` is set,
and the models are walked. The result is the list of shader requests and the member
`shaderParameters` afterwards. -/
def drawArrays (venusOn : Bool) (shaderParameters : GlobalShaderParameters)
    (getShader : GlobalShaderParameters → Nat → Option Nat) (materials : List Nat) :
    List (GlobalShaderParameters × Nat) × GlobalShaderParameters :=
  let pm := shaderParameters
  let pm := if venusOn then { pm with shadowFilterQuality := ShadowFilterQuality.OFF } else pm
  (drawArraysLoop getShader pm none materials, shaderParameters)

/-! ## Reprojection cube mesh -/

/-- The constant `sub` of `initCubemapping`: subdivisions per face edge. -/
def sub : Nat := 20

/-- The constant `vtxCount = (sub+1) * (sub+1)`. -/
def vtxCount : Nat := (sub + 1) * (sub + 1)

/-- An `unsigned short` value. -/
def toUShort (n : Nat) : Nat := n % 65536

/-- The table entry `vertexIdx[y][x] = y*(sub+1)+x`. -/
def vertexIdx (y x : Nat) : Nat := toUShort (y * (sub + 1) + x)

/-- The vertices of the front face, `cubePlaneFront`: for `y`, then `x`, in `0..sub` the
point `(-1 + x*d_sub_v, 1, -1 + y*d_sub_v)` with `d_sub_v = 2/sub`. -/
def cubePlaneFront {K : Type} [LinearOrderedField K] : List (Vec3 K) :=
  (List.range (sub + 1)).flatMap fun (y : Nat) =>
    (List.range (sub + 1)).map fun (x : Nat) =>
      (⟨-1 + (x : K) * (2 / (sub : K)), 1, -1 + (y : K) * (2 / (sub : K))⟩ : Vec3 K)

/-- The indices of the front face, `frontIndices`: two triangles for each of the
`sub x sub` cells. -/
def frontIndices : List Nat :=
  (List.range sub).flatMap fun y =>
    (List.range sub).flatMap fun x =>
      [vertexIdx (y + 1) x, vertexIdx y x, vertexIdx (y + 1) (x + 1),
       vertexIdx (y + 1) (x + 1), vertexIdx y x, vertexIdx y (x + 1)]

/-- The value `idxCount = frontIndices.size()`. -/
def idxCount : Nat := frontIndices.length

/-- The vertex part of the macro `PLANE(planeId, mat)`: the vertices with index in
`[planeId*vtxCount, (planeId+1)*vtxCount)` are transformed by `mat`. -/
def planeVertices {V : Type} (planeId : Nat) (mat : V → V) (cubeVertices : List V) : List V :=
  List.zipWith
    (fun i v => if planeId * vtxCount ≤ i ∧ i < (planeId + 1) * vtxCount then mat v else v)
    (List.range cubeVertices.length) cubeVertices

/-- The index part of the macro `PLANE(planeId, mat)`: the indices at the positions
`[planeId*idxCount, (planeId+1)*idxCount)` are raised by `planeId * vtxCount`. -/
def planeIndices (planeId : Nat) (cubeIndices : List Nat) : List Nat :=
  List.zipWith
    (fun i v => if planeId * idxCount ≤ i ∧ i < (planeId + 1) * idxCount then
      toUShort (v + planeId * vtxCount) else v)
    (List.range cubeIndices.length) cubeIndices

/-- The vector `cubeVertices` built by `initCubemapping`: six copies of the front face,
the copies 1 to 5 transformed by the matrices of their `PLANE` lines (`planeMat k` is the
`transfo` of the matrix of face `k`). -/
def cubeVertices {K : Type} [LinearOrderedField K] (planeMat : Nat → Vec3 K → Vec3 K) :
    List (Vec3 K) :=
  let v0 := (List.range 6).flatMap fun _ => (cubePlaneFront : List (Vec3 K))
  planeVertices 5 (planeMat 5) (planeVertices 4 (planeMat 4) (planeVertices 3 (planeMat 3)
    (planeVertices 2 (planeMat 2) (planeVertices 1 (planeMat 1) v0))))

/-- The vector `cubeIndices` built by `initCubemapping`. -/
def cubeIndices : List Nat :=
  let i0 := (List.range 6).flatMap fun _ => frontIndices
  planeIndices 5 (planeIndices 4 (planeIndices 3 (planeIndices 2 (planeIndices 1 i0))))

/-- The member `cubeIndexCount = cubeIndices.size()`. -/
def cubeIndexCount : Nat := cubeIndices.length

/-- The value `faceIndexCount = cubeIndexCount / 6` of `drawFromCubeMap`; face `i` is drawn
from the indices `[i*faceIndexCount, (i+1)*faceIndexCount)`. -/
def faceIndexCount : Nat := cubeIndexCount / 6

/-! ## Split loop of `renderShadowMaps` -/

/-- The members the split loop writes: the lookup matrices `shadowCPM` and the current
`projectionMatrix`. `M` is the matrix type. -/
structure ShadowTargets (M : Type) where
  shadowCPM : List M
  projectionMatrix : M

/-- The calls of the split loop that are recorded: clearing the depth target of a split
(`glBindFramebuffer` and `glClear(GL_DEPTH_BUFFER_BIT)`) and the scene draw
`drawArrays(false)` into it. -/
inductive ShadowCall where
  | clearDepth (split : Nat)
  | drawScene (split : Nat)
deriving DecidableEq, Repr

/-- Body of the split loop of `renderShadowMaps`. `focusBody i` is the vertex list of the
polyhedron that `computePolyhedron` builds for split `i`; `crop body` is the pair of the
lookup matrix `computeCropMatrix` returns for it and the projection matrix it stores in
`projectionMatrix`. -/
def renderShadowMapsStep {M V : Type} (focusBody : Nat → List V) (crop : List V → M × M)
    (acc : ShadowTargets M × List ShadowCall) (i : Nat) : ShadowTargets M × List ShadowCall :=
  let calls := acc.2 ++ [ShadowCall.clearDepth i]
  if (focusBody i).length ≠ 0 then
    ({ shadowCPM := acc.1.shadowCPM.set i (crop (focusBody i)).1
       projectionMatrix := (crop (focusBody i)).2 },
      calls ++ [ShadowCall.drawScene i])
  else (acc.1, calls)

/-- The split loop of `Scenery3d::renderShadowMaps`,
`for (int i = 0; i < frustumSplits; i++)`: the members afterwards and the calls made. -/
def renderShadowMaps {M V : Type} (frustumSplits : Nat) (focusBody : Nat → List V)
    (crop : List V → M × M) (s : ShadowTargets M) : ShadowTargets M × List ShadowCall :=
  (List.range frustumSplits).foldl (renderShadowMapsStep focusBody crop) (s, [])

/-- The calls the loop is expected to make for split `i`. -/
def expectedSplitCalls {V : Type} (focusBody : Nat → List V) (i : Nat) : List ShadowCall :=
  if (focusBody i).length = 0 then [ShadowCall.clearDepth i]
  else [ShadowCall.clearDepth i, ShadowCall.drawScene i]

/-! ## Grid position -/

/-- The members read and written by `getCurrentGridPosition` and `setGridPosition`. -/
structure GridState (K : Type) where
  absolutePosition : Vec3 K
  eye_height : K
  modelWorldOffset : Vec3 K
  lastCubemapUpdate : K

/-- `Scenery3d::getCurrentGridPosition`. `zRotateMatrix v` is the product
`currentScene.zRotateMatrix * v`. -/
def getCurrentGridPosition {K : Type} [LinearOrderedField K] (zRotateMatrix : Vec3 K → Vec3 K)
    (s : GridState K) : Vec3 K :=
  let pos := zRotateMatrix s.absolutePosition.neg
  let pos : Vec3 K := ⟨pos.x + s.modelWorldOffset.x, pos.y + s.modelWorldOffset.y,
    pos.z + s.modelWorldOffset.z⟩
  { pos with z := pos.z - s.eye_height }

/-- `Scenery3d::setGridPosition`. `invRotate v` is the product
`currentScene.zRotateMatrix.inverse() * v`. -/
def setGridPosition {K : Type} [LinearOrderedField K] (invRotate : Vec3 K → Vec3 K)
    (pos : Vec3 K) (s : GridState K) : GridState K :=
  let pos : Vec3 K := { pos with z := pos.z + s.eye_height }
  let pos := pos.sub s.modelWorldOffset
  { s with absolutePosition := (invRotate pos).neg, lastCubemapUpdate := 0 }

end Scenery3d

/-! ## Projector: the field of view (`src/projector.cpp`) -/

/-- The members of `Projector` that `set_fov` and `change_fov` read and write. The
projection matrix that `init_project_matrix` recomputes from `fov` is not modelled; it
writes none of these members. -/
structure Projector (K : Type) where
  fov : K
  min_fov : K
  max_fov : K
deriving DecidableEq, Repr

namespace Projector

/-- `Projector::set_fov`: `fov = f; if (f>max_fov) fov = max_fov;
if (f<min_fov) fov = min_fov;`. -/
def set_fov {K : Type} [LinearOrderedField K] (f : K) (p : Projector K) : Projector K :=
  let p := { p with fov := f }
  let p := if f > p.max_fov then { p with fov := p.max_fov } else p
  let p := if f < p.min_fov then { p with fov := p.min_fov } else p
  p

/-- `Projector::change_fov`: under the guard `if (deltaFov)` three successive statements,
each reading the current value of `fov`:
`if (fov+deltaFov>min_fov && fov+deltaFov<max_fov) fov+=deltaFov;`
`if (fov+deltaFov>max_fov) fov=max_fov;` `if (fov+deltaFov<min_fov) fov=min_fov;`. -/
def change_fov {K : Type} [LinearOrderedField K] (deltaFov : K) (p : Projector K) :
    Projector K :=
  if deltaFov ≠ 0 then
    let p := if p.fov + deltaFov > p.min_fov ∧ p.fov + deltaFov < p.max_fov
      then { p with fov := p.fov + deltaFov } else p
    let p := if p.fov + deltaFov > p.max_fov then { p with fov := p.max_fov } else p
    let p := if p.fov + deltaFov < p.min_fov then { p with fov := p.min_fov } else p
    p
  else p

end Projector

/-! ## StelTexture: binding (`src/core/StelTexture.cpp`) -/

/-- The part of a `QImage` that `StelTexture::glLoad` reads. -/
structure QImage where
  isNull : Bool
  width : Int
  height : Int
deriving DecidableEq, Repr

/-- A `QFuture<QImage>` as `StelTexture::bind` observes it at the time of the call. -/
structure QFuture where
  isFinished : Bool
  result : QImage
deriving DecidableEq, Repr

/-- The members of `StelTexture` that `bind`, `glLoad` and `reportError` read and write.
`networkReply` is `networkReply != NULL`, `loader` is `none` for `loader == NULL`,
`isRemote` is `fullPath.startsWith("http://")`. The constructor sets
`networkReply(NULL), loader(NULL), errorOccured(false), id(0)`, width and height -1. -/
structure StelTexture where
  networkReply : Bool
  loader : Option QFuture
  errorOccured : Bool
  id : Nat
  width : Int
  height : Int
  isRemote : Bool
deriving DecidableEq, Repr

namespace StelTexture

/-- `StelTexture::reportError`: `errorOccured = true` (the message and the signal are not
modelled). -/
def reportError (t : StelTexture) : StelTexture :=
  { t with errorOccured := true }

/-- `StelTexture::glLoad`. A null image reports an error and returns false; otherwise the
size is stored, `glGenTextures(1, &id)` stores the name `genTexture` handed out by the
graphics library, and the result is true. -/
def glLoad (genTexture : Nat) (image : QImage) (t : StelTexture) : Bool × StelTexture :=
  if image.isNull then
    (false, reportError t)
  else
    (true, { t with width := image.width, height := image.height, id := genTexture })

/-- `StelTexture::bind`. `genTexture` is the name `glGenTextures` hands out if it is
called, `started` the future created by `QtConcurrent::run`. The value returned by
`glLoad` is not used by `bind`. -/
def bind (genTexture : Nat) (started : QFuture) (t : StelTexture) : Bool × StelTexture :=
  if t.id ≠ 0 then (true, t)
  else if t.errorOccured then (false, t)
  else if t.loader.isNone && !t.networkReply && t.isRemote then
    (false, { t with networkReply := true })
  else if t.networkReply then (false, t)
  else match t.loader with
    | none => (false, { t with loader := some started })
    | some loader =>
      if !loader.isFinished then (false, t)
      else
        let t := (glLoad genTexture loader.result t).2
        (true, { t with loader := none })

end StelTexture

namespace Scenery3d

/-! # Theorems -/

/-! ### Closed form of the loop for the four admissible split counts -/

theorem uniformFrusta_of_same {K : Type} (near far : K) (N : Nat) (arr : List (Frustum K))
    (hlen : arr.length = N) (hsame : ∀ f ∈ arr, f.zNear = near ∧ f.zFar = far) :
    arr = uniformFrusta near far N := by
  subst hlen
  unfold uniformFrusta
  apply List.eq_replicate_iff.mpr
  refine ⟨rfl, ?_⟩
  intro f hf
  obtain ⟨h1, h2⟩ := hsame f hf
  cases f
  simp_all

theorem computeFrustumSplits_closed {K : Type} [LinearOrderedField K] (powf : K → K → K)
    (w near far : K) (N : Nat) (hN1 : 1 ≤ N) (hN4 : N ≤ 4) :
    computeFrustumSplits powf w N (uniformFrusta near far N)
      = (List.range N).map (fun i =>
          (⟨if i = 0 then near else referenceSplitNear powf w near far N i,
            if i + 1 < N then referenceSplitNear powf w near far N (i + 1) * 1.005 else far⟩
            : Frustum K)) := by
  interval_cases N <;>
    simp [computeFrustumSplits, computeFrustumSplitsStep, uniformFrusta, referenceSplitNear,
      List.replicate, List.range, List.range.loop, List.range'] <;>
    norm_num

theorem splitNear_uniform {K : Type} [LinearOrderedField K] (powf : K → K → K)
    (w near far : K) (N : Nat) (hN1 : 1 ≤ N) (hN4 : N ≤ 4) (i : Nat) (hi : i < N) :
    splitNear powf w N (uniformFrusta near far N) i
      = if i = 0 then near else referenceSplitNear powf w near far N i := by
  unfold splitNear
  rw [computeFrustumSplits_closed powf w near far N hN1 hN4]
  simp [List.getD_eq_getElem?_getD, List.getElem?_map, List.getElem?_range hi]

theorem splitFar_uniform {K : Type} [LinearOrderedField K] (powf : K → K → K)
    (w near far : K) (N : Nat) (hN1 : 1 ≤ N) (hN4 : N ≤ 4) (i : Nat) (hi : i < N) :
    splitFar powf w N (uniformFrusta near far N) i
      = if i + 1 < N then referenceSplitNear powf w near far N (i + 1) * 1.005 else far := by
  unfold splitFar
  rw [computeFrustumSplits_closed powf w near far N hN1 hN4]
  simp [List.getD_eq_getElem?_getD, List.getElem?_map, List.getElem?_range hi]

/-! ### Facts about the reference scheme over the reals (`powf` is the real power) -/

theorem referenceSplitNear_zero (w near far : ℝ) (N : Nat) :
    referenceSplitNear Real.rpow w near far N 0 = near := by
  simp [referenceSplitNear]
  ring

theorem referenceSplitNear_lt (w near far : ℝ) (N i j : Nat) (hnear : 0 < near)
    (hfar : near < far) (hw0 : 0 ≤ w) (hw1 : w ≤ 1) (hN : 0 < N) (hij : i < j) :
    referenceSplitNear Real.rpow w near far N i < referenceSplitNear Real.rpow w near far N j := by
  have hNpos : (0 : ℝ) < N := by exact_mod_cast hN
  have hs : (i : ℝ) / N < (j : ℝ) / N :=
    div_lt_div_of_pos_right (by exact_mod_cast hij) hNpos
  have hr : 1 < far / near := (one_lt_div hnear).mpr hfar
  have hp : (far / near) ^ ((i : ℝ) / N) < (far / near) ^ ((j : ℝ) / N) :=
    Real.rpow_lt_rpow_of_exponent_lt hr hs
  have hA : near * (far / near) ^ ((i : ℝ) / N) < near * (far / near) ^ ((j : ℝ) / N) :=
    mul_lt_mul_of_pos_left hp hnear
  have hB : near + (far - near) * ((i : ℝ) / N) < near + (far - near) * ((j : ℝ) / N) := by
    have : (far - near) * ((i : ℝ) / N) < (far - near) * ((j : ℝ) / N) :=
      mul_lt_mul_of_pos_left hs (by linarith)
    linarith
  simp only [referenceSplitNear, Real.rpow_eq_pow]
  rcases eq_or_lt_of_le hw0 with h0 | h0
  · subst h0
    linarith
  · have h1 : w * (near * (far / near) ^ ((i : ℝ) / N))
        < w * (near * (far / near) ^ ((j : ℝ) / N)) := mul_lt_mul_of_pos_left hA h0
    have h2 : (1 - w) * (near + (far - near) * ((i : ℝ) / N))
        ≤ (1 - w) * (near + (far - near) * ((j : ℝ) / N)) :=
      mul_le_mul_of_nonneg_left hB.le (by linarith)
    linarith

theorem referenceSplitNear_ge_near (w near far : ℝ) (N i : Nat) (hnear : 0 < near)
    (hfar : near < far) (hw0 : 0 ≤ w) (hw1 : w ≤ 1) (hN : 0 < N) :
    near ≤ referenceSplitNear Real.rpow w near far N i := by
  rcases Nat.eq_zero_or_pos i with h | h
  · subst h
    rw [referenceSplitNear_zero]
  · have := referenceSplitNear_lt w near far N 0 i hnear hfar hw0 hw1 hN h
    rw [referenceSplitNear_zero] at this
    exact this.le

/-- Over the reals the near plane of every split follows the reference formula, split 0
included (the formula gives `near` at `i = 0`). -/
theorem splitNear_real (w near far : ℝ) (N : Nat) (hN1 : 1 ≤ N) (hN4 : N ≤ 4) (i : Nat)
    (hi : i < N) :
    splitNear Real.rpow w N (uniformFrusta near far N) i
      = referenceSplitNear Real.rpow w near far N i := by
  rw [splitNear_uniform Real.rpow w near far N hN1 hN4 i hi]
  split_ifs with h
  · subst h
    rw [referenceSplitNear_zero]
  · rfl

theorem referenceSplitNear_top (w near far : ℝ) (N : Nat) (hnear : 0 < near) (hN : 0 < N) :
    referenceSplitNear Real.rpow w near far N N = far := by
  have hNne : (N : ℝ) ≠ 0 := by exact_mod_cast hN.ne'
  simp only [referenceSplitNear, Real.rpow_eq_pow, div_self hNne, Real.rpow_one]
  field_simp
  ring

theorem referenceSplitNear_lt_far (w near far : ℝ) (N i : Nat) (hnear : 0 < near)
    (hfar : near < far) (hw0 : 0 ≤ w) (hw1 : w ≤ 1) (hi : i < N) :
    referenceSplitNear Real.rpow w near far N i < far := by
  have hN : 0 < N := by omega
  have := referenceSplitNear_lt w near far N i N hnear hfar hw0 hw1 hN hi
  rwa [referenceSplitNear_top w near far N hnear hN] at this

/-- Over the reals, the far plane of the split `i` in closed form. -/
theorem splitFar_real (w near far : ℝ) (N : Nat) (hN1 : 1 ≤ N) (hN4 : N ≤ 4) (i : Nat)
    (hi : i < N) :
    splitFar Real.rpow w N (uniformFrusta near far N) i
      = if i + 1 < N then splitNear Real.rpow w N (uniformFrusta near far N) (i + 1) * 1.005
        else far := by
  rw [splitFar_uniform Real.rpow w near far N hN1 hN4 i hi]
  split_ifs with h
  · rw [splitNear_real w near far N hN1 hN4 (i + 1) h]
  · rfl

/-! ## Claims about the cascade splitter -/

/-- C1: entered with `N` split frusta (`N` in 1..4) that all hold the same near and far,
and with split weight `w`, `computeFrustumSplits` produces the reference split scheme:
the array keeps its `N` entries, split 0's near stays `near`, split `N-1`'s far stays
`far`, and for every `i` in `1..N-1` the near plane is
`w*(near*powf(far/near, i/N)) + (1-w)*(near + (far-near)*i/N)` and the far plane of split
`i-1` is that near plane times 1.005. This holds for every `powf`. -/
theorem computeFrustumSplits_reference_scheme {K : Type} [LinearOrderedField K]
    (powf : K → K → K) (w near far : K) (N : Nat) (arr : List (Frustum K))
    (hN1 : 1 ≤ N) (hN4 : N ≤ 4) (hlen : arr.length = N)
    (hsame : ∀ f ∈ arr, f.zNear = near ∧ f.zFar = far) :
    (computeFrustumSplits powf w N arr).length = N
    ∧ splitNear powf w N arr 0 = near
    ∧ splitFar powf w N arr (N - 1) = far
    ∧ ∀ i, 1 ≤ i → i < N →
        splitNear powf w N arr i
            = w * (near * powf (far / near) ((i : K) / (N : K)))
              + (1 - w) * (near + (far - near) * ((i : K) / (N : K)))
          ∧ splitFar powf w N arr (i - 1) = splitNear powf w N arr i * 1.005 := by
  rw [uniformFrusta_of_same near far N arr hlen hsame]
  refine ⟨?_, ?_, ?_, ?_⟩
  · rw [computeFrustumSplits_closed powf w near far N hN1 hN4]
    simp
  · rw [splitNear_uniform powf w near far N hN1 hN4 0 (by omega)]
    simp
  · rw [splitFar_uniform powf w near far N hN1 hN4 (N - 1) (by omega)]
    have : ¬ (N - 1 + 1 < N) := by omega
    simp [this]
  · intro i hi1 hiN
    have hne : i ≠ 0 := by omega
    have hlt : i - 1 + 1 < N := by omega
    have hsucc : i - 1 + 1 = i := by omega
    rw [splitNear_uniform powf w near far N hN1 hN4 i hiN,
      splitFar_uniform powf w near far N hN1 hN4 (i - 1) (by omega)]
    simp only [hne, if_false, hlt, if_true, hsucc, hiN, and_true]
    rfl

/-- Witness of C1: three frusta holding near 1 and far 8, weight 1/2, real power. -/
theorem computeFrustumSplits_reference_scheme_witness :
    (1 ≤ 3 ∧ 3 ≤ 4)
    ∧ ([⟨1, 8⟩, ⟨1, 8⟩, ⟨1, 8⟩] : List (Frustum ℝ)).length = 3
    ∧ (∀ f ∈ ([⟨1, 8⟩, ⟨1, 8⟩, ⟨1, 8⟩] : List (Frustum ℝ)), f.zNear = 1 ∧ f.zFar = 8)
    ∧ (computeFrustumSplits Real.rpow (1 / 2) 3 [⟨1, 8⟩, ⟨1, 8⟩, ⟨1, 8⟩]).length = 3
    ∧ splitNear Real.rpow (1 / 2) 3 [⟨1, 8⟩, ⟨1, 8⟩, ⟨1, 8⟩] 0 = 1
    ∧ splitFar Real.rpow (1 / 2) 3 [⟨1, 8⟩, ⟨1, 8⟩, ⟨1, 8⟩] (3 - 1) = 8
    ∧ splitNear Real.rpow (1 / 2) 3 [⟨1, 8⟩, ⟨1, 8⟩, ⟨1, 8⟩] 1
        = 1 / 2 * (1 * Real.rpow (8 / 1) (((1 : Nat) : ℝ) / ((3 : Nat) : ℝ)))
          + (1 - 1 / 2) * (1 + (8 - 1) * (((1 : Nat) : ℝ) / ((3 : Nat) : ℝ)))
    ∧ splitFar Real.rpow (1 / 2) 3 [⟨1, 8⟩, ⟨1, 8⟩, ⟨1, 8⟩] (1 - 1)
        = splitNear Real.rpow (1 / 2) 3 [⟨1, 8⟩, ⟨1, 8⟩, ⟨1, 8⟩] 1 * 1.005 := by
  have hsame : ∀ f ∈ ([⟨1, 8⟩, ⟨1, 8⟩, ⟨1, 8⟩] : List (Frustum ℝ)),
      f.zNear = 1 ∧ f.zFar = 8 := by
    intro f hf
    simp at hf
    subst hf
    exact ⟨rfl, rfl⟩
  have h := computeFrustumSplits_reference_scheme Real.rpow (1 / 2) 1 8 3
    [⟨1, 8⟩, ⟨1, 8⟩, ⟨1, 8⟩] (by decide) (by decide) rfl hsame
  exact ⟨⟨by decide, by decide⟩, rfl, hsame, h.1, h.2.1, h.2.2.1,
    (h.2.2.2 1 (by decide) (by decide)).1, (h.2.2.2 1 (by decide) (by decide)).2⟩

/-- C2, counterexample: with two splits, weight 1/2, near 1000 and far 1001 the far
planes are not increasing: split 0's far `1.005 * near_1` exceeds split 1's far 1001. -/
theorem computeFrustumSplits_far_not_increasing :
    ¬ (∀ i, i < 2 - 1 →
        splitNear Real.rpow (1 / 2) 2 (uniformFrusta 1000 1001 2) i
            < splitNear Real.rpow (1 / 2) 2 (uniformFrusta 1000 1001 2) (i + 1)
          ∧ splitFar Real.rpow (1 / 2) 2 (uniformFrusta 1000 1001 2) i
            < splitFar Real.rpow (1 / 2) 2 (uniformFrusta 1000 1001 2) (i + 1)) := by
  intro h
  have h0 := (h 0 (by decide)).2
  rw [splitFar_uniform Real.rpow (1 / 2) 1000 1001 2 (by decide) (by decide) 0 (by decide),
    splitFar_uniform Real.rpow (1 / 2) 1000 1001 2 (by decide) (by decide) 1 (by decide)] at h0
  have hge := referenceSplitNear_ge_near (1 / 2) 1000 1001 2 1 (by norm_num) (by norm_num)
    (by norm_num) (by norm_num) (by decide)
  norm_num at h0
  linarith

/-- C2, amended: for `N` in 1..4, `w` in [0,1] and `0 < near < far` the near planes are
strictly increasing, the far planes are strictly increasing up to the last but one split,
and the last split's far plane exceeds the previous one exactly when
`1.005 * near_(N-1) < far`. -/
theorem computeFrustumSplits_monotone (w near far : ℝ) (N : Nat) (hN1 : 1 ≤ N) (hN4 : N ≤ 4)
    (hnear : 0 < near) (hfar : near < far) (hw0 : 0 ≤ w) (hw1 : w ≤ 1) :
    (∀ i, i + 1 < N →
        splitNear Real.rpow w N (uniformFrusta near far N) i
          < splitNear Real.rpow w N (uniformFrusta near far N) (i + 1))
    ∧ (∀ i, i + 2 < N →
        splitFar Real.rpow w N (uniformFrusta near far N) i
          < splitFar Real.rpow w N (uniformFrusta near far N) (i + 1))
    ∧ (2 ≤ N →
        (splitFar Real.rpow w N (uniformFrusta near far N) (N - 2)
            < splitFar Real.rpow w N (uniformFrusta near far N) (N - 1)
          ↔ splitNear Real.rpow w N (uniformFrusta near far N) (N - 1) * 1.005 < far)) := by
  have hN : 0 < N := hN1
  refine ⟨?_, ?_, ?_⟩
  · intro i hi
    rw [splitNear_real w near far N hN1 hN4 i (by omega),
      splitNear_real w near far N hN1 hN4 (i + 1) hi]
    exact referenceSplitNear_lt w near far N i (i + 1) hnear hfar hw0 hw1 hN (by omega)
  · intro i hi
    rw [splitFar_uniform Real.rpow w near far N hN1 hN4 i (by omega),
      splitFar_uniform Real.rpow w near far N hN1 hN4 (i + 1) (by omega)]
    have h1 : i + 1 < N := by omega
    have h2 : i + 1 + 1 < N := by omega
    simp only [h1, h2, if_true]
    have := referenceSplitNear_lt w near far N (i + 1) (i + 1 + 1) hnear hfar hw0 hw1 hN
      (by omega)
    linarith
  · intro h2
    have e : N - 2 + 1 = N - 1 := by omega
    have h1 : N - 2 + 1 < N := by omega
    have h3 : ¬ (N - 1 + 1 < N) := by omega
    have h4 : N - 1 < N := by omega
    rw [splitFar_real w near far N hN1 hN4 (N - 2) (by omega),
      splitFar_real w near far N hN1 hN4 (N - 1) (by omega)]
    simp only [h1, h3, h4, if_true, if_false, e]

/-- Witness of C2 (amended): three splits, weight 1/2, near 1, far 100. -/
theorem computeFrustumSplits_monotone_witness :
    (1 ≤ 3 ∧ 3 ≤ 4 ∧ (0 : ℝ) < 1 ∧ (1 : ℝ) < 100 ∧ (0 : ℝ) ≤ 1 / 2 ∧ (1 / 2 : ℝ) ≤ 1)
    ∧ (∀ i, i + 1 < 3 →
        splitNear Real.rpow (1 / 2) 3 (uniformFrusta 1 100 3) i
          < splitNear Real.rpow (1 / 2) 3 (uniformFrusta 1 100 3) (i + 1))
    ∧ (∀ i, i + 2 < 3 →
        splitFar Real.rpow (1 / 2) 3 (uniformFrusta 1 100 3) i
          < splitFar Real.rpow (1 / 2) 3 (uniformFrusta 1 100 3) (i + 1)) := by
  have h := computeFrustumSplits_monotone (1 / 2) 1 100 3 (by decide) (by decide)
    (by norm_num) (by norm_num) (by norm_num) (by norm_num)
  exact ⟨⟨by decide, by decide, by norm_num, by norm_num, by norm_num, by norm_num⟩,
    h.1, h.2.1⟩

/-- Coverage step: a depth `z` at or beyond the near plane of split `k` and not beyond
`far` lies in one of the splits `k..N-1`. -/
theorem computeFrustumSplits_cover_from (w near far : ℝ) (N : Nat) (hN1 : 1 ≤ N) (hN4 : N ≤ 4)
    (hnear : 0 < near) (hfar : near < far) (hw0 : 0 ≤ w) (hw1 : w ≤ 1) (z : ℝ) (hz : z ≤ far)
    (d k : Nat) (hk : k + d + 1 = N)
    (hkz : splitNear Real.rpow w N (uniformFrusta near far N) k ≤ z) :
    ∃ i, i < N ∧ splitNear Real.rpow w N (uniformFrusta near far N) i ≤ z
      ∧ z ≤ splitFar Real.rpow w N (uniformFrusta near far N) i := by
  induction d generalizing k with
  | zero =>
    refine ⟨k, by omega, hkz, ?_⟩
    rw [splitFar_real w near far N hN1 hN4 k (by omega)]
    have : ¬ (k + 1 < N) := by omega
    simpa [this] using hz
  | succ d ih =>
    by_cases hzk : z ≤ splitFar Real.rpow w N (uniformFrusta near far N) k
    · exact ⟨k, by omega, hkz, hzk⟩
    · apply ih (k + 1) (by omega)
      have hlt : k + 1 < N := by omega
      rw [splitFar_real w near far N hN1 hN4 k (by omega)] at hzk
      simp only [hlt, if_true] at hzk
      have hpos : near ≤ splitNear Real.rpow w N (uniformFrusta near far N) (k + 1) := by
        rw [splitNear_real w near far N hN1 hN4 (k + 1) hlt]
        exact referenceSplitNear_ge_near w near far N (k + 1) hnear hfar hw0 hw1 hN1
      norm_num at hzk
      nlinarith

/-- C3, counterexample: with two splits, weight 1/2, near 1000 and far 1001 the ranges
do not stay inside `[near, far]`: split 0 reaches beyond 1001. -/
theorem computeFrustumSplits_union_exceeds_far :
    ¬ (∀ i, i < 2 → ∀ z : ℝ,
        splitNear Real.rpow (1 / 2) 2 (uniformFrusta 1000 1001 2) i ≤ z →
        z ≤ splitFar Real.rpow (1 / 2) 2 (uniformFrusta 1000 1001 2) i →
        1000 ≤ z ∧ z ≤ 1001) := by
  intro h
  have hn : splitNear Real.rpow (1 / 2) 2 (uniformFrusta 1000 1001 2) 0 = 1000 := by
    rw [splitNear_uniform Real.rpow (1 / 2) 1000 1001 2 (by decide) (by decide) 0 (by decide)]
    simp
  have hf : splitFar Real.rpow (1 / 2) 2 (uniformFrusta 1000 1001 2) 0
      = referenceSplitNear Real.rpow (1 / 2) 1000 1001 2 1 * 1.005 := by
    rw [splitFar_uniform Real.rpow (1 / 2) 1000 1001 2 (by decide) (by decide) 0 (by decide)]
    simp
  have hge := referenceSplitNear_ge_near (1 / 2) 1000 1001 2 1 (by norm_num) (by norm_num)
    (by norm_num) (by norm_num) (by decide)
  have h0 := h 0 (by decide) (splitFar Real.rpow (1 / 2) 2 (uniformFrusta 1000 1001 2) 0)
    (by rw [hn, hf]; norm_num; linarith) le_rfl
  rw [hf] at h0
  have := h0.2
  norm_num at this
  linarith

/-- C3, amended: for `N` in 1..4, `w` in [0,1] and `0 < near < far` consecutive ranges
leave no gap, every depth of `[near, far]` lies in some range, no range starts below
`near`, and every range ends at or below `max far (1.005 * near_(N-1))`; the union is
therefore `[near, far]` itself when `1.005 * near_(N-1) ≤ far`. -/
theorem computeFrustumSplits_cover (w near far : ℝ) (N : Nat) (hN1 : 1 ≤ N) (hN4 : N ≤ 4)
    (hnear : 0 < near) (hfar : near < far) (hw0 : 0 ≤ w) (hw1 : w ≤ 1) :
    (∀ i, i + 1 < N →
        splitNear Real.rpow w N (uniformFrusta near far N) (i + 1)
          ≤ splitFar Real.rpow w N (uniformFrusta near far N) i)
    ∧ (∀ z, near ≤ z → z ≤ far →
        ∃ i, i < N ∧ splitNear Real.rpow w N (uniformFrusta near far N) i ≤ z
          ∧ z ≤ splitFar Real.rpow w N (uniformFrusta near far N) i)
    ∧ (∀ i, i < N → near ≤ splitNear Real.rpow w N (uniformFrusta near far N) i)
    ∧ (∀ i, i < N →
        splitFar Real.rpow w N (uniformFrusta near far N) i
          ≤ max far (splitNear Real.rpow w N (uniformFrusta near far N) (N - 1) * 1.005)) := by
  have hN : 0 < N := hN1
  have hge : ∀ i, i < N → near ≤ splitNear Real.rpow w N (uniformFrusta near far N) i := by
    intro i hi
    rw [splitNear_real w near far N hN1 hN4 i hi]
    exact referenceSplitNear_ge_near w near far N i hnear hfar hw0 hw1 hN
  refine ⟨?_, ?_, hge, ?_⟩
  · intro i hi
    rw [splitFar_real w near far N hN1 hN4 i (by omega)]
    simp only [hi, if_true]
    have := hge (i + 1) hi
    norm_num
    nlinarith
  · intro z hz1 hz2
    apply computeFrustumSplits_cover_from w near far N hN1 hN4 hnear hfar hw0 hw1 z hz2
      (N - 1) 0 (by omega)
    rw [splitNear_uniform Real.rpow w near far N hN1 hN4 0 hN]
    simpa using hz1
  · intro i hi
    rw [splitFar_real w near far N hN1 hN4 i hi]
    split_ifs with h
    · apply le_max_of_le_right
      have hmono : splitNear Real.rpow w N (uniformFrusta near far N) (i + 1)
          ≤ splitNear Real.rpow w N (uniformFrusta near far N) (N - 1) := by
        rw [splitNear_real w near far N hN1 hN4 (i + 1) h,
          splitNear_real w near far N hN1 hN4 (N - 1) (by omega)]
        rcases Nat.lt_or_ge (i + 1) (N - 1) with hlt | hge2
        · exact (referenceSplitNear_lt w near far N (i + 1) (N - 1) hnear hfar hw0 hw1 hN
            hlt).le
        · have : i + 1 = N - 1 := by omega
          rw [this]
      norm_num
      linarith
    · exact le_max_left _ _

/-- Witness of C3 (amended): four splits, weight 7/10, near 1, far 400. -/
theorem computeFrustumSplits_cover_witness :
    (1 ≤ 4 ∧ 4 ≤ 4 ∧ (0 : ℝ) < 1 ∧ (1 : ℝ) < 400 ∧ (0 : ℝ) ≤ 7 / 10 ∧ (7 / 10 : ℝ) ≤ 1)
    ∧ (∀ i, i + 1 < 4 →
        splitNear Real.rpow (7 / 10) 4 (uniformFrusta 1 400 4) (i + 1)
          ≤ splitFar Real.rpow (7 / 10) 4 (uniformFrusta 1 400 4) i)
    ∧ (∀ z, (1 : ℝ) ≤ z → z ≤ 400 →
        ∃ i, i < 4 ∧ splitNear Real.rpow (7 / 10) 4 (uniformFrusta 1 400 4) i ≤ z
          ∧ z ≤ splitFar Real.rpow (7 / 10) 4 (uniformFrusta 1 400 4) i) := by
  have h := computeFrustumSplits_cover (7 / 10) 1 400 4 (by decide) (by decide)
    (by norm_num) (by norm_num) (by norm_num) (by norm_num)
  exact ⟨⟨by decide, by decide, by norm_num, by norm_num, by norm_num, by norm_num⟩,
    h.1, h.2.1⟩

/-- C4, counterexample: with two splits, weight 1/2, near 1 and far 100 the overlap of
splits 0 and 1 is more than 0.5% of the length of split 0. -/
theorem computeFrustumSplits_overlap_exceeds_half_percent :
    ¬ (∀ i, i < 2 - 1 →
        splitFar Real.rpow (1 / 2) 2 (uniformFrusta 1 100 2) i
            - splitNear Real.rpow (1 / 2) 2 (uniformFrusta 1 100 2) (i + 1)
          ≤ 0.005 * (splitFar Real.rpow (1 / 2) 2 (uniformFrusta 1 100 2) i
              - splitNear Real.rpow (1 / 2) 2 (uniformFrusta 1 100 2) i)) := by
  intro h
  have h0 := h 0 (by decide)
  rw [splitFar_uniform Real.rpow (1 / 2) 1 100 2 (by decide) (by decide) 0 (by decide),
    splitNear_uniform Real.rpow (1 / 2) 1 100 2 (by decide) (by decide) 0 (by decide),
    splitNear_uniform Real.rpow (1 / 2) 1 100 2 (by decide) (by decide) 1 (by decide)] at h0
  have hlt := referenceSplitNear_lt_far (1 / 2) 1 100 2 1 (by norm_num) (by norm_num)
    (by norm_num) (by norm_num) (by decide)
  norm_num at h0
  linarith

/-- C4, amended: for `N` in 1..4 the overlap between consecutive splits,
`far_i - near_(i+1)`, is 0.5% of the next split's near distance `near_(i+1)`, for every
`i < N-1`. -/
theorem computeFrustumSplits_overlap {K : Type} [LinearOrderedField K] (powf : K → K → K)
    (w near far : K) (N : Nat) (hN1 : 1 ≤ N) (hN4 : N ≤ 4) (i : Nat) (hi : i + 1 < N) :
    splitFar powf w N (uniformFrusta near far N) i
        - splitNear powf w N (uniformFrusta near far N) (i + 1)
      = 0.005 * splitNear powf w N (uniformFrusta near far N) (i + 1) := by
  have hne : i + 1 ≠ 0 := by omega
  rw [splitFar_uniform powf w near far N hN1 hN4 i (by omega),
    splitNear_uniform powf w near far N hN1 hN4 (i + 1) hi]
  simp only [hi, if_true, hne, if_false]
  norm_num
  ring

/-- Witness of C4 (amended): splits 1 and 2 of three, weight 6/10, near 2, far 150. -/
theorem computeFrustumSplits_overlap_witness :
    (1 ≤ 3 ∧ 3 ≤ 4 ∧ 1 + 1 < 3)
    ∧ splitFar Real.rpow (6 / 10) 3 (uniformFrusta 2 150 3) 1
        - splitNear Real.rpow (6 / 10) 3 (uniformFrusta 2 150 3) (1 + 1)
      = 0.005 * splitNear Real.rpow (6 / 10) 3 (uniformFrusta 2 150 3) (1 + 1) :=
  ⟨⟨by decide, by decide, by decide⟩,
    computeFrustumSplits_overlap Real.rpow (6 / 10) 2 150 3 (by decide) (by decide) 1
      (by decide)⟩

/-! ## Claims about the split weight selection -/

/-- C5, counterexample: for the bounding box (0,0,0)-(100,100,20) and no override weight
`finalizeLoad` does not select 0.5. -/
theorem finalizeLoad_boundary_100_not_half :
    finalizeLoad (⟨⟨0, 0, 0⟩, ⟨100, 100, 20⟩⟩ : AABB ℚ) (-1) ≠ 0.5 := by
  norm_num [finalizeLoad, FLT_MAX]

/-- C5, amended: with no override weight (configured weight negative) `finalizeLoad`
selects 0.6 for the bounding box (0,0,0)-(100,100,20): the size 100 fails the strict test
`maxSize < 100` and passes `maxSize < 200`. -/
theorem finalizeLoad_boundary_100 {K : Type} [LinearOrderedField K] (shadowSplitWeight : K)
    (hneg : shadowSplitWeight < 0) :
    finalizeLoad (⟨⟨0, 0, 0⟩, ⟨100, 100, 20⟩⟩ : AABB K) shadowSplitWeight = 0.60 := by
  have hpos : (0 : K) ≤ (FLT_MAX : K) := Nat.cast_nonneg _
  have h0 : max (100 : K) (-(FLT_MAX : K)) = 100 := max_eq_left (by linarith)
  have h1 : max (100 : K) (max 100 (-(FLT_MAX : K))) = 100 := by
    rw [h0, max_self]
  simp only [finalizeLoad, hneg, if_true, h1]
  norm_num

/-- Witness of C5 (amended): configured weight -1 over the rationals. -/
theorem finalizeLoad_boundary_100_witness :
    (-1 : ℚ) < 0 ∧ finalizeLoad (⟨⟨0, 0, 0⟩, ⟨100, 100, 20⟩⟩ : AABB ℚ) (-1) = 0.60 :=
  ⟨by norm_num, finalizeLoad_boundary_100 (-1) (by norm_num)⟩

/-- C6, evaluation at the failing input: the bounding box (-150,-150,0)-(50,50,10) has
horizontal extent 200, for which the table gives 0.7, while `finalizeLoad` (which reads
only the `max` corner) selects 0.5. -/
theorem finalizeLoad_ignores_min_corner :
    horizontalExtent (⟨⟨-150, -150, 0⟩, ⟨50, 50, 10⟩⟩ : AABB ℚ) = 200
    ∧ referenceSplitWeight (200 : ℚ) = 0.7
    ∧ finalizeLoad (⟨⟨-150, -150, 0⟩, ⟨50, 50, 10⟩⟩ : AABB ℚ) (-1) = 0.5 := by
  refine ⟨?_, ?_, ?_⟩
  · norm_num [horizontalExtent]
  · norm_num [referenceSplitWeight]
  · norm_num [finalizeLoad, FLT_MAX]

/-! ## The bounds loop of `computeCropMatrix` -/

/-- One loop iteration only widens the bounds, and the new bounds hold the vertex. -/
theorem boundsStep_spec {K : Type} [LinearOrderedField K] (lightMVP : Vec3 K → Vec3 K)
    (b : Bounds K) (v : Vec3 K) :
    (boundsStep lightMVP b v).widerThan b ∧ (boundsStep lightMVP b v).holds (lightMVP v) := by
  simp only [boundsStep, Bounds.widerThan, Bounds.holds]
  refine ⟨⟨?_, ?_, ?_, ?_, ?_, ?_⟩, ?_, ?_, ?_, ?_, ?_, ?_⟩ <;>
    split_ifs with h <;> first | exact le_rfl | exact le_of_lt h | exact le_of_not_lt h

theorem Bounds.holds_of_widerThan {K : Type} [LinearOrderedField K] (r b : Bounds K)
    (p : Vec3 K) (hw : r.widerThan b) (hp : b.holds p) : r.holds p := by
  obtain ⟨h1, h2, h3, h4, h5, h6⟩ := hw
  obtain ⟨g1, g2, g3, g4, g5, g6⟩ := hp
  exact ⟨h1.trans g1, g2.trans h2, h3.trans g3, g4.trans h4, h5.trans g5, g6.trans h6⟩

theorem Bounds.widerThan_trans {K : Type} [LinearOrderedField K] (r b c : Bounds K)
    (h1 : r.widerThan b) (h2 : b.widerThan c) : r.widerThan c := by
  obtain ⟨a1, a2, a3, a4, a5, a6⟩ := h1
  obtain ⟨b1, b2, b3, b4, b5, b6⟩ := h2
  exact ⟨a1.trans b1, b2.trans a2, a3.trans b3, b4.trans a4, a5.trans b5, b6.trans a6⟩

/-- The loop, started from any bounds, ends with bounds that are wider than the initial
ones and hold every vertex of the focus body (in light-clip space). -/
theorem foldl_boundsStep_spec {K : Type} [LinearOrderedField K] (lightMVP : Vec3 K → Vec3 K)
    (focusBody : List (Vec3 K)) (b0 : Bounds K) :
    (focusBody.foldl (boundsStep lightMVP) b0).widerThan b0
    ∧ ∀ v ∈ focusBody, (focusBody.foldl (boundsStep lightMVP) b0).holds (lightMVP v) := by
  induction focusBody generalizing b0 with
  | nil =>
    refine ⟨?_, ?_⟩
    · simp [Bounds.widerThan]
    · intro v hv
      simp at hv
  | cons a rest ih =>
    obtain ⟨hw, hall⟩ := ih (boundsStep lightMVP b0 a)
    obtain ⟨sw, sh⟩ := boundsStep_spec lightMVP b0 a
    simp only [List.foldl_cons]
    refine ⟨Bounds.widerThan_trans _ _ _ hw sw, ?_⟩
    intro v hv
    rcases List.mem_cons.mp hv with rfl | hmem
    · exact Bounds.holds_of_widerThan _ _ _ hw sh
    · exact hall v hmem

/-- Every vertex of the focus body lies within the bounds found by the vertex loop. -/
theorem lightSpaceBounds_holds {K : Type} [LinearOrderedField K] (lightMVP : Vec3 K → Vec3 K)
    (focusBody : List (Vec3 K)) (v : Vec3 K) (hv : v ∈ focusBody) :
    (lightSpaceBounds lightMVP focusBody).holds (lightMVP v) :=
  (foldl_boundsStep_spec lightMVP focusBody initialBounds).2 v hv

/-- The far plane adjustment touches `maxZ` only. -/
theorem adjustFarZ_fields {K : Type} [LinearOrderedField K] (perspective : Bool)
    (b : Bounds K) :
    (adjustFarZ perspective b).maxX = b.maxX ∧ (adjustFarZ perspective b).minX = b.minX
    ∧ (adjustFarZ perspective b).maxY = b.maxY ∧ (adjustFarZ perspective b).minY = b.minY
    ∧ (adjustFarZ perspective b).minZ = b.minZ := by
  cases perspective <;> simp [adjustFarZ]

/-- A depth that is within the loop bounds and at most 1 is at most the far-Z bound. -/
theorem le_adjustFarZ_maxZ {K : Type} [LinearOrderedField K] (perspective : Bool)
    (b : Bounds K) (z : K) (h1 : b.minZ ≤ z) (h2 : z ≤ b.maxZ) (h3 : z ≤ 1) :
    z ≤ (adjustFarZ perspective b).maxZ := by
  cases perspective
  · simpa [adjustFarZ] using h3
  · simp only [adjustFarZ, if_true]
    apply le_min _ h3
    have : (0 : K) ≤ (b.maxZ - b.minZ) * 0.05 := by
      apply mul_nonneg
      · linarith
      · norm_num
    linarith

/-- The tight scale and offset of one axis map `[lo, hi]` onto `[-1, 1]`. -/
theorem tight_axis_range {K : Type} [LinearOrderedField K] (lo hi p : K) (hlt : lo < hi)
    (h1 : lo ≤ p) (h2 : p ≤ hi) :
    -1 ≤ 2 / (hi - lo) * p + cropOffset hi lo (2 / (hi - lo))
    ∧ 2 / (hi - lo) * p + cropOffset hi lo (2 / (hi - lo)) ≤ 1 := by
  have hd : 0 < hi - lo := by linarith
  have e : 2 / (hi - lo) * p + cropOffset hi lo (2 / (hi - lo))
      = (2 * p - (hi + lo)) / (hi - lo) := by
    unfold cropOffset
    field_simp
    ring
  rw [e]
  constructor
  · rw [le_div_iff₀ hd]
    linarith
  · rw [div_le_iff₀ hd]
    linarith

/-- The Z scale and offset map `[lo, hi]` onto `[0, 1]`. -/
theorem tight_depth_range {K : Type} [LinearOrderedField K] (lo hi p : K) (hlt : lo < hi)
    (h1 : lo ≤ p) (h2 : p ≤ hi) :
    0 ≤ 1 / (hi - lo) * p + -lo * (1 / (hi - lo))
    ∧ 1 / (hi - lo) * p + -lo * (1 / (hi - lo)) ≤ 1 := by
  have hd : 0 < hi - lo := by linarith
  have e : 1 / (hi - lo) * p + -lo * (1 / (hi - lo)) = (p - lo) / (hi - lo) := by
    field_simp
    ring
  rw [e]
  constructor
  · apply div_nonneg <;> linarith
  · rw [div_le_iff₀ hd]
    linarith

/-! ## Claims about the crop matrix -/

/-- C7, counterexample: two non-empty focus bodies for which the crop transform prior to
quantization does not map every vertex into the canonical volume. For the single vertex
body the X range `maxX - minX` is zero, so the scale `2/(maxX-minX)` has no finite
value; for the body with a vertex of light-clip depth 2 (display not perspective, far-Z
bound 1) that vertex is mapped to depth 2. -/
theorem tightCropMatrix_not_always_canonical :
    tightCropMatrix (K := ℚ) id true [⟨0, 0, 0⟩] = none
    ∧ ¬ (∃ c, tightCropMatrix (K := ℚ) id false [⟨-1, -1, 0⟩, ⟨1, 1, 2⟩] = some c
          ∧ ∀ v ∈ ([⟨-1, -1, 0⟩, ⟨1, 1, 2⟩] : List (Vec3 ℚ)),
              inCanonicalVolume (applyCrop c (id v))) := by
  have hb1 : cropBounds (K := ℚ) id true [⟨0, 0, 0⟩] = ⟨0, 0, 0, 0, 0, 0⟩ := by
    norm_num [cropBounds, lightSpaceBounds, boundsStep, initialBounds, adjustFarZ, FLT_MAX]
  have hb2 : cropBounds (K := ℚ) id false [⟨-1, -1, 0⟩, ⟨1, 1, 2⟩] = ⟨1, 1, 1, -1, -1, 0⟩ := by
    norm_num [cropBounds, lightSpaceBounds, boundsStep, initialBounds, adjustFarZ, FLT_MAX]
  constructor
  · simp [tightCropMatrix, hb1, fdiv]
  · rintro ⟨c, hc, hall⟩
    have h2 := hall ⟨1, 1, 2⟩ (by simp)
    simp [tightCropMatrix, hb2, fdiv] at hc
    subst hc
    norm_num [inCanonicalVolume, applyCrop, cropOffset] at h2

/-- C7, amended: for every focus body whose light-clip-space bounds are not degenerate
(`minX < maxX`, `minY < maxY`, `minZ` below the far-Z bound) and whose vertices have
light-clip depth at most 1, the crop transform that `computeCropMatrix` derives before
quantization and snapping exists and maps every vertex of the body, taken in light-clip
space, into `[-1,1] x [-1,1] x [0,1]`. -/
theorem tightCropMatrix_maps_into_canonical {K : Type} [LinearOrderedField K]
    (lightMVP : Vec3 K → Vec3 K) (perspective : Bool) (focusBody : List (Vec3 K))
    (hx : (lightSpaceBounds lightMVP focusBody).minX < (lightSpaceBounds lightMVP focusBody).maxX)
    (hy : (lightSpaceBounds lightMVP focusBody).minY < (lightSpaceBounds lightMVP focusBody).maxY)
    (hz : (lightSpaceBounds lightMVP focusBody).minZ
      < (cropBounds lightMVP perspective focusBody).maxZ)
    (hdepth : ∀ v ∈ focusBody, (lightMVP v).z ≤ 1) :
    ∃ c, tightCropMatrix lightMVP perspective focusBody = some c
      ∧ ∀ v ∈ focusBody, inCanonicalVolume (applyCrop c (lightMVP v)) := by
  obtain ⟨e1, e2, e3, e4, e5⟩ :=
    adjustFarZ_fields perspective (lightSpaceBounds lightMVP focusBody)
  have hcb : cropBounds lightMVP perspective focusBody
      = adjustFarZ perspective (lightSpaceBounds lightMVP focusBody) := rfl
  rw [hcb] at hz
  have dx : (adjustFarZ perspective (lightSpaceBounds lightMVP focusBody)).maxX
      - (adjustFarZ perspective (lightSpaceBounds lightMVP focusBody)).minX ≠ 0 := by
    rw [e1, e2]
    exact (sub_pos.mpr hx).ne'
  have dy : (adjustFarZ perspective (lightSpaceBounds lightMVP focusBody)).maxY
      - (adjustFarZ perspective (lightSpaceBounds lightMVP focusBody)).minY ≠ 0 := by
    rw [e3, e4]
    exact (sub_pos.mpr hy).ne'
  have dz : (adjustFarZ perspective (lightSpaceBounds lightMVP focusBody)).maxZ
      - (adjustFarZ perspective (lightSpaceBounds lightMVP focusBody)).minZ ≠ 0 := by
    rw [e5]
    exact (sub_pos.mpr hz).ne'
  refine ⟨_, by
    simp only [tightCropMatrix, hcb, fdiv, dx, dy, dz, if_false, Option.bind_eq_bind,
      Option.some_bind, Option.pure_def]
    exact rfl, ?_⟩
  intro v hv
  obtain ⟨b1, b2, b3, b4, b5, b6⟩ := lightSpaceBounds_holds lightMVP focusBody v hv
  have hfar := le_adjustFarZ_maxZ perspective (lightSpaceBounds lightMVP focusBody)
    (lightMVP v).z b5 b6 (hdepth v hv)
  obtain ⟨x1, x2⟩ := tight_axis_range _ _ (lightMVP v).x hx b1 b2
  obtain ⟨y1, y2⟩ := tight_axis_range _ _ (lightMVP v).y hy b3 b4
  obtain ⟨z1, z2⟩ := tight_depth_range _ _ (lightMVP v).z hz b5 hfar
  simp only [inCanonicalVolume, applyCrop, e1, e2, e3, e4, e5]
  exact ⟨x1, x2, y1, y2, z1, z2⟩

/-- Witness of C7 (amended): a body with the two vertices (-1,-1,0) and (1/3,1,1/2),
already in light-clip space, perspective display. -/
theorem tightCropMatrix_maps_into_canonical_witness :
    ((lightSpaceBounds (K := ℚ) id [⟨-1, -1, 0⟩, ⟨1 / 3, 1, 1 / 2⟩]).minX
        < (lightSpaceBounds (K := ℚ) id [⟨-1, -1, 0⟩, ⟨1 / 3, 1, 1 / 2⟩]).maxX)
    ∧ (∀ v ∈ ([⟨-1, -1, 0⟩, ⟨1 / 3, 1, 1 / 2⟩] : List (Vec3 ℚ)), (id v).z ≤ 1)
    ∧ ∃ c, tightCropMatrix (K := ℚ) id true [⟨-1, -1, 0⟩, ⟨1 / 3, 1, 1 / 2⟩] = some c
        ∧ ∀ v ∈ ([⟨-1, -1, 0⟩, ⟨1 / 3, 1, 1 / 2⟩] : List (Vec3 ℚ)),
            inCanonicalVolume (applyCrop c (id v)) := by
  have hl : lightSpaceBounds (K := ℚ) id [⟨-1, -1, 0⟩, ⟨1 / 3, 1, 1 / 2⟩]
      = ⟨1 / 3, 1, 1 / 2, -1, -1, 0⟩ := by
    norm_num [lightSpaceBounds, boundsStep, initialBounds, FLT_MAX]
  have hc : cropBounds (K := ℚ) id true [⟨-1, -1, 0⟩, ⟨1 / 3, 1, 1 / 2⟩]
      = ⟨1 / 3, 1, 21 / 40, -1, -1, 0⟩ := by
    norm_num [cropBounds, hl, adjustFarZ]
  have hd : ∀ v ∈ ([⟨-1, -1, 0⟩, ⟨1 / 3, 1, 1 / 2⟩] : List (Vec3 ℚ)), (id v).z ≤ 1 := by
    intro v hv
    simp at hv
    rcases hv with rfl | rfl <;> norm_num
  exact ⟨by rw [hl]; norm_num, hd,
    tightCropMatrix_maps_into_canonical id true [⟨-1, -1, 0⟩, ⟨1 / 3, 1, 1 / 2⟩]
      (by rw [hl]; norm_num) (by rw [hl]; norm_num) (by rw [hl, hc]; norm_num) hd⟩

/-- C8, counterexample: with a perspective display and a focus body whose light-clip
depths span [0, 1] the far-Z bound is 1, not the maximum depth extended by 5% of the
depth range (1.05). -/
theorem cropBounds_far_not_extended :
    (cropBounds (K := ℚ) id true [⟨0, 0, 0⟩, ⟨1, 1, 1⟩]).maxZ
      ≠ (lightSpaceBounds (K := ℚ) id [⟨0, 0, 0⟩, ⟨1, 1, 1⟩]).maxZ
        + ((lightSpaceBounds (K := ℚ) id [⟨0, 0, 0⟩, ⟨1, 1, 1⟩]).maxZ
          - (lightSpaceBounds (K := ℚ) id [⟨0, 0, 0⟩, ⟨1, 1, 1⟩]).minZ) * 0.05 := by
  have hl : lightSpaceBounds (K := ℚ) id [⟨0, 0, 0⟩, ⟨1, 1, 1⟩] = ⟨1, 1, 1, 0, 0, 0⟩ := by
    norm_num [lightSpaceBounds, boundsStep, initialBounds, FLT_MAX]
  norm_num [cropBounds, hl, adjustFarZ]

/-- C8, amended: the far-Z bound used for the crop is, with a perspective display, the
focus body's maximum light-clip depth extended by 5% of its depth range and capped at
1.0, and is exactly 1.0 for every other display projection. -/
theorem cropBounds_far {K : Type} [LinearOrderedField K] (lightMVP : Vec3 K → Vec3 K)
    (perspective : Bool) (focusBody : List (Vec3 K)) :
    (cropBounds lightMVP perspective focusBody).maxZ
      = if perspective then
          min ((lightSpaceBounds lightMVP focusBody).maxZ
            + ((lightSpaceBounds lightMVP focusBody).maxZ
              - (lightSpaceBounds lightMVP focusBody).minZ) * 0.05) 1
        else 1 := by
  cases perspective <;> simp [cropBounds, adjustFarZ]

/-! ## Rounding to `float` and the scale quantization -/

/-- Rounding to the nearest integer moves a value by at most 1/2. -/
theorem roundNearestEven_error (q : ℚ) : |(roundNearestEven q : ℚ) - q| ≤ 1 / 2 := by
  have h1 := Int.floor_le q
  have h2 := Int.lt_floor_add_one q
  unfold roundNearestEven
  simp only
  split_ifs with c1 c2 c3
  · rw [abs_le]; constructor <;> linarith
  · push_cast; rw [abs_le]; constructor <;> linarith
  · rw [abs_le]; constructor <;> linarith
  · push_cast; rw [abs_le]; constructor <;> linarith

/-- An integer closer than 1/2 is the result of the rounding. -/
theorem roundNearestEven_eq (q : ℚ) (m : ℤ) (h : |q - m| < 1 / 2) : roundNearestEven q = m := by
  rw [abs_lt] at h
  obtain ⟨h1, h2⟩ := h
  unfold roundNearestEven
  simp only
  by_cases hc : (m : ℚ) ≤ q
  · have hf : Int.floor q = m := by
      rw [Int.floor_eq_iff]
      constructor <;> linarith
    rw [hf]
    have : q - m < 1 / 2 := by linarith
    rw [if_pos this]
  · have hf : Int.floor q = m - 1 := by
      rw [Int.floor_eq_iff]
      push_cast
      constructor <;> linarith
    rw [hf]
    push_cast
    have c1 : ¬ (q - (m - 1) < 1 / 2) := by
      intro h
      linarith
    have c2 : 1 / 2 < q - ((m : ℚ) - 1) := by linarith
    rw [if_neg c1, if_pos c2]
    ring

/-- The binade of a rational: `2^e ≤ |x| < 2^(e+1)` gives `Int.log 2 |x| = e`. -/
theorem intLog_abs_eq (x : ℚ) (e : ℤ) (h1 : (2 : ℚ) ^ e ≤ |x|) (h2 : |x| < 2 ^ (e + 1)) :
    Int.log 2 |x| = e := by
  have hpos : 0 < |x| := lt_of_lt_of_le (by positivity) h1
  apply le_antisymm
  · have := (Int.lt_zpow_iff_log_lt (b := 2) (by norm_num) hpos).mp (by exact_mod_cast h2)
    omega
  · exact (Int.zpow_le_iff_le_log (b := 2) (by norm_num) hpos).mp (by exact_mod_cast h1)

/-- Evaluation of `roundFloat`: with `2^e ≤ |x| < 2^(e+1)` and `m` the integer closer
than 1/2 to `x/2^(e-23)`, the rounded value is `m*2^(e-23)`. -/
theorem roundFloat_eq_of (x : ℚ) (e m : ℤ) (h1 : (2 : ℚ) ^ e ≤ |x|) (h2 : |x| < 2 ^ (e + 1))
    (h3 : |x / 2 ^ (e - 23) - m| < 1 / 2) : roundFloat x = m * 2 ^ (e - 23) := by
  have hpos : 0 < |x| := lt_of_lt_of_le (by positivity) h1
  have hx : x ≠ 0 := abs_pos.mp hpos
  unfold roundFloat
  simp only [hx, if_false, intLog_abs_eq x e h1 h2]
  rw [roundNearestEven_eq _ m h3]

/-- The rounding of binary32 has relative error at most `2^-24`. -/
theorem roundFloat_rel_error (x : ℚ) : |roundFloat x - x| ≤ 1 / 2 ^ 24 * |x| := by
  by_cases hx : x = 0
  · simp [roundFloat, hx]
  · have hpos : 0 < |x| := abs_pos.mpr hx
    unfold roundFloat
    simp only [hx, if_false]
    have hlog : (2 : ℚ) ^ (Int.log 2 |x|) ≤ |x| := by
      have := Int.zpow_log_le_self (b := 2) (r := |x|) (by norm_num) hpos
      exact_mod_cast this
    set e := Int.log 2 |x| with he
    have hulp : (0 : ℚ) < 2 ^ (e - 23) := by positivity
    have herr := roundNearestEven_error (x / 2 ^ (e - 23))
    have e1 : (roundNearestEven (x / 2 ^ (e - 23)) : ℚ) * 2 ^ (e - 23) - x
        = ((roundNearestEven (x / 2 ^ (e - 23)) : ℚ) - x / 2 ^ (e - 23)) * 2 ^ (e - 23) := by
      field_simp
    rw [e1, abs_mul, abs_of_pos hulp]
    have e2 : (2 : ℚ) ^ (e - 23) = 2 ^ e / 2 ^ 23 := by
      rw [zpow_sub₀ (by norm_num)]
      norm_num
    calc |(roundNearestEven (x / 2 ^ (e - 23)) : ℚ) - x / 2 ^ (e - 23)| * 2 ^ (e - 23)
        ≤ 1 / 2 * 2 ^ (e - 23) := by
          apply mul_le_mul_of_nonneg_right herr hulp.le
      _ = 1 / 2 ^ 24 * 2 ^ e := by
          rw [e2]
          ring
      _ ≤ 1 / 2 ^ 24 * |x| := by
          apply mul_le_mul_of_nonneg_left hlog (by positivity)


/-- A rounding of relative error `u` keeps a positive value within the factors `1 - u`
and `1 + u`. -/
theorem fl_pos_bounds {K : Type} [LinearOrderedField K] (fl : K → K) (u : K)
    (hfl : ∀ x, |fl x - x| ≤ u * |x|) (x : K) (hx : 0 < x) :
    (1 - u) * x ≤ fl x ∧ fl x ≤ (1 + u) * x := by
  have h := hfl x
  rw [abs_of_pos hx, abs_le] at h
  constructor <;> linarith [h.1, h.2]

/-- A rounding of relative error `u` enlarges a magnitude by at most the factor
`1 + u`. -/
theorem fl_abs_le {K : Type} [LinearOrderedField K] (fl : K → K) (u : K)
    (hfl : ∀ x, |fl x - x| ≤ u * |x|) (x : K) : |fl x| ≤ (1 + u) * |x| := by
  have h := hfl x
  have h2 := abs_sub_abs_le_abs_sub (fl x) x
  linarith

/-- The scale quantization under a rounding of relative error `u < 1`: the integer `n`
and the stored scale `q`, with their bounds. -/
theorem quantizeScale_rounded {K : Type} [LinearOrderedField K] [FloorRing K] (fl : K → K)
    (u s : K) (hu0 : 0 ≤ u) (hu1 : u < 1) (hfl : ∀ x, |fl x - x| ≤ u * |x|) (hs : 0 < s) :
    ∃ (n : ℤ) (q : K), quantizeScale fl s = some q
      ∧ n = Int.ceil (fl (fl (1 / s) * 64)) ∧ q = fl (fl (1 / (n : K)) * 64) ∧ 0 < n
      ∧ (1 - u) ^ 2 * (64 / s) ≤ n ∧ (n : K) < (1 + u) ^ 2 * (64 / s) + 1
      ∧ (1 - u) ^ 2 * (64 / n) ≤ q ∧ q ≤ (1 + u) ^ 2 * (64 / n)
      ∧ 0 < q ∧ q * (1 - u) ^ 2 ≤ s * (1 + u) ^ 2 := by
  have hb : 0 < 1 - u := by linarith
  have ha : 0 < 1 + u := by linarith
  have his : 0 < 1 / s := by positivity
  obtain ⟨i1, i2⟩ := fl_pos_bounds fl u hfl (1 / s) his
  have hinv : 0 < fl (1 / s) := lt_of_lt_of_le (mul_pos hb his) i1
  obtain ⟨p1, p2⟩ := fl_pos_bounds fl u hfl (fl (1 / s) * 64) (by positivity)
  have hprod : 0 < fl (fl (1 / s) * 64) := lt_of_lt_of_le (mul_pos hb (by positivity)) p1
  have hn1 : fl (fl (1 / s) * 64) ≤ ((Int.ceil (fl (fl (1 / s) * 64)) : Int) : K) := Int.le_ceil _
  have hn2 : ((Int.ceil (fl (fl (1 / s) * 64)) : Int) : K) < fl (fl (1 / s) * 64) + 1 :=
    Int.ceil_lt_add_one _
  have hnpos : 0 < Int.ceil (fl (fl (1 / s) * 64)) := Int.ceil_pos.mpr hprod
  generalize hN : Int.ceil (fl (fl (1 / s) * 64)) = n at hn1 hn2 hnpos
  have hnK : (0 : K) < (n : K) := by exact_mod_cast hnpos
  have hin : 0 < 1 / (n : K) := by positivity
  obtain ⟨r1, r2⟩ := fl_pos_bounds fl u hfl (1 / (n : K)) hin
  have hr : 0 < fl (1 / (n : K)) := lt_of_lt_of_le (mul_pos hb hin) r1
  obtain ⟨q1, q2⟩ := fl_pos_bounds fl u hfl (fl (1 / (n : K)) * 64) (by positivity)
  have hq : 0 < fl (fl (1 / (n : K)) * 64) := lt_of_lt_of_le (mul_pos hb (by positivity)) q1
  have e64s : (64 : K) / s = 1 / s * 64 := by ring
  have e64n : (64 : K) / n = 1 / (n : K) * 64 := by ring
  have A1 : (1 - u) ^ 2 * (64 / s) ≤ n := by
    rw [e64s]
    have := mul_le_mul_of_nonneg_left i1 hb.le
    linarith
  have A2 : (n : K) < (1 + u) ^ 2 * (64 / s) + 1 := by
    rw [e64s]
    have := mul_le_mul_of_nonneg_left i2 ha.le
    linarith
  have A3 : (1 - u) ^ 2 * (64 / n) ≤ fl (fl (1 / (n : K)) * 64) := by
    rw [e64n]
    have := mul_le_mul_of_nonneg_left r1 hb.le
    linarith
  have A4 : fl (fl (1 / (n : K)) * 64) ≤ (1 + u) ^ 2 * (64 / n) := by
    rw [e64n]
    have := mul_le_mul_of_nonneg_left r2 ha.le
    linarith
  refine ⟨n, fl (fl (1 / (n : K)) * 64), ?_, rfl, rfl, hnpos, A1, A2, A3, A4, hq, ?_⟩
  · simp only [quantizeScale, fdiv, hs.ne', if_false, Option.map_some', Option.bind_eq_bind,
      Option.some_bind, hN, hnK.ne', Option.pure_def]
  · have B1 : fl (fl (1 / (n : K)) * 64) * n ≤ (1 + u) ^ 2 * 64 := by
      have := mul_le_mul_of_nonneg_right A4 hnK.le
      have e : (1 + u) ^ 2 * (64 / (n : K)) * n = (1 + u) ^ 2 * 64 := by
        field_simp
      linarith
    have B2 : (1 - u) ^ 2 * 64 ≤ n * s := by
      have := mul_le_mul_of_nonneg_right A1 hs.le
      have e : (1 - u) ^ 2 * (64 / s) * s = (1 - u) ^ 2 * 64 := by
        field_simp
      linarith
    have C1 : fl (fl (1 / (n : K)) * 64) * ((1 - u) ^ 2 * 64)
        ≤ fl (fl (1 / (n : K)) * 64) * (n * s) := mul_le_mul_of_nonneg_left B2 hq.le
    have C2 : fl (fl (1 / (n : K)) * 64) * n * s ≤ (1 + u) ^ 2 * 64 * s :=
      mul_le_mul_of_nonneg_right B1 hs.le
    linarith


/-- C10: for every shadow-map resolution `R > 0` the offset snapping of
`computeCropMatrix` puts the offset on the half-texel grid: with `h = 0.5*R` the snapped
offset times `h` is an integer, the snapped offset is not below the unsnapped one and
differs from it by less than one grid step `1/h`. -/
theorem snapOffset_grid {K : Type} [LinearOrderedField K] [FloorRing K] (offset : K)
    (shadowmapSize : Int) (hR : 0 < shadowmapSize) :
    ∃ o, snapOffset offset (0.5 * (shadowmapSize : K)) = some o
      ∧ (∃ n : Int, o * (0.5 * (shadowmapSize : K)) = (n : K))
      ∧ offset ≤ o
      ∧ |o - offset| < 1 / (0.5 * (shadowmapSize : K)) := by
  have hRK : (0 : K) < (shadowmapSize : K) := by exact_mod_cast hR
  have hh : (0 : K) < 0.5 * (shadowmapSize : K) := by
    apply mul_pos _ hRK
    norm_num
  have h1 : offset * (0.5 * (shadowmapSize : K))
      ≤ ((Int.ceil (offset * (0.5 * (shadowmapSize : K))) : Int) : K) := Int.le_ceil _
  have h2 : ((Int.ceil (offset * (0.5 * (shadowmapSize : K))) : Int) : K)
      < offset * (0.5 * (shadowmapSize : K)) + 1 := Int.ceil_lt_add_one _
  have hlow : offset ≤ ((Int.ceil (offset * (0.5 * (shadowmapSize : K))) : Int) : K)
      / (0.5 * (shadowmapSize : K)) := by
    rw [le_div_iff₀ hh]
    exact h1
  have hupp : ((Int.ceil (offset * (0.5 * (shadowmapSize : K))) : Int) : K)
      / (0.5 * (shadowmapSize : K)) - offset < 1 / (0.5 * (shadowmapSize : K)) := by
    rw [← sub_lt_zero]
    have e : ((Int.ceil (offset * (0.5 * (shadowmapSize : K))) : Int) : K)
          / (0.5 * (shadowmapSize : K)) - offset - 1 / (0.5 * (shadowmapSize : K))
        = (((Int.ceil (offset * (0.5 * (shadowmapSize : K))) : Int) : K)
            - (offset * (0.5 * (shadowmapSize : K)) + 1)) / (0.5 * (shadowmapSize : K)) := by
      field_simp
      ring
    rw [e]
    apply div_neg_of_neg_of_pos _ hh
    linarith
  refine ⟨((Int.ceil (offset * (0.5 * (shadowmapSize : K))) : Int) : K)
      / (0.5 * (shadowmapSize : K)), ?_, ?_, hlow, ?_⟩
  · simp only [snapOffset, fdiv, hh.ne', if_false]
  · exact ⟨Int.ceil (offset * (0.5 * (shadowmapSize : K))), div_mul_cancel₀ _ hh.ne'⟩
  · rw [abs_of_nonneg (sub_nonneg.mpr hlow)]
    exact hupp

/-- Witness of C10: offset 1/3 and shadow-map resolution 1024. -/
theorem snapOffset_grid_witness :
    (0 : Int) < 1024
    ∧ ∃ o, snapOffset (1 / 3 : ℚ) (0.5 * ((1024 : Int) : ℚ)) = some o
      ∧ (∃ n : Int, o * (0.5 * ((1024 : Int) : ℚ)) = (n : ℚ))
      ∧ (1 / 3 : ℚ) ≤ o
      ∧ |o - 1 / 3| < 1 / (0.5 * ((1024 : Int) : ℚ)) :=
  ⟨by decide, snapOffset_grid (1 / 3 : ℚ) 1024 (by decide)⟩

/-! ## The crop matrix after quantization and snapping -/

/-- With exact arithmetic (`fl = id`) the rounded offset and the rounded snapping are
`cropOffset` and `snapOffset`. -/
theorem rounded_id_eq_exact {K : Type} [LinearOrderedField K] [FloorRing K]
    (maxV minV scale offset halfTex : K) :
    cropOffsetRounded id maxV minV scale = cropOffset maxV minV scale
    ∧ snapOffsetRounded id offset halfTex = snapOffset offset halfTex := by
  constructor
  · simp [cropOffsetRounded, cropOffset]
  · simp [snapOffsetRounded, snapOffset]

/-- The rounded unsnapped offset: distance from the exact offset `-(max+min)/2*scale` and
magnitude, in units of `M = |max+min|/2*scale`. -/
theorem cropOffsetRounded_bounds {K : Type} [LinearOrderedField K] (fl : K → K)
    (u hi lo q : K) (hu0 : 0 ≤ u) (hu1 : u ≤ 1 / 100) (hfl : ∀ x, |fl x - x| ≤ u * |x|)
    (hq : 0 < q) :
    |cropOffsetRounded fl hi lo q + (hi + lo) / 2 * q| ≤ 31 / 10 * u * (|hi + lo| / 2 * q)
    ∧ |cropOffsetRounded fl hi lo q| ≤ 21 / 20 * (|hi + lo| / 2 * q) := by
  unfold cropOffsetRounded
  have hS : 0 ≤ |hi + lo| := abs_nonneg _
  have t1 := hfl (hi + lo)
  have t1a := fl_abs_le fl u hfl (hi + lo)
  have t2 := hfl (-0.5 * fl (hi + lo))
  have t2a := fl_abs_le fl u hfl (-0.5 * fl (hi + lo))
  have t3 := hfl (fl (-0.5 * fl (hi + lo)) * q)
  have t3a := fl_abs_le fl u hfl (fl (-0.5 * fl (hi + lo)) * q)
  have e1 : |(-0.5 : K) * fl (hi + lo)| = 1 / 2 * |fl (hi + lo)| := by
    rw [abs_mul]
    norm_num
  have e2 : |fl (-0.5 * fl (hi + lo)) * q| = |fl (-0.5 * fl (hi + lo))| * q := by
    rw [abs_mul, abs_of_pos hq]
  rw [e1] at t2 t2a
  rw [e2] at t3 t3a
  generalize fl (fl (-0.5 * fl (hi + lo)) * q) = off at t3 t3a ⊢
  generalize fl (-0.5 * fl (hi + lo)) = b at t2 t2a t3 t3a
  generalize fl (hi + lo) = a at t1 t1a t2 t2a
  generalize |hi + lo| = S at hS t1 t1a ⊢
  generalize hi + lo = T at t1 ⊢
  have hA : 0 ≤ |a| := abs_nonneg _
  have hB : 0 ≤ |b| := abs_nonneg _
  -- magnitudes
  have uS : u * S ≤ 1 / 100 * S := mul_le_mul_of_nonneg_right hu1 hS
  have uA : u * |a| ≤ 1 / 100 * |a| := mul_le_mul_of_nonneg_right hu1 hA
  have m1 : |a| ≤ 101 / 100 * S := by linarith
  have m2 : |b| ≤ 103 / 200 * S := by linarith
  have hX : 0 ≤ S * q := mul_nonneg hS hq.le
  have m1q : |a| * q ≤ 101 / 100 * (S * q) := by
    have := mul_le_mul_of_nonneg_right m1 hq.le
    linarith
  have m2q : |b| * q ≤ 103 / 200 * (S * q) := by
    have := mul_le_mul_of_nonneg_right m2 hq.le
    linarith
  have hBq : 0 ≤ |b| * q := mul_nonneg hB hq.le
  have hAq : 0 ≤ |a| * q := mul_nonneg hA hq.le
  have um2q : u * (|b| * q) ≤ u * (103 / 200 * (S * q)) := mul_le_mul_of_nonneg_left m2q hu0
  have um1q : u * (|a| * q) ≤ u * (101 / 100 * (S * q)) := mul_le_mul_of_nonneg_left m1q hu0
  have huX : 0 ≤ u * (S * q) := mul_nonneg hu0 hX
  constructor
  · have d1 : |off - b * q| ≤ 103 / 200 * (u * (S * q)) := by linarith
    have d2 : |(b - -0.5 * a) * q| ≤ 101 / 200 * (u * (S * q)) := by
      rw [abs_mul, abs_of_pos hq]
      have h1 := mul_le_mul_of_nonneg_right t2 hq.le
      linarith
    have d3 : |(a - T) / 2 * q| ≤ 1 / 2 * (u * (S * q)) := by
      have e : (a - T) / 2 * q = 1 / 2 * ((a - T) * q) := by ring
      rw [e, abs_mul, abs_mul, abs_of_pos hq]
      have h1 := mul_le_mul_of_nonneg_right t1 hq.le
      have e2 : |(1 / 2 : K)| = 1 / 2 := abs_of_pos (by norm_num)
      rw [e2]
      linarith
    have e : off + T / 2 * q = (off - b * q) + (b - -0.5 * a) * q + (-((a - T) / 2 * q)) := by
      ring
    rw [e]
    have tri := abs_add_three (off - b * q) ((b - -0.5 * a) * q) (-((a - T) / 2 * q))
    rw [abs_neg] at tri
    linarith
  · have h2 : u * (S * q) ≤ 1 / 100 * (S * q) := mul_le_mul_of_nonneg_right hu1 hX
    linarith

/-- The rounded snapping of an offset for a positive half resolution. -/
theorem snapOffsetRounded_bounds {K : Type} [LinearOrderedField K] [FloorRing K] (fl : K → K)
    (u off hh : K) (hu0 : 0 ≤ u) (hu1 : u ≤ 1 / 100) (hfl : ∀ x, |fl x - x| ≤ u * |x|)
    (hh0 : 0 < hh) :
    ∃ o, snapOffsetRounded fl off hh = some o
      ∧ off - 201 / 100 * u * |off| - u / hh ≤ o
      ∧ o < off + 201 / 100 * u * |off| + (1 + u) / hh := by
  have hO : 0 ≤ |off| := abs_nonneg _
  have p1 := hfl (off * hh)
  have p1a := fl_abs_le fl u hfl (off * hh)
  rw [abs_mul, abs_of_pos hh0] at p1 p1a
  have c1 : fl (off * hh) ≤ ((Int.ceil (fl (off * hh)) : Int) : K) := Int.le_ceil _
  have c2 : ((Int.ceil (fl (off * hh)) : Int) : K) < fl (off * hh) + 1 := Int.ceil_lt_add_one _
  have o1 := hfl (((Int.ceil (fl (off * hh)) : Int) : K) / hh)
  rw [abs_div, abs_of_pos hh0] at o1
  refine ⟨fl (((Int.ceil (fl (off * hh)) : Int) : K) / hh), ?_, ?_, ?_⟩
  · simp only [snapOffsetRounded, fdiv, hh0.ne', if_false, Option.map_some']
  all_goals
    generalize fl (((Int.ceil (fl (off * hh)) : Int) : K) / hh) = o at o1 ⊢
    generalize ((Int.ceil (fl (off * hh)) : Int) : K) = c at c1 c2 o1
    generalize fl (off * hh) = p at p1 p1a c1 c2
    have hp := abs_le.mp p1
    have hc : |c| ≤ |p| + 1 := by
      rw [abs_le]
      constructor
      · linarith [neg_abs_le p]
      · linarith [le_abs_self p]
    have hOh : 0 ≤ |off| * hh := mul_nonneg hO hh0.le
    have hcb : |c| ≤ 101 / 100 * (|off| * hh) + 1 := by
      have : u * (|off| * hh) ≤ 1 / 100 * (|off| * hh) := mul_le_mul_of_nonneg_right hu1 hOh
      linarith
    have ho := abs_le.mp o1
    -- c / hh between off - u|off| and off + u|off| + 1/hh
    have q1 : off - u * |off| ≤ c / hh := by
      rw [le_div_iff₀ hh0]
      linarith [hp.1]
    have q2 : c / hh < off + u * |off| + 1 / hh := by
      rw [div_lt_iff₀ hh0]
      have : (off + u * |off| + 1 / hh) * hh = off * hh + u * (|off| * hh) + 1 := by
        field_simp
        ring
      rw [this]
      linarith [hp.2]
    have q3 : u * (|c| / hh) ≤ 101 / 100 * u * |off| + u / hh := by
      have h1 : |c| / hh ≤ 101 / 100 * |off| + 1 / hh := by
        rw [div_le_iff₀ hh0]
        have : (101 / 100 * |off| + 1 / hh) * hh = 101 / 100 * (|off| * hh) + 1 := by
          field_simp
          ring
        rw [this]
        exact hcb
      have := mul_le_mul_of_nonneg_left h1 hu0
      have e : u * (101 / 100 * |off| + 1 / hh) = 101 / 100 * u * |off| + u / hh := by ring
      linarith
    have e1 : (1 + u) / hh = 1 / hh + u / hh := by ring
    have huo : 0 ≤ u * |off| := mul_nonneg hu0 hO
  · linarith [ho.1]
  · linarith [ho.2]

/-- Polynomial bounds in the unit roundoff used below. -/
theorem roundoff_poly_bounds {K : Type} [LinearOrderedField K] (u : K) (hu0 : 0 ≤ u)
    (hu1 : u ≤ 1 / 100) :
    (1 + u) ^ 3 ≤ (1 + 7 * u) * (1 - u) ^ 3
    ∧ 2 ≤ (2 + 5 * u) * (1 - u) ^ 2
    ∧ (1 + u) * (2 + 5 * u) ≤ 2 + 8 * u := by
  have a1 : 0 ≤ u * (1 - 21 * u) := mul_nonneg hu0 (by linarith)
  have a2 : 0 ≤ u ^ 3 * (19 - 7 * u) := mul_nonneg (pow_nonneg hu0 3) (by linarith)
  have a3 : 0 ≤ u * (1 - 8 * u) := mul_nonneg hu0 (by linarith)
  have a4 : 0 ≤ u ^ 3 := pow_nonneg hu0 3
  have a5 : 0 ≤ u * (1 - 5 * u) := mul_nonneg hu0 (by linarith)
  refine ⟨?_, ?_, ?_⟩
  · have e : (1 + 7 * u) * (1 - u) ^ 3 - (1 + u) ^ 3
        = u * (1 - 21 * u) + u ^ 3 * (19 - 7 * u) := by ring
    linarith
  · have e : (2 + 5 * u) * (1 - u) ^ 2 - 2 = u * (1 - 8 * u) + 5 * u ^ 3 := by ring
    linarith
  · have e : 2 + 8 * u - (1 + u) * (2 + 5 * u) = u * (1 - 5 * u) := by ring
    linarith

/-- The rounded tight scale followed by the rounded quantization: the stored scale times
the width of the bounds is at most `2*(1 + 7u)`. -/
theorem cropScale_bounds {K : Type} [LinearOrderedField K] [FloorRing K] (fl : K → K)
    (u w : K) (hu0 : 0 ≤ u) (hu1 : u ≤ 1 / 100) (hfl : ∀ x, |fl x - x| ≤ u * |x|)
    (hw : 0 < w) :
    ∃ s0 q, (fdiv 2 (fl w)).map fl = some s0 ∧ quantizeScale fl s0 = some q ∧ 0 < q
      ∧ q * w ≤ 2 * (1 + 7 * u) := by
  have hb : 0 < 1 - u := by linarith
  have ha : 0 < 1 + u := by linarith
  obtain ⟨d1, d2⟩ := fl_pos_bounds fl u hfl w hw
  have hd : 0 < fl w := lt_of_lt_of_le (mul_pos hb hw) d1
  obtain ⟨s1, s2⟩ := fl_pos_bounds fl u hfl (2 / fl w) (by positivity)
  have hs : 0 < fl (2 / fl w) := lt_of_lt_of_le (mul_pos hb (by positivity)) s1
  obtain ⟨n, q, hq, _, _, _, _, _, _, _, hq0, hqs⟩ :=
    quantizeScale_rounded fl u (fl (2 / fl w)) hu0 (by linarith) hfl hs
  refine ⟨fl (2 / fl w), q, ?_, hq, hq0, ?_⟩
  · simp only [fdiv, hd.ne', if_false, Option.map_some']
  · have hsd : fl (2 / fl w) * fl w ≤ 2 * (1 + u) := by
      have := mul_le_mul_of_nonneg_right s2 hd.le
      have e : (1 + u) * (2 / fl w) * fl w = 2 * (1 + u) := by
        field_simp
        ring
      linarith
    generalize fl (2 / fl w) = s0 at hsd hqs hs
    generalize fl w = d at d1 d2 hd hsd
    have h1 : q * (1 - u) ^ 2 * d ≤ s0 * (1 + u) ^ 2 * d := mul_le_mul_of_nonneg_right hqs hd.le
    have h2 : (1 + u) ^ 2 * (s0 * d) ≤ (1 + u) ^ 2 * (2 * (1 + u)) :=
      mul_le_mul_of_nonneg_left hsd (by positivity)
    have h3 : q * (1 - u) ^ 2 * ((1 - u) * w) ≤ q * (1 - u) ^ 2 * d :=
      mul_le_mul_of_nonneg_left d1 (by positivity)
    have h4 : q * w * (1 - u) ^ 3 ≤ 2 * (1 + u) ^ 3 := by
      have e1 : q * w * (1 - u) ^ 3 = q * (1 - u) ^ 2 * ((1 - u) * w) := by ring
      have e2 : s0 * (1 + u) ^ 2 * d = (1 + u) ^ 2 * (s0 * d) := by ring
      have e3 : (1 + u) ^ 2 * (2 * (1 + u)) = 2 * (1 + u) ^ 3 := by ring
      rw [e1]
      linarith
    have h5 : (1 + u) ^ 3 ≤ (1 + 7 * u) * (1 - u) ^ 3 := (roundoff_poly_bounds u hu0 hu1).1
    have hb3 : 0 < (1 - u) ^ 3 := by positivity
    have h6 : q * w * (1 - u) ^ 3 ≤ 2 * (1 + 7 * u) * (1 - u) ^ 3 := by
      have e4 : 2 * (1 + 7 * u) * (1 - u) ^ 3 = 2 * ((1 + 7 * u) * (1 - u) ^ 3) := by ring
      rw [e4]
      linarith
    exact le_of_mul_le_mul_right h6 hb3

/-- The rounded half resolution `0.5f*shadowmapSize` is positive and not much below
`R/2`. -/
theorem halfTex_bounds {K : Type} [LinearOrderedField K] (fl : K → K)
    (u R : K) (hu0 : 0 ≤ u) (hu1 : u ≤ 1 / 100) (hfl : ∀ x, |fl x - x| ≤ u * |x|)
    (hR : 0 < R) :
    0 < fl (0.5 * fl R) ∧ R ≤ (2 + 5 * u) * fl (0.5 * fl R) := by
  have hb : 0 < 1 - u := by linarith
  obtain ⟨r1, _⟩ := fl_pos_bounds fl u hfl R hR
  have hr : 0 < fl R := lt_of_lt_of_le (mul_pos hb hR) r1
  have hhalf : (0 : K) < 0.5 * fl R := by
    apply mul_pos _ hr
    norm_num
  obtain ⟨h1, _⟩ := fl_pos_bounds fl u hfl (0.5 * fl R) hhalf
  have hh : 0 < fl (0.5 * fl R) := lt_of_lt_of_le (mul_pos hb hhalf) h1
  refine ⟨hh, ?_⟩
  have e : (0.5 : K) = 1 / 2 := by norm_num
  rw [e] at h1 ⊢
  generalize fl (1 / 2 * fl R) = h at h1 hh ⊢
  generalize fl R = r at r1 hr h1
  have k1 : (1 - u) * ((1 - u) * R) ≤ (1 - u) * r := mul_le_mul_of_nonneg_left r1 hb.le
  have k2 : (1 - u) ^ 2 * R ≤ 2 * h := by
    have e1 : (1 - u) ^ 2 * R = (1 - u) * ((1 - u) * R) := by ring
    rw [e1]
    linarith
  have k3 : (2 + 5 * u) * ((1 - u) ^ 2 * R) ≤ (2 + 5 * u) * (2 * h) :=
    mul_le_mul_of_nonneg_left k2 (by linarith)
  have k4 : 2 ≤ (2 + 5 * u) * (1 - u) ^ 2 := (roundoff_poly_bounds u hu0 hu1).2.1
  have k5 : 2 * R ≤ (2 + 5 * u) * (1 - u) ^ 2 * R := mul_le_mul_of_nonneg_right k4 hR.le
  have e2 : (2 + 5 * u) * ((1 - u) ^ 2 * R) = (2 + 5 * u) * (1 - u) ^ 2 * R := by ring
  linarith

/-- One axis of the crop with rounding after every operation: the scale and the offset
exist, the scale is positive, and every coordinate within `[lo, hi]` is mapped into
`[-1 - e, 1 + 2/R + e)` with `e = 8*u*(1 + |hi+lo|/2*scale + 1/R)`. -/
theorem cropAxis_range {K : Type} [LinearOrderedField K] [FloorRing K] (fl : K → K)
    (u lo hi : K) (shadowmapSize : Int) (hu0 : 0 ≤ u) (hu1 : u ≤ 1 / 100)
    (hfl : ∀ x, |fl x - x| ≤ u * |x|) (hlt : lo < hi) (hR : 0 < shadowmapSize) :
    ∃ q o, cropAxis fl hi lo shadowmapSize = some (q, o) ∧ 0 < q
      ∧ ∀ x, lo ≤ x → x ≤ hi →
        -1 - 8 * u * (1 + |hi + lo| / 2 * q + 1 / (shadowmapSize : K)) ≤ q * x + o
        ∧ q * x + o
          < 1 + 2 / (shadowmapSize : K)
            + 8 * u * (1 + |hi + lo| / 2 * q + 1 / (shadowmapSize : K)) := by
  have hRK : (0 : K) < (shadowmapSize : K) := by exact_mod_cast hR
  obtain ⟨s0, q, hs0, hq, hq0, hqw⟩ :=
    cropScale_bounds fl u (hi - lo) hu0 hu1 hfl (by linarith)
  obtain ⟨E1, E2⟩ := cropOffsetRounded_bounds fl u hi lo q hu0 hu1 hfl hq0
  obtain ⟨hh0, hhR⟩ := halfTex_bounds fl u (shadowmapSize : K) hu0 hu1 hfl hRK
  obtain ⟨o, ho, ho1, ho2⟩ := snapOffsetRounded_bounds fl u (cropOffsetRounded fl hi lo q)
    (fl (0.5 * fl (shadowmapSize : K))) hu0 hu1 hfl hh0
  refine ⟨q, o, ?_, hq0, ?_⟩
  · simp only [cropAxis, Option.bind_eq_bind, hs0, hq, Option.some_bind, ho, Option.pure_def]
  · intro x hx1 hx2
    generalize cropOffsetRounded fl hi lo q = off at E1 E2 ho1 ho2
    generalize fl (0.5 * fl (shadowmapSize : K)) = hh at hh0 hhR ho1 ho2
    generalize (shadowmapSize : K) = R at hRK hhR ⊢
    have hM : 0 ≤ |hi + lo| / 2 * q := by positivity
    generalize |hi + lo| / 2 * q = M at E1 E2 hM ⊢
    have hO : 0 ≤ |off| := abs_nonneg _
    have hE1 := abs_le.mp E1
    have huM : 0 ≤ u * M := mul_nonneg hu0 hM
    have huO : u * |off| ≤ u * (21 / 20 * M) := mul_le_mul_of_nonneg_left E2 hu0
    have hiR : 0 < 1 / R := by positivity
    have h3 : 1 / hh ≤ 3 * (1 / R) := by
      rw [one_div, ← one_div, div_le_iff₀ hh0]
      have : 3 * (1 / R) * hh = 3 * hh / R := by ring
      rw [this, le_div_iff₀ hRK]
      have : (2 + 5 * u) * hh ≤ 3 * hh := mul_le_mul_of_nonneg_right (by linarith) hh0.le
      linarith
    have key1 : u / hh ≤ 3 * (u * (1 / R)) := by
      have := mul_le_mul_of_nonneg_left h3 hu0
      have e : u / hh = u * (1 / hh) := by ring
      rw [e]
      linarith
    have key2 : (1 + u) / hh ≤ 2 / R + 8 * (u * (1 / R)) := by
      rw [div_le_iff₀ hh0]
      have e : (2 / R + 8 * (u * (1 / R))) * hh = (2 + 8 * u) * hh / R := by ring
      rw [e, le_div_iff₀ hRK]
      have k1 : (1 + u) * R ≤ (1 + u) * ((2 + 5 * u) * hh) :=
        mul_le_mul_of_nonneg_left hhR (by linarith)
      have k2 : (1 + u) * (2 + 5 * u) ≤ 2 + 8 * u := (roundoff_poly_bounds u hu0 hu1).2.2
      have k3 := mul_le_mul_of_nonneg_right k2 hh0.le
      linarith
    have huR : 0 ≤ u * (1 / R) := mul_nonneg hu0 hiR.le
    have g1 : 0 ≤ q * (x - lo) := mul_nonneg hq0.le (by linarith)
    have g2 : 0 ≤ q * (hi - x) := mul_nonneg hq0.le (by linarith)
    constructor
    · linarith [hE1.1]
    · linarith [hE1.2]

/-- A rounding of relative error below 1 does not round a non-zero value to zero. -/
theorem fl_ne_zero {K : Type} [LinearOrderedField K] (fl : K → K) (u : K) (hu1 : u < 1)
    (hfl : ∀ x, |fl x - x| ≤ u * |x|) (x : K) (hx : x ≠ 0) : fl x ≠ 0 := by
  intro h
  have h1 := hfl x
  rw [h, zero_sub, abs_neg] at h1
  have hpos : 0 < |x| := abs_pos.mpr hx
  have : u * |x| < 1 * |x| := mul_lt_mul_of_pos_right hu1 hpos
  linarith

/-- The X and Y entries of a crop matrix returned by `computeCropMatrix` are those of
`cropAxis` for the bounds of the axis. -/
theorem computeCropMatrix_entries {K : Type} [LinearOrderedField K] [FloorRing K]
    (fl : K → K) (lightMVP : Vec3 K → Vec3 K) (perspective : Bool) (shadowmapSize : Int)
    (focusBody : List (Vec3 K)) (c : CropMatrix K)
    (h : computeCropMatrix fl lightMVP perspective shadowmapSize focusBody = some c) :
    cropAxis fl (cropBounds lightMVP perspective focusBody).maxX
        (cropBounds lightMVP perspective focusBody).minX shadowmapSize
      = some (c.scaleX, c.offsetX)
    ∧ cropAxis fl (cropBounds lightMVP perspective focusBody).maxY
        (cropBounds lightMVP perspective focusBody).minY shadowmapSize
      = some (c.scaleY, c.offsetY) := by
  simp only [computeCropMatrix, Option.bind_eq_bind, Option.bind_eq_some, Option.pure_def,
    Option.some.injEq] at h
  obtain ⟨sx, hsx, sy, hsy, sz, hsz, qx, hqx, qy, hqy, ox, hox, oy, hoy, rfl⟩ := h
  constructor <;>
    simp only [cropAxis, Option.bind_eq_bind, hsx, hsy, Option.some_bind, hqx, hqy, hox, hoy,
      Option.pure_def]

/-- When both axes have a scale and an offset and the rounded Z range is not zero,
`computeCropMatrix` returns a matrix. -/
theorem computeCropMatrix_of_axes {K : Type} [LinearOrderedField K] [FloorRing K]
    (fl : K → K) (lightMVP : Vec3 K → Vec3 K) (perspective : Bool) (shadowmapSize : Int)
    (focusBody : List (Vec3 K)) (sx ox sy oy : K)
    (hX : cropAxis fl (cropBounds lightMVP perspective focusBody).maxX
        (cropBounds lightMVP perspective focusBody).minX shadowmapSize = some (sx, ox))
    (hY : cropAxis fl (cropBounds lightMVP perspective focusBody).maxY
        (cropBounds lightMVP perspective focusBody).minY shadowmapSize = some (sy, oy))
    (hz : fl ((cropBounds lightMVP perspective focusBody).maxZ
        - (cropBounds lightMVP perspective focusBody).minZ) ≠ 0) :
    ∃ c, computeCropMatrix fl lightMVP perspective shadowmapSize focusBody = some c := by
  simp only [cropAxis, Option.bind_eq_bind, Option.bind_eq_some, Option.pure_def,
    Option.some.injEq, Prod.mk.injEq] at hX hY
  obtain ⟨s0x, hs0x, qx, hqx, o1, hox, rfl, rfl⟩ := hX
  obtain ⟨s0y, hs0y, qy, hqy, o2, hoy, rfl, rfl⟩ := hY
  refine ⟨⟨qx, qy, fl (1 / fl ((cropBounds lightMVP perspective focusBody).maxZ
        - (cropBounds lightMVP perspective focusBody).minZ)), o1, o2,
      fl (-(cropBounds lightMVP perspective focusBody).minZ
        * fl (1 / fl ((cropBounds lightMVP perspective focusBody).maxZ
          - (cropBounds lightMVP perspective focusBody).minZ)))⟩, ?_⟩
  simp only [computeCropMatrix, Option.bind_eq_bind, hs0x, hs0y, Option.some_bind]
  simp only [fdiv, hz, if_false, Option.map_some', Option.some_bind, hqx, hqy, hox, hoy,
    Option.pure_def]

/-- C27, counterexample: the focus body with the vertices `(-3/64, -3/64, 0)` and
`(3/64, 3/64, 1/2)` in light-clip space and resolution 1024. With `float` rounding the
code stores the scale `fl(64*fl(1/3)) = 11184811/2^19`, which exceeds `64/3`, and the
offset 0, so the first vertex is mapped to `-1 - 2^-25`, below -1. -/
theorem computeCropMatrix_float_below_minus_one :
    computeCropMatrix roundFloat id false 1024
        [⟨-3 / 64, -3 / 64, 0⟩, ⟨3 / 64, 3 / 64, 1 / 2⟩]
      = some ⟨11184811 / 524288, 11184811 / 524288, 1, 0, 0, 0⟩
    ∧ (applyCrop (⟨11184811 / 524288, 11184811 / 524288, 1, 0, 0, 0⟩ : CropMatrix ℚ)
        (id ⟨-3 / 64, -3 / 64, 0⟩)).x = -33554433 / 33554432
    ∧ (-33554433 / 33554432 : ℚ) < -1 := by
  have hb : cropBounds (K := ℚ) id false [⟨-3 / 64, -3 / 64, 0⟩, ⟨3 / 64, 3 / 64, 1 / 2⟩]
      = ⟨3 / 64, 3 / 64, 1, -3 / 64, -3 / 64, 0⟩ := by
    norm_num [cropBounds, lightSpaceBounds, boundsStep, initialBounds, adjustFarZ, FLT_MAX]
  have f0 : roundFloat 0 = 0 := by simp [roundFloat]
  have f1 : roundFloat 1 = 1 := by
    rw [roundFloat_eq_of 1 0 8388608 (by norm_num [abs_of_pos])
      (by norm_num [abs_of_pos]) (by norm_num [abs_lt])]
    norm_num
  have f2 : roundFloat (3 / 32) = 3 / 32 := by
    rw [roundFloat_eq_of (3 / 32) (-4) 12582912 (by norm_num [abs_of_pos])
      (by norm_num [abs_of_pos]) (by norm_num [abs_lt])]
    norm_num
  have f3 : roundFloat (64 / 3) = 11184811 / 524288 := by
    rw [roundFloat_eq_of (64 / 3) 4 11184811 (by norm_num [abs_of_pos])
      (by norm_num [abs_of_pos]) (by norm_num [abs_lt])]
    norm_num
  have f4 : roundFloat (524288 / 11184811) = 3 / 64 := by
    rw [roundFloat_eq_of (524288 / 11184811) (-5) 12582912 (by norm_num [abs_of_pos])
      (by norm_num [abs_of_pos]) (by norm_num [abs_lt])]
    norm_num
  have f5 : roundFloat 3 = 3 := by
    rw [roundFloat_eq_of 3 1 12582912 (by norm_num [abs_of_pos])
      (by norm_num [abs_of_pos]) (by norm_num [abs_lt])]
    norm_num
  have f6 : roundFloat (1 / 3) = 11184811 / 33554432 := by
    rw [roundFloat_eq_of (1 / 3) (-2) 11184811 (by norm_num [abs_of_pos])
      (by norm_num [abs_of_pos]) (by norm_num [abs_lt])]
    norm_num
  have f7 : roundFloat (11184811 / 524288) = 11184811 / 524288 := by
    rw [roundFloat_eq_of (11184811 / 524288) 4 11184811 (by norm_num [abs_of_pos])
      (by norm_num [abs_of_pos]) (by norm_num [abs_lt])]
    norm_num
  have f8 : roundFloat 1024 = 1024 := by
    rw [roundFloat_eq_of 1024 10 8388608 (by norm_num [abs_of_pos])
      (by norm_num [abs_of_pos]) (by norm_num [abs_lt])]
    norm_num
  have f9 : roundFloat 512 = 512 := by
    rw [roundFloat_eq_of 512 9 8388608 (by norm_num [abs_of_pos])
      (by norm_num [abs_of_pos]) (by norm_num [abs_lt])]
    norm_num
  have hq : quantizeScale roundFloat (11184811 / 524288 : ℚ) = some (11184811 / 524288) := by
    have hne : (11184811 / 524288 : ℚ) ≠ 0 := by norm_num
    have e1 : (1 : ℚ) / (11184811 / 524288) = 524288 / 11184811 := by norm_num
    have e2 : (3 / 64 : ℚ) * 64 = 3 := by norm_num
    have e3 : Int.ceil (3 : ℚ) = 3 := by
      rw [Int.ceil_eq_iff]
      norm_num
    simp only [quantizeScale, fdiv, hne, if_false, Option.map_some', Option.bind_eq_bind,
      Option.some_bind, e1, f4, e2, f5, e3]
    norm_num [f6, f7]
  have hoff : cropOffsetRounded roundFloat (3 / 64 : ℚ) (-3 / 64) (11184811 / 524288) = 0 := by
    norm_num [cropOffsetRounded, f0]
  have hsnap : snapOffsetRounded roundFloat (0 : ℚ) 512 = some 0 := by
    norm_num [snapOffsetRounded, fdiv, f0]
  refine ⟨?_, by norm_num [applyCrop], by norm_num⟩
  have d1 : (3 / 64 : ℚ) - -3 / 64 = 3 / 32 := by norm_num
  have d2 : (2 : ℚ) / (3 / 32) = 64 / 3 := by norm_num
  have d3 : (1 : ℚ) - 0 = 1 := by norm_num
  have d4 : (0.5 : ℚ) * 1024 = 512 := by norm_num
  have n1 : (3 / 32 : ℚ) ≠ 0 := by norm_num
  have n2 : (1 : ℚ) ≠ 0 := by norm_num
  simp only [computeCropMatrix, hb, d1, f2, fdiv, n1, if_false, Option.map_some', d2, f3,
    Option.bind_eq_bind, Option.some_bind, d3, f1, n2, hq, hoff, Int.cast_ofNat, f8, d4, f9,
    hsnap, Option.pure_def]
  norm_num [f1, f0]

/-- C27: the crop matrix of `computeCropMatrix` after scale quantization and offset
snapping, with rounding to `float`. For every rounding `fl` of relative error at most
`u ≤ 1/100`, every focus body with `maxX > minX`, `maxY > minY` and every resolution
`R > 0`, the scales `sx`, `sy` and the offsets `ox`, `oy` exist and every vertex, taken in
light-clip space, satisfies `-1 - ex ≤ sx*x + ox < 1 + 2/R + ex` with
`ex = 8*u*(1 + |maxX+minX|/2*sx + 1/R)`, and likewise for Y. Every matrix
`computeCropMatrix` returns carries exactly these four entries, and it does return one
whenever the Z range is not zero. In exact arithmetic (`u = 0`) the range is
`[-1, 1 + 2/R)`. -/
theorem computeCropMatrix_snapped_range {K : Type} [LinearOrderedField K] [FloorRing K]
    (fl : K → K) (u : K) (lightMVP : Vec3 K → Vec3 K) (perspective : Bool)
    (shadowmapSize : Int) (focusBody : List (Vec3 K))
    (hu0 : 0 ≤ u) (hu1 : u ≤ 1 / 100) (hfl : ∀ x, |fl x - x| ≤ u * |x|)
    (hx : (cropBounds lightMVP perspective focusBody).minX < (cropBounds lightMVP perspective focusBody).maxX)
    (hy : (cropBounds lightMVP perspective focusBody).minY < (cropBounds lightMVP perspective focusBody).maxY)
    (hR : 0 < shadowmapSize) :
    ∃ sx ox sy oy : K,
      cropAxis fl (cropBounds lightMVP perspective focusBody).maxX (cropBounds lightMVP perspective focusBody).minX shadowmapSize = some (sx, ox)
      ∧ cropAxis fl (cropBounds lightMVP perspective focusBody).maxY (cropBounds lightMVP perspective focusBody).minY shadowmapSize = some (sy, oy)
      ∧ (∀ v ∈ focusBody,
          -1 - 8 * u * (1 + |(cropBounds lightMVP perspective focusBody).maxX + (cropBounds lightMVP perspective focusBody).minX| / 2 * sx + 1 / (shadowmapSize : K))
            ≤ sx * (lightMVP v).x + ox
          ∧ sx * (lightMVP v).x + ox
            < 1 + 2 / (shadowmapSize : K)
              + 8 * u * (1 + |(cropBounds lightMVP perspective focusBody).maxX + (cropBounds lightMVP perspective focusBody).minX| / 2 * sx + 1 / (shadowmapSize : K))
          ∧ -1 - 8 * u * (1 + |(cropBounds lightMVP perspective focusBody).maxY + (cropBounds lightMVP perspective focusBody).minY| / 2 * sy + 1 / (shadowmapSize : K))
            ≤ sy * (lightMVP v).y + oy
          ∧ sy * (lightMVP v).y + oy
            < 1 + 2 / (shadowmapSize : K)
              + 8 * u * (1 + |(cropBounds lightMVP perspective focusBody).maxY + (cropBounds lightMVP perspective focusBody).minY| / 2 * sy + 1 / (shadowmapSize : K)))
      ∧ (∀ c, computeCropMatrix fl lightMVP perspective shadowmapSize focusBody = some c →
          c.scaleX = sx ∧ c.offsetX = ox ∧ c.scaleY = sy ∧ c.offsetY = oy)
      ∧ ((cropBounds lightMVP perspective focusBody).maxZ ≠ (cropBounds lightMVP perspective focusBody).minZ →
          ∃ c, computeCropMatrix fl lightMVP perspective shadowmapSize focusBody = some c) := by
  obtain ⟨sx, ox, hX, _, rX⟩ := cropAxis_range fl u (cropBounds lightMVP perspective focusBody).minX (cropBounds lightMVP perspective focusBody).maxX shadowmapSize hu0 hu1 hfl hx hR
  obtain ⟨sy, oy, hY, _, rY⟩ := cropAxis_range fl u (cropBounds lightMVP perspective focusBody).minY (cropBounds lightMVP perspective focusBody).maxY shadowmapSize hu0 hu1 hfl hy hR
  refine ⟨sx, ox, sy, oy, hX, hY, ?_, ?_, ?_⟩
  · intro v hv
    obtain ⟨b1, b2, b3, b4, _, _⟩ := lightSpaceBounds_holds lightMVP focusBody v hv
    obtain ⟨f1, f2, f3, f4, _⟩ :=
      adjustFarZ_fields perspective (lightSpaceBounds lightMVP focusBody)
    have c1 : (cropBounds lightMVP perspective focusBody).minX ≤ (lightMVP v).x := by
      unfold cropBounds
      rw [f2]
      exact b1
    have c2 : (lightMVP v).x ≤ (cropBounds lightMVP perspective focusBody).maxX := by
      unfold cropBounds
      rw [f1]
      exact b2
    have c3 : (cropBounds lightMVP perspective focusBody).minY ≤ (lightMVP v).y := by
      unfold cropBounds
      rw [f4]
      exact b3
    have c4 : (lightMVP v).y ≤ (cropBounds lightMVP perspective focusBody).maxY := by
      unfold cropBounds
      rw [f3]
      exact b4
    obtain ⟨r1, r2⟩ := rX (lightMVP v).x c1 c2
    obtain ⟨r3, r4⟩ := rY (lightMVP v).y c3 c4
    exact ⟨r1, r2, r3, r4⟩
  · intro c hc
    obtain ⟨e1, e2⟩ :=
      computeCropMatrix_entries fl lightMVP perspective shadowmapSize focusBody c hc
    rw [hX] at e1
    rw [hY] at e2
    simp only [Option.some.injEq, Prod.mk.injEq] at e1 e2
    exact ⟨e1.1.symm, e1.2.symm, e2.1.symm, e2.2.symm⟩
  · intro hz
    exact computeCropMatrix_of_axes fl lightMVP perspective shadowmapSize focusBody sx ox sy oy
      hX hY (fl_ne_zero fl u (by linarith) hfl _ (sub_ne_zero.mpr hz))

/-- Witness of C27: the rounding `roundFloat` of binary32 (relative error at most
`2^-24`), the focus body `(-1,-1,0), (1/3,1,1/2)` with the identity light matrix, a
perspective display and resolution 1024. -/
theorem computeCropMatrix_snapped_range_witness :
    (∀ x : ℚ, |roundFloat x - x| ≤ 1 / 2 ^ 24 * |x|)
    ∧ (cropBounds (K := ℚ) id true [⟨-1, -1, 0⟩, ⟨1 / 3, 1, 1 / 2⟩]).minX < (cropBounds (K := ℚ) id true [⟨-1, -1, 0⟩, ⟨1 / 3, 1, 1 / 2⟩]).maxX
    ∧ (cropBounds (K := ℚ) id true [⟨-1, -1, 0⟩, ⟨1 / 3, 1, 1 / 2⟩]).minY < (cropBounds (K := ℚ) id true [⟨-1, -1, 0⟩, ⟨1 / 3, 1, 1 / 2⟩]).maxY
    ∧ ∃ sx ox sy oy : ℚ,
      cropAxis roundFloat (cropBounds (K := ℚ) id true [⟨-1, -1, 0⟩, ⟨1 / 3, 1, 1 / 2⟩]).maxX (cropBounds (K := ℚ) id true [⟨-1, -1, 0⟩, ⟨1 / 3, 1, 1 / 2⟩]).minX 1024 = some (sx, ox)
      ∧ cropAxis roundFloat (cropBounds (K := ℚ) id true [⟨-1, -1, 0⟩, ⟨1 / 3, 1, 1 / 2⟩]).maxY (cropBounds (K := ℚ) id true [⟨-1, -1, 0⟩, ⟨1 / 3, 1, 1 / 2⟩]).minY 1024 = some (sy, oy)
      ∧ (∀ v ∈ ([⟨-1, -1, 0⟩, ⟨1 / 3, 1, 1 / 2⟩] : List (Vec3 ℚ)),
          -1 - 8 * (1 / 2 ^ 24) * (1 + |(cropBounds (K := ℚ) id true [⟨-1, -1, 0⟩, ⟨1 / 3, 1, 1 / 2⟩]).maxX + (cropBounds (K := ℚ) id true [⟨-1, -1, 0⟩, ⟨1 / 3, 1, 1 / 2⟩]).minX| / 2 * sx + 1 / ((1024 : Int) : ℚ))
            ≤ sx * (id v).x + ox
          ∧ sx * (id v).x + ox
            < 1 + 2 / ((1024 : Int) : ℚ)
              + 8 * (1 / 2 ^ 24) * (1 + |(cropBounds (K := ℚ) id true [⟨-1, -1, 0⟩, ⟨1 / 3, 1, 1 / 2⟩]).maxX + (cropBounds (K := ℚ) id true [⟨-1, -1, 0⟩, ⟨1 / 3, 1, 1 / 2⟩]).minX| / 2 * sx + 1 / ((1024 : Int) : ℚ)))
      ∧ (∀ c, computeCropMatrix roundFloat id true 1024 [⟨-1, -1, 0⟩, ⟨1 / 3, 1, 1 / 2⟩]
            = some c → c.scaleX = sx ∧ c.offsetX = ox ∧ c.scaleY = sy ∧ c.offsetY = oy) := by
  have hb : cropBounds (K := ℚ) id true [⟨-1, -1, 0⟩, ⟨1 / 3, 1, 1 / 2⟩]
      = ⟨1 / 3, 1, 21 / 40, -1, -1, 0⟩ := by
    norm_num [cropBounds, lightSpaceBounds, boundsStep, initialBounds, adjustFarZ, FLT_MAX]
  have hx : (cropBounds (K := ℚ) id true [⟨-1, -1, 0⟩, ⟨1 / 3, 1, 1 / 2⟩]).minX < (cropBounds (K := ℚ) id true [⟨-1, -1, 0⟩, ⟨1 / 3, 1, 1 / 2⟩]).maxX := by
    rw [hb]
    norm_num
  have hy : (cropBounds (K := ℚ) id true [⟨-1, -1, 0⟩, ⟨1 / 3, 1, 1 / 2⟩]).minY < (cropBounds (K := ℚ) id true [⟨-1, -1, 0⟩, ⟨1 / 3, 1, 1 / 2⟩]).maxY := by
    rw [hb]
    norm_num
  obtain ⟨sx, ox, sy, oy, h1, h2, h3, h4, _⟩ :=
    computeCropMatrix_snapped_range roundFloat (1 / 2 ^ 24) id true 1024
      [⟨-1, -1, 0⟩, ⟨1 / 3, 1, 1 / 2⟩] (by norm_num) (by norm_num) roundFloat_rel_error
      hx hy (by decide)
  exact ⟨roundFloat_rel_error, hx, hy, sx, ox, sy, oy, h1, h2,
    fun v hv => ⟨(h3 v hv).1, (h3 v hv).2.1⟩, h4⟩

/-! ## Claims about the caster selection and the lighting-state selector -/

/-- C12, evaluation at the failing input: with Sun, Moon and Venus all below the horizon
(altitude sines -1, -4/5 and -3/5) the caster selection of `generateShadowMap` picks
Venus and points the shadow direction at it, although its altitude is not positive. -/
theorem generateShadowMap_selects_venus_below_horizon :
    (generateShadowMap.selectCaster (⟨0, 0, -1⟩ : Vec3 ℚ) ⟨3 / 5, 0, -4 / 5⟩
        ⟨4 / 5, 0, -3 / 5⟩).shadowCaster = ShadowCaster.Venus
    ∧ (generateShadowMap.selectCaster (⟨0, 0, -1⟩ : Vec3 ℚ) ⟨3 / 5, 0, -4 / 5⟩
        ⟨4 / 5, 0, -3 / 5⟩).venusOn = true
    ∧ (generateShadowMap.selectCaster (⟨0, 0, -1⟩ : Vec3 ℚ) ⟨3 / 5, 0, -4 / 5⟩
        ⟨4 / 5, 0, -3 / 5⟩).shadowDir.z = -3 / 5
    ∧ ¬ ((0 : ℚ) < -3 / 5) := by
  norm_num [generateShadowMap.selectCaster]

/-- C13, counterexample: with shadows switched off (`shaderParameters.shadows` false) and
the Sun at altitude sine 1/2 the returned caster is `None`, not `Sun`. -/
theorem calculateLightSource_sun_up_no_caster :
    (calculateLightSource Real.sqrt Real.cos false none ⟨Real.sqrt 3 / 2, 0, 1 / 2⟩
        ⟨1, 0, 0⟩ ⟨0, 1, 0⟩ 0 0).shadowcaster ≠ ShadowCaster.Sun := by
  have h : (calculateLightSource Real.sqrt Real.cos false none ⟨Real.sqrt 3 / 2, 0, 1 / 2⟩
      ⟨1, 0, 0⟩ ⟨0, 1, 0⟩ 0 0).shadowcaster = ShadowCaster.None := by
    norm_num [calculateLightSource]
  rw [h]
  decide

/-- C13, amended: for every input with Sun altitude sine > 0, whatever the Moon and Venus
inputs, `calculateLightSource` returns directional brightness
`min(0.7, sqrt(sinSun + 0.1))`, the Sun's position as light position, and the caster
`Sun` when shadows are enabled, `None` when they are not. -/
theorem calculateLightSource_sun_up {K : Type} [LinearOrderedField K] (sqrtf cosf : K → K)
    (shadows : Bool) (lightscape : Option K)
    (sunPosition moonPosition venusPosition : Vec3 K) (moonPhaseAngle venusPhaseAngle : K)
    (hsun : 0 < sunPosition.z) :
    (calculateLightSource sqrtf cosf shadows lightscape sunPosition moonPosition
        venusPosition moonPhaseAngle venusPhaseAngle).shadowcaster
      = (if shadows then ShadowCaster.Sun else ShadowCaster.None)
    ∧ (calculateLightSource sqrtf cosf shadows lightscape sunPosition moonPosition
        venusPosition moonPhaseAngle venusPhaseAngle).directionalBrightness
      = min 0.7 (sqrtf (sunPosition.z + 0.1))
    ∧ (calculateLightSource sqrtf cosf shadows lightscape sunPosition moonPosition
        venusPosition moonPhaseAngle venusPhaseAngle).lightsourcePosition = sunPosition := by
  simp only [calculateLightSource, gt_iff_lt, hsun, if_true]
  exact ⟨trivial, trivial, trivial⟩

/-- Witness of C13 (amended): Sun at altitude sine 1/2, shadows enabled: caster `Sun`,
directional brightness `min(0.7, sqrt(0.6))`. -/
theorem calculateLightSource_sun_up_witness :
    (0 : ℝ) < 1 / 2
    ∧ (calculateLightSource Real.sqrt Real.cos true none ⟨Real.sqrt 3 / 2, 0, 1 / 2⟩
        ⟨1, 0, 0⟩ ⟨0, 1, 0⟩ 0 0).shadowcaster = ShadowCaster.Sun
    ∧ (calculateLightSource Real.sqrt Real.cos true none ⟨Real.sqrt 3 / 2, 0, 1 / 2⟩
        ⟨1, 0, 0⟩ ⟨0, 1, 0⟩ 0 0).directionalBrightness = min 0.7 (Real.sqrt 0.6) := by
  have h := calculateLightSource_sun_up Real.sqrt Real.cos true none
    ⟨Real.sqrt 3 / 2, 0, 1 / 2⟩ ⟨1, 0, 0⟩ ⟨0, 1, 0⟩ 0 0 (by norm_num)
  refine ⟨by norm_num, by simpa using h.1, ?_⟩
  rw [h.2.1]
  norm_num

/-- Whatever branch is taken, the ambient brightness returned is the accumulated one. -/
theorem calculateLightSource_ambient {K : Type} [LinearOrderedField K] (sqrtf cosf : K → K)
    (shadows : Bool) (lightscape : Option K)
    (sunPosition moonPosition venusPosition : Vec3 K) (moonPhaseAngle venusPhaseAngle : K) :
    (calculateLightSource sqrtf cosf shadows lightscape sunPosition moonPosition
        venusPosition moonPhaseAngle venusPhaseAngle).ambientBrightness
      = ambientOf sqrtf cosf sunPosition.z moonPosition.z moonPhaseAngle := by
  simp only [calculateLightSource]
  split_ifs <;> rfl

/-- With shadows switched off no caster is ever returned. -/
theorem calculateLightSource_shadows_off {K : Type} [LinearOrderedField K]
    (sqrtf cosf : K → K) (lightscape : Option K)
    (sunPosition moonPosition venusPosition : Vec3 K) (moonPhaseAngle venusPhaseAngle : K) :
    (calculateLightSource sqrtf cosf false lightscape sunPosition moonPosition
        venusPosition moonPhaseAngle venusPhaseAngle).shadowcaster = ShadowCaster.None := by
  simp only [calculateLightSource, Bool.false_eq_true, if_false]
  split_ifs <;> rfl

/-- C14, counterexample: with shadows switched off, Sun altitude sine -1/2, Moon altitude
sine 3/10 and Moon phase angle 0 the returned caster is `None`, not `Moon`. -/
theorem calculateLightSource_moon_no_caster :
    (calculateLightSource Real.sqrt Real.cos false none ⟨Real.sqrt 3 / 2, 0, -1 / 2⟩
        ⟨Real.sqrt 91 / 10, 0, 3 / 10⟩ ⟨0, 1, 0⟩ 0 0).shadowcaster ≠ ShadowCaster.Moon := by
  have h : (calculateLightSource Real.sqrt Real.cos false none ⟨Real.sqrt 3 / 2, 0, -1 / 2⟩
      ⟨Real.sqrt 91 / 10, 0, 3 / 10⟩ ⟨0, 1, 0⟩ 0 0).shadowcaster = ShadowCaster.None :=
    calculateLightSource_shadows_off _ _ _ _ _ _ _ _
  rw [h]
  decide

/-- C14, amended: whenever the Sun's altitude sine is at most 0, the Moon's sine `m` is
positive and `0.2*sqrt(m)*(cos(phase)+1)/2 - (ambient - 0.05)/2` is positive,
`calculateLightSource` returns that value as directional brightness, the Moon's position
as light position, and the caster `Moon` when shadows are enabled, `None` when they are
not. -/
theorem calculateLightSource_moon {K : Type} [LinearOrderedField K] (sqrtf cosf : K → K)
    (shadows : Bool) (lightscape : Option K)
    (sunPosition moonPosition venusPosition : Vec3 K) (moonPhaseAngle venusPhaseAngle : K)
    (hsun : sunPosition.z ≤ 0) (hmoon : 0 < moonPosition.z)
    (hpos : 0 < 0.2 * sqrtf moonPosition.z * (cosf moonPhaseAngle + 1) / 2
      - ((calculateLightSource sqrtf cosf shadows lightscape sunPosition moonPosition
          venusPosition moonPhaseAngle venusPhaseAngle).ambientBrightness - 0.05) / 2) :
    (calculateLightSource sqrtf cosf shadows lightscape sunPosition moonPosition
        venusPosition moonPhaseAngle venusPhaseAngle).shadowcaster
      = (if shadows then ShadowCaster.Moon else ShadowCaster.None)
    ∧ (calculateLightSource sqrtf cosf shadows lightscape sunPosition moonPosition
        venusPosition moonPhaseAngle venusPhaseAngle).directionalBrightness
      = 0.2 * sqrtf moonPosition.z * (cosf moonPhaseAngle + 1) / 2
        - ((calculateLightSource sqrtf cosf shadows lightscape sunPosition moonPosition
          venusPosition moonPhaseAngle venusPhaseAngle).ambientBrightness - 0.05) / 2
    ∧ (calculateLightSource sqrtf cosf shadows lightscape sunPosition moonPosition
        venusPosition moonPhaseAngle venusPhaseAngle).lightsourcePosition = moonPosition := by
  rw [calculateLightSource_ambient] at hpos ⊢
  have hns : ¬ (0 < sunPosition.z) := not_lt.mpr hsun
  have hd : 0 < sqrtf moonPosition.z * ((cosf moonPhaseAngle + 1) / 2) * LUNAR_BRIGHTNESS_FACTOR
      - (ambientOf sqrtf cosf sunPosition.z moonPosition.z moonPhaseAngle - 0.05) / 2 := by
    have e : sqrtf moonPosition.z * ((cosf moonPhaseAngle + 1) / 2) * LUNAR_BRIGHTNESS_FACTOR
        = 0.2 * sqrtf moonPosition.z * (cosf moonPhaseAngle + 1) / 2 := by
      simp only [LUNAR_BRIGHTNESS_FACTOR]
      ring
    rw [e]
    exact hpos
  have hmax : max 0 (sqrtf moonPosition.z * ((cosf moonPhaseAngle + 1) / 2)
      * LUNAR_BRIGHTNESS_FACTOR
      - (ambientOf sqrtf cosf sunPosition.z moonPosition.z moonPhaseAngle - 0.05) / 2)
      = sqrtf moonPosition.z * ((cosf moonPhaseAngle + 1) / 2) * LUNAR_BRIGHTNESS_FACTOR
      - (ambientOf sqrtf cosf sunPosition.z moonPosition.z moonPhaseAngle - 0.05) / 2 :=
    max_eq_right hd.le
  simp only [calculateLightSource, gt_iff_lt, hns, if_false, hmoon, if_true, hmax, hd]
  refine ⟨trivial, ?_, trivial⟩
  simp only [LUNAR_BRIGHTNESS_FACTOR]
  ring

/-- The ambient brightness at Sun altitude sine -1/2, Moon altitude sine 3/10 and Moon
phase angle 0: the floor plus the lunar term, no solar term. -/
theorem ambientOf_moon_example :
    ambientOf Real.sqrt Real.cos (-1 / 2) (3 / 10) 0 = 0.075 + 0.2 * Real.sqrt (3 / 10) := by
  have h1 : ¬ ((-1 / 2 : ℝ) > -0.3) := by norm_num
  have h2 : (3 / 10 : ℝ) > 0 := by norm_num
  have e : (3 / 10 : ℝ) * ((Real.cos 0 + 1) / 2) = 3 / 10 := by
    rw [Real.cos_zero]
    norm_num
  simp only [ambientOf, h1, if_false, h2, if_true, e, MINIMUM_AMBIENT,
    LUNAR_BRIGHTNESS_FACTOR]
  ring

theorem sqrt_three_tenths_gt_half : (1 / 2 : ℝ) < Real.sqrt (3 / 10) := by
  rw [Real.lt_sqrt (by norm_num)]
  norm_num

/-- Witness of C14 (amended), the scenario of the specification: Sun altitude sine -1/2,
Moon altitude sine 3/10, Moon phase angle 0, shadows enabled. The caster is `Moon`, the
ambient brightness is the floor plus the strictly positive lunar term `0.2*sqrt(3/10)`
and no solar term, and the directional brightness is positive. -/
theorem calculateLightSource_moon_witness :
    ((-1 / 2 : ℝ) ≤ 0 ∧ (0 : ℝ) < 3 / 10)
    ∧ (calculateLightSource Real.sqrt Real.cos true none ⟨Real.sqrt 3 / 2, 0, -1 / 2⟩
        ⟨Real.sqrt 91 / 10, 0, 3 / 10⟩ ⟨0, 1, 0⟩ 0 0).shadowcaster = ShadowCaster.Moon
    ∧ (calculateLightSource Real.sqrt Real.cos true none ⟨Real.sqrt 3 / 2, 0, -1 / 2⟩
        ⟨Real.sqrt 91 / 10, 0, 3 / 10⟩ ⟨0, 1, 0⟩ 0 0).ambientBrightness
      = 0.075 + 0.2 * Real.sqrt (3 / 10)
    ∧ 0 < 0.2 * Real.sqrt (3 / 10)
    ∧ 0 < (calculateLightSource Real.sqrt Real.cos true none ⟨Real.sqrt 3 / 2, 0, -1 / 2⟩
        ⟨Real.sqrt 91 / 10, 0, 3 / 10⟩ ⟨0, 1, 0⟩ 0 0).directionalBrightness
    ∧ (calculateLightSource Real.sqrt Real.cos true none ⟨Real.sqrt 3 / 2, 0, -1 / 2⟩
        ⟨Real.sqrt 91 / 10, 0, 3 / 10⟩ ⟨0, 1, 0⟩ 0 0).lightsourcePosition
      = ⟨Real.sqrt 91 / 10, 0, 3 / 10⟩ := by
  have hs := sqrt_three_tenths_gt_half
  have ha : (calculateLightSource Real.sqrt Real.cos true none ⟨Real.sqrt 3 / 2, 0, -1 / 2⟩
      ⟨Real.sqrt 91 / 10, 0, 3 / 10⟩ ⟨0, 1, 0⟩ 0 0).ambientBrightness
      = 0.075 + 0.2 * Real.sqrt (3 / 10) := by
    rw [calculateLightSource_ambient]
    exact ambientOf_moon_example
  have hpos : 0 < 0.2 * Real.sqrt (3 / 10) * (Real.cos 0 + 1) / 2
      - ((calculateLightSource Real.sqrt Real.cos true none ⟨Real.sqrt 3 / 2, 0, -1 / 2⟩
          ⟨Real.sqrt 91 / 10, 0, 3 / 10⟩ ⟨0, 1, 0⟩ 0 0).ambientBrightness - 0.05) / 2 := by
    rw [ha, Real.cos_zero]
    generalize Real.sqrt (3 / 10) = r at hs
    norm_num
    linarith
  have h := calculateLightSource_moon Real.sqrt Real.cos true none
    ⟨Real.sqrt 3 / 2, 0, -1 / 2⟩ ⟨Real.sqrt 91 / 10, 0, 3 / 10⟩ ⟨0, 1, 0⟩ 0 0
    (by norm_num) (by norm_num) hpos
  refine ⟨⟨by norm_num, by norm_num⟩, by simpa using h.1, ha, by linarith, ?_, h.2.2⟩
  rw [h.2.1]
  exact hpos

/-- C15: for every input the ambient brightness `calculateLightSource` returns is the
floor 0.075 plus the Sun contribution (`min(0.3, sinSun + 0.3)` when `sinSun > -0.3`,
else 0) plus the Moon contribution (`0.2*sqrt(sinMoon*(cos(moonPhase)+1)/2)` when
`sinMoon > 0`, else 0); the Sun contribution lies in [0, 0.3] and the ambient brightness
is never below the floor. `sqrt` and `cos` are the real functions. -/
theorem calculateLightSource_ambient_sum (shadows : Bool) (lightscape : Option ℝ)
    (sunPosition moonPosition venusPosition : Vec3 ℝ) (moonPhaseAngle venusPhaseAngle : ℝ) :
    (calculateLightSource Real.sqrt Real.cos shadows lightscape sunPosition moonPosition
        venusPosition moonPhaseAngle venusPhaseAngle).ambientBrightness
      = 0.075 + referenceSunAmbient sunPosition.z
        + referenceMoonAmbient Real.sqrt Real.cos moonPosition.z moonPhaseAngle
    ∧ 0 ≤ referenceSunAmbient sunPosition.z
    ∧ referenceSunAmbient sunPosition.z ≤ 0.3
    ∧ 0 ≤ referenceMoonAmbient Real.sqrt Real.cos moonPosition.z moonPhaseAngle
    ∧ 0.075 ≤ (calculateLightSource Real.sqrt Real.cos shadows lightscape sunPosition
        moonPosition venusPosition moonPhaseAngle venusPhaseAngle).ambientBrightness := by
  have hsun0 : 0 ≤ referenceSunAmbient sunPosition.z := by
    unfold referenceSunAmbient
    split_ifs with h
    · apply le_min
      · norm_num
      · linarith
    · exact le_rfl
  have hsun1 : referenceSunAmbient sunPosition.z ≤ 0.3 := by
    unfold referenceSunAmbient
    split_ifs with h
    · exact min_le_left _ _
    · norm_num
  have hmoon0 : 0 ≤ referenceMoonAmbient Real.sqrt Real.cos moonPosition.z moonPhaseAngle := by
    unfold referenceMoonAmbient
    split_ifs with h
    · exact mul_nonneg (by norm_num) (Real.sqrt_nonneg _)
    · exact le_rfl
  have heq : (calculateLightSource Real.sqrt Real.cos shadows lightscape sunPosition
      moonPosition venusPosition moonPhaseAngle venusPhaseAngle).ambientBrightness
      = 0.075 + referenceSunAmbient sunPosition.z
        + referenceMoonAmbient Real.sqrt Real.cos moonPosition.z moonPhaseAngle := by
    rw [calculateLightSource_ambient]
    simp only [ambientOf, referenceSunAmbient, referenceMoonAmbient, MINIMUM_AMBIENT,
      LUNAR_BRIGHTNESS_FACTOR]
    have e : moonPosition.z * ((Real.cos moonPhaseAngle + 1) / 2)
        = moonPosition.z * (Real.cos moonPhaseAngle + 1) / 2 := by ring
    rw [e]
    split_ifs <;> ring
  refine ⟨heq, hsun0, hsun1, hmoon0, ?_⟩
  rw [heq]
  linarith

/-- C20: night-vision mode routes every colour into the red channel: for every lighting
input the ambient, directional, emissive, specular and torch colours computed with night
vision on have green = blue = 0 and the red component that, with night vision off, is
written to all three channels. -/
theorem calculateLighting_night_vision {K : Type} [LinearOrderedField K]
    (sqrtf cosf : K → K) (torchLight : Bool) (torchBrightness torchRange : K)
    (shadows : Bool) (lightscape : Option K)
    (sunPosition moonPosition venusPosition : Vec3 K)
    (moonPhaseAngle venusPhaseAngle : K) :
    ∃ a d e sp t : K,
      (calculateLighting sqrtf cosf false torchLight torchBrightness torchRange shadows
          lightscape sunPosition moonPosition venusPosition moonPhaseAngle
          venusPhaseAngle).ambient = ⟨a, a, a⟩
      ∧ (calculateLighting sqrtf cosf false torchLight torchBrightness torchRange shadows
          lightscape sunPosition moonPosition venusPosition moonPhaseAngle
          venusPhaseAngle).directional = ⟨d, d, d⟩
      ∧ (calculateLighting sqrtf cosf false torchLight torchBrightness torchRange shadows
          lightscape sunPosition moonPosition venusPosition moonPhaseAngle
          venusPhaseAngle).emissive = ⟨e, e, e⟩
      ∧ (calculateLighting sqrtf cosf false torchLight torchBrightness torchRange shadows
          lightscape sunPosition moonPosition venusPosition moonPhaseAngle
          venusPhaseAngle).specular = ⟨sp, sp, sp⟩
      ∧ (calculateLighting sqrtf cosf false torchLight torchBrightness torchRange shadows
          lightscape sunPosition moonPosition venusPosition moonPhaseAngle
          venusPhaseAngle).torchDiffuse = ⟨t, t, t⟩
      ∧ (calculateLighting sqrtf cosf true torchLight torchBrightness torchRange shadows
          lightscape sunPosition moonPosition venusPosition moonPhaseAngle
          venusPhaseAngle).ambient = ⟨a, 0, 0⟩
      ∧ (calculateLighting sqrtf cosf true torchLight torchBrightness torchRange shadows
          lightscape sunPosition moonPosition venusPosition moonPhaseAngle
          venusPhaseAngle).directional = ⟨d, 0, 0⟩
      ∧ (calculateLighting sqrtf cosf true torchLight torchBrightness torchRange shadows
          lightscape sunPosition moonPosition venusPosition moonPhaseAngle
          venusPhaseAngle).emissive = ⟨e, 0, 0⟩
      ∧ (calculateLighting sqrtf cosf true torchLight torchBrightness torchRange shadows
          lightscape sunPosition moonPosition venusPosition moonPhaseAngle
          venusPhaseAngle).specular = ⟨sp, 0, 0⟩
      ∧ (calculateLighting sqrtf cosf true torchLight torchBrightness torchRange shadows
          lightscape sunPosition moonPosition venusPosition moonPhaseAngle
          venusPhaseAngle).torchDiffuse = ⟨t, 0, 0⟩ :=
  ⟨_, _, _, _, _, rfl, rfl, rfl, rfl, rfl, rfl, rfl, rfl, rfl, rfl⟩

/-! ## Claims about the outer orthographic light volume -/

theorem normalize_light_example :
    (⟨-(3 / 5), 0, -(4 / 5)⟩ : Vec3 ℝ).normalize Real.sqrt = some ⟨-(3 / 5), 0, -(4 / 5)⟩ := by
  have h : (⟨-(3 / 5), 0, -(4 / 5)⟩ : Vec3 ℝ).dot ⟨-(3 / 5), 0, -(4 / 5)⟩ = 1 := by
    norm_num [Vec3.dot]
  simp [Vec3.normalize, h, fdiv]

theorem normalize_left_example :
    (⟨0, 3 / 5, 0⟩ : Vec3 ℝ).normalize Real.sqrt = some ⟨0, 1, 0⟩ := by
  have h : (⟨0, 3 / 5, 0⟩ : Vec3 ℝ).dot ⟨0, 3 / 5, 0⟩ = (3 / 5) ^ 2 := by
    norm_num [Vec3.dot]
  have hs : Real.sqrt ((3 / 5 : ℝ) ^ 2) = 3 / 5 := Real.sqrt_sq (by norm_num)
  simp [Vec3.normalize, h, hs, fdiv]

/-- For the scene (-10,-1,0)-(10,1,10) lit from the direction (3/5, 0, 4/5), the values
computed by `computeOrthoProjVals`: extent 46/5, near -13, far 7. -/
theorem computeOrthoProjVals_example :
    computeOrthoProjVals Real.sqrt (⟨⟨-10, -1, 0⟩, ⟨10, 1, 10⟩⟩ : AABB ℝ) ⟨3 / 5, 0, 4 / 5⟩
      = some ⟨46 / 5, -13, 7⟩ := by
  have hc : (⟨-(3 / 5), 0, -(4 / 5)⟩ : Vec3 ℝ).cross ⟨0, 0, 1⟩ = ⟨0, 3 / 5, 0⟩ := by
    norm_num [Vec3.cross]
  have h0 : computeOrthoProjValsStep (⟨⟨-10, -1, 0⟩, ⟨10, 1, 10⟩⟩ : AABB ℝ) ⟨3 / 5, 0, 4 / 5⟩
      ⟨-(3 / 5), 0, -(4 / 5)⟩ ⟨0, 0, 1⟩ ⟨0, 0, -1⟩ ⟨0, 1, 0⟩ ⟨0, -1, 0⟩ ⟨-(FLT_MAX : ℝ), (FLT_MAX : ℝ), 0⟩ 0
      = ⟨7, 7, 1⟩ := by
    norm_num [computeOrthoProjValsStep, AABB.getCorner, Vec3.sub, Vec3.dot, FLT_MAX,
      abs_eq_max_neg, max_def, min_def]
  have h1 : computeOrthoProjValsStep (⟨⟨-10, -1, 0⟩, ⟨10, 1, 10⟩⟩ : AABB ℝ) ⟨3 / 5, 0, 4 / 5⟩
      ⟨-(3 / 5), 0, -(4 / 5)⟩ ⟨0, 0, 1⟩ ⟨0, 0, -1⟩ ⟨0, 1, 0⟩ ⟨0, -1, 0⟩ ⟨7, 7, 1⟩ 1
      = ⟨7, -5, 1⟩ := by
    norm_num [computeOrthoProjValsStep, AABB.getCorner, Vec3.sub, Vec3.dot, FLT_MAX,
      abs_eq_max_neg, max_def, min_def]
  have h2 : computeOrthoProjValsStep (⟨⟨-10, -1, 0⟩, ⟨10, 1, 10⟩⟩ : AABB ℝ) ⟨3 / 5, 0, 4 / 5⟩
      ⟨-(3 / 5), 0, -(4 / 5)⟩ ⟨0, 0, 1⟩ ⟨0, 0, -1⟩ ⟨0, 1, 0⟩ ⟨0, -1, 0⟩ ⟨7, -5, 1⟩ 2
      = ⟨7, -5, 1⟩ := by
    norm_num [computeOrthoProjValsStep, AABB.getCorner, Vec3.sub, Vec3.dot, FLT_MAX,
      abs_eq_max_neg, max_def, min_def]
  have h3 : computeOrthoProjValsStep (⟨⟨-10, -1, 0⟩, ⟨10, 1, 10⟩⟩ : AABB ℝ) ⟨3 / 5, 0, 4 / 5⟩
      ⟨-(3 / 5), 0, -(4 / 5)⟩ ⟨0, 0, 1⟩ ⟨0, 0, -1⟩ ⟨0, 1, 0⟩ ⟨0, -1, 0⟩ ⟨7, -5, 1⟩ 3
      = ⟨7, -5, 1⟩ := by
    norm_num [computeOrthoProjValsStep, AABB.getCorner, Vec3.sub, Vec3.dot, FLT_MAX,
      abs_eq_max_neg, max_def, min_def]
  have h4 : computeOrthoProjValsStep (⟨⟨-10, -1, 0⟩, ⟨10, 1, 10⟩⟩ : AABB ℝ) ⟨3 / 5, 0, 4 / 5⟩
      ⟨-(3 / 5), 0, -(4 / 5)⟩ ⟨0, 0, 1⟩ ⟨0, 0, -1⟩ ⟨0, 1, 0⟩ ⟨0, -1, 0⟩ ⟨7, -5, 1⟩ 4
      = ⟨7, -5, 46 / 5⟩ := by
    norm_num [computeOrthoProjValsStep, AABB.getCorner, Vec3.sub, Vec3.dot, FLT_MAX,
      abs_eq_max_neg, max_def, min_def]
  have h5 : computeOrthoProjValsStep (⟨⟨-10, -1, 0⟩, ⟨10, 1, 10⟩⟩ : AABB ℝ) ⟨3 / 5, 0, 4 / 5⟩
      ⟨-(3 / 5), 0, -(4 / 5)⟩ ⟨0, 0, 1⟩ ⟨0, 0, -1⟩ ⟨0, 1, 0⟩ ⟨0, -1, 0⟩ ⟨7, -5, 46 / 5⟩ 5
      = ⟨7, -13, 46 / 5⟩ := by
    norm_num [computeOrthoProjValsStep, AABB.getCorner, Vec3.sub, Vec3.dot, FLT_MAX,
      abs_eq_max_neg, max_def, min_def]
  have h6 : computeOrthoProjValsStep (⟨⟨-10, -1, 0⟩, ⟨10, 1, 10⟩⟩ : AABB ℝ) ⟨3 / 5, 0, 4 / 5⟩
      ⟨-(3 / 5), 0, -(4 / 5)⟩ ⟨0, 0, 1⟩ ⟨0, 0, -1⟩ ⟨0, 1, 0⟩ ⟨0, -1, 0⟩ ⟨7, -13, 46 / 5⟩ 6
      = ⟨7, -13, 46 / 5⟩ := by
    norm_num [computeOrthoProjValsStep, AABB.getCorner, Vec3.sub, Vec3.dot, FLT_MAX,
      abs_eq_max_neg, max_def, min_def]
  have h7 : computeOrthoProjValsStep (⟨⟨-10, -1, 0⟩, ⟨10, 1, 10⟩⟩ : AABB ℝ) ⟨3 / 5, 0, 4 / 5⟩
      ⟨-(3 / 5), 0, -(4 / 5)⟩ ⟨0, 0, 1⟩ ⟨0, 0, -1⟩ ⟨0, 1, 0⟩ ⟨0, -1, 0⟩ ⟨7, -13, 46 / 5⟩ 7
      = ⟨7, -13, 46 / 5⟩ := by
    norm_num [computeOrthoProjValsStep, AABB.getCorner, Vec3.sub, Vec3.dot, FLT_MAX,
      abs_eq_max_neg, max_def, min_def]
  have hr : List.range AABB.CORNERCOUNT = [0, 1, 2, 3, 4, 5, 6, 7] := by decide
  simp only [computeOrthoProjVals, Vec3.neg, normalize_light_example, hc,
    normalize_left_example, Option.bind_eq_bind, Option.some_bind, Option.pure_def, hr,
    List.foldl_cons, List.foldl_nil, neg_zero, h0, h1, h2, h3, h4, h5, h6, h7]

/-- C11, evaluation at the failing input: for the scene (-10,-1,0)-(10,1,10) lit from the
unit direction (3/5, 0, 4/5) `computeOrthoProjVals` gives the extent 46/5, while the
corner (-10,-1,10) of the scene, transformed by the light's look-at view matrix (eye =
light direction, target = origin, up = world-up), has the view-space height 14 and so
lies outside the volume `[-46/5, 46/5] x [-46/5, 46/5] x [-13, 7]`. -/
theorem computeOrthoProjVals_misses_corner :
    computeOrthoProjVals Real.sqrt (⟨⟨-10, -1, 0⟩, ⟨10, 1, 10⟩⟩ : AABB ℝ) ⟨3 / 5, 0, 4 / 5⟩
      = some ⟨46 / 5, -13, 7⟩
    ∧ (⟨⟨-10, -1, 0⟩, ⟨10, 1, 10⟩⟩ : AABB ℝ).getCorner 4 = ⟨-10, -1, 10⟩
    ∧ lookAt Real.sqrt (⟨3 / 5, 0, 4 / 5⟩ : Vec3 ℝ) ⟨0, 0, 0⟩ ⟨0, 0, 1⟩ ⟨-10, -1, 10⟩
      = some ⟨-1, 14, 1⟩
    ∧ ¬ inOrthoVolume (⟨46 / 5, -13, 7⟩ : OrthoProjVals ℝ) ⟨-1, 14, 1⟩ := by
  have hc : (⟨-(3 / 5), 0, -(4 / 5)⟩ : Vec3 ℝ).cross ⟨0, 0, 1⟩ = ⟨0, 3 / 5, 0⟩ := by
    norm_num [Vec3.cross]
  have hsub : (⟨0, 0, 0⟩ : Vec3 ℝ).sub ⟨3 / 5, 0, 4 / 5⟩ = ⟨-(3 / 5), 0, -(4 / 5)⟩ := by
    norm_num [Vec3.sub]
  refine ⟨computeOrthoProjVals_example, ?_, ?_, ?_⟩
  · norm_num [AABB.getCorner]
  · simp only [lookAt, hsub, normalize_light_example, hc, normalize_left_example,
      Option.bind_eq_bind, Option.some_bind, Option.pure_def]
    norm_num [Vec3.cross, Vec3.sub, Vec3.dot]
  · norm_num [inOrthoVolume]

/-! ## Claims about the cubemap face rotations -/

/-- No vector is sent to the six axis directions by the rotations of the 6-textures mode
and also by those of the cubemap modes. -/
theorem cubeRotation_no_common_forward :
    ¬ ∃ v : Vec3 Int,
      (rotatedImages (cubeRotation CubemappingMode.TEXTURES) v).Perm sixAxes
      ∧ (rotatedImages (cubeRotation CubemappingMode.CUBEMAP) v).Perm sixAxes := by
  rintro ⟨⟨x, y, z⟩, h1, h2⟩
  have e0 : (⟨x, z, -y⟩ : Vec3 Int)
      ∈ rotatedImages (cubeRotation CubemappingMode.TEXTURES) ⟨x, y, z⟩ := by
    simp [rotatedImages, cubeRotation, Mat3.rotate, Mat3.mul, Mat3.mulVec, Mat3.identity,
      exactCosSin, CubemappingMode.geCubemap]
  have hm := h1.subset e0
  simp only [sixAxes, List.mem_cons, List.mem_singleton, Vec3.mk.injEq, List.mem_nil_iff,
    or_false] at hm
  rcases hm with ⟨rfl, rfl, hy⟩ | ⟨rfl, rfl, hy⟩ | ⟨rfl, rfl, hy⟩ | ⟨rfl, rfl, hy⟩
      | ⟨rfl, rfl, hy⟩ | ⟨rfl, rfl, hy⟩ <;>
    · have hy' : y = 0 ∨ y = 1 ∨ y = -1 := by omega
      rcases hy' with rfl | rfl | rfl <;> first | (revert h1; decide) | (revert h2; decide)

/-- C16, counterexample: in the 6-textures mode the six rotations applied to the forward
vector (0,0,-1) do not cover the six axis directions: the faces 0 to 3 all send it to
(0,-1,0). -/
theorem cubeRotation_textures_forward_images :
    rotatedImages (cubeRotation CubemappingMode.TEXTURES) viewForward
      = [⟨0, -1, 0⟩, ⟨0, -1, 0⟩, ⟨0, -1, 0⟩, ⟨0, -1, 0⟩, ⟨0, 0, -1⟩, ⟨0, 0, 1⟩]
    ∧ ¬ (rotatedImages (cubeRotation CubemappingMode.TEXTURES) viewForward).Perm sixAxes := by
  decide

/-- C16, amended: in every mode each of the six rotations is a pure rotation, and the six
directions the faces look along (the inverse of each rotation applied to the forward
vector (0,0,-1)) are the six axis directions +X, -X, +Y, -Y, +Z, -Z, each exactly once;
any two of them are perpendicular or opposite. Applying the rotations themselves to the
forward vector covers the six axis directions in the two cubemap modes. -/
theorem cubeRotation_faces (mode : CubemappingMode) :
    (cubeRotation mode).length = 6
    ∧ (cubeRotation mode).all (fun r => decide r.isRotation) = true
    ∧ (faceDirections (cubeRotation mode)).Perm sixAxes
    ∧ (faceDirections (cubeRotation mode)).Pairwise
        (fun a b => a.dot b = 0 ∨ a = b.neg)
    ∧ (mode = CubemappingMode.TEXTURES
        ∨ (rotatedImages (cubeRotation mode) viewForward).Perm sixAxes) := by
  cases mode <;> decide

/-! ## Claims about the lazy cubemap refresh -/

/-- Turning the movement vector by the azimuth keeps its squared length. -/
theorem moveVector_lengthSquared (az : ℝ) (movement : Vec3 ℝ) :
    (moveVector Real.cos Real.sin az movement).lengthSquared = movement.lengthSquared := by
  have h := Real.sin_sq_add_cos_sq az
  simp only [moveVector, Vec3.lengthSquared]
  have e : (movement.x * Real.cos az + movement.y * Real.sin az)
        * (movement.x * Real.cos az + movement.y * Real.sin az)
      + (movement.x * Real.sin az - movement.y * Real.cos az)
        * (movement.x * Real.sin az - movement.y * Real.cos az)
      = (movement.x * movement.x + movement.y * movement.y)
        * (Real.sin az ^ 2 + Real.cos az ^ 2) := by ring
  rw [e, h]
  ring

/-- A vector has positive squared length exactly when it is not the zero vector. -/
theorem lengthSquared_pos_iff (v : Vec3 ℝ) : 0 < v.lengthSquared ↔ v ≠ ⟨0, 0, 0⟩ := by
  obtain ⟨x, y, z⟩ := v
  simp only [Vec3.lengthSquared, ne_eq, Vec3.mk.injEq]
  constructor
  · rintro h ⟨rfl, rfl, rfl⟩
    norm_num at h
  · intro h
    by_contra hn
    have hx := mul_self_nonneg x
    have hy := mul_self_nonneg y
    have hz := mul_self_nonneg z
    have h0 : x * x = 0 ∧ y * y = 0 ∧ z * z = 0 := by
      refine ⟨?_, ?_, ?_⟩ <;> linarith
    exact h ⟨mul_self_eq_zero.mp h0.1, mul_self_eq_zero.mp h0.2.1, mul_self_eq_zero.mp h0.2.2⟩

/-- C17: with lazy drawing enabled (and the core set), `update` marks the cubemap for
regeneration exactly when the camera movement vector is non-zero, or the time between
the current Julian day and the last cubemap update exceeds the lazy interval (seconds,
converted with `JD_SECOND`), or the re-initialisation flag is set, and otherwise clears
the mark; `drawWithCubeMap` calls `generateCubeMap` exactly when the mark is set, and its
last call is always `drawFromCubeMap`. -/
theorem update_marks_cubemap (JD_SECOND : ℝ) (c : CoreView ℝ) (s : LazyState ℝ)
    (hlazy : s.lazyDrawing = true) :
    ((update Real.cos Real.sin JD_SECOND (some c) s).needsCubemapUpdate = true
      ↔ (s.movement ≠ ⟨0, 0, 0⟩
          ∨ |c.curTime - s.lastCubemapUpdate| > s.lazyInterval * JD_SECOND
          ∨ s.reinitCubemapping = true))
    ∧ (∀ (t : ℝ) (d : LazyState ℝ),
        (CubeDrawCall.generateCubeMap ∈ (drawWithCubeMap t d).1 ↔ d.needsCubemapUpdate = true)
        ∧ (drawWithCubeMap t d).1.getLast? = some CubeDrawCall.drawFromCubeMap) := by
  constructor
  · have hm : (moveVector Real.cos Real.sin c.az s.movement).lengthSquared > 0
        ↔ s.movement ≠ ⟨0, 0, 0⟩ := by
      rw [moveVector_lengthSquared]
      exact lengthSquared_pos_iff _
    simp only [update, hlazy, if_true, hm]
    split_ifs with h
    · simp [h]
    · simp [h]
  · intro t d
    unfold drawWithCubeMap
    split_ifs with h
    · simp [h]
    · simp [h]

/-- Witness of C17: lazy drawing on, camera at rest, a quarter of the lazy interval of 2
seconds since the last cubemap update, no re-initialisation pending: none of the three
conditions holds and the mark is cleared. -/
theorem update_marks_cubemap_witness :
    (⟨⟨0, 0, 0⟩, true, 2, 10, false, true⟩ : LazyState ℝ).lazyDrawing = true
    ∧ ((update Real.cos Real.sin (1 / 86400) (some ⟨0, 10 + 1 / 172800⟩)
          (⟨⟨0, 0, 0⟩, true, 2, 10, false, true⟩ : LazyState ℝ)).needsCubemapUpdate = true
      ↔ ((⟨0, 0, 0⟩ : Vec3 ℝ) ≠ ⟨0, 0, 0⟩
          ∨ |(10 + 1 / 172800 : ℝ) - 10| > 2 * (1 / 86400)
          ∨ false = true))
    ∧ (update Real.cos Real.sin (1 / 86400) (some ⟨0, 10 + 1 / 172800⟩)
          (⟨⟨0, 0, 0⟩, true, 2, 10, false, true⟩ : LazyState ℝ)).needsCubemapUpdate = false := by
  have h := (update_marks_cubemap (1 / 86400) ⟨0, 10 + 1 / 172800⟩
    ⟨⟨0, 0, 0⟩, true, 2, 10, false, true⟩ rfl).1
  refine ⟨rfl, h, ?_⟩
  cases hb : (update Real.cos Real.sin (1 / 86400) (some ⟨0, 10 + 1 / 172800⟩)
      (⟨⟨0, 0, 0⟩, true, 2, 10, false, true⟩ : LazyState ℝ)).needsCubemapUpdate
  · rfl
  · exfalso
    rcases h.mp hb with h1 | h1 | h1
    · exact h1 rfl
    · norm_num [abs_of_pos] at h1
    · exact absurd h1 (by decide)

/-! ## Claims about the draw orchestrator -/

/-- C18, evaluation at the failing input: shadows enabled, no shadow targets yet, shadow
map size 1024, four splits, and the first framebuffer reported incomplete. With a
perspective display `draw` issues `deleteCubemapping`, `calculateLighting` and the
message and returns: `drawDirect` is not called and shadows stay enabled. With another
display the same happens and `drawWithCubeMap` is not called. -/
theorem draw_shadow_failure_drops_frame :
    (draw true (fun _ => false)
        ⟨true, false, false, true, true, true, 0, false, 1024, 4, false, false⟩).2
      = [DrawCall.deleteCubemapping, DrawCall.calculateLighting, DrawCall.showMessage]
    ∧ (draw true (fun _ => false)
        ⟨true, false, false, true, true, true, 0, false, 1024, 4, false, false⟩).1.shadows
      = true
    ∧ (draw false (fun _ => false)
        ⟨true, false, false, true, true, true, 0, false, 1024, 4, false, false⟩).2
      = [DrawCall.initCubemapping, DrawCall.calculateLighting, DrawCall.showMessage]
    ∧ (draw false (fun _ => false)
        ⟨true, false, false, true, true, true, 0, false, 1024, 4, false, false⟩).1.shadows
      = true := by
  decide

/-- A failing allocation: `initShadowmapping` returns false and records the message. -/
theorem initShadowmapping_fails (fboComplete : Nat → Bool) (s : DrawState)
    (hfail : s.shadowmapSize ≤ 0
      ∨ initShadowmappingLoop fboComplete s.frustumSplits s.frustumSplits 0 = false) :
    (initShadowmapping fboComplete s).1 = false
    ∧ (initShadowmapping fboComplete s).2.2 = [DrawCall.showMessage]
    ∧ (initShadowmapping fboComplete s).2.1.shadows = s.shadows := by
  unfold initShadowmapping
  by_cases hsize : s.shadowmapSize > 0
  · have hloop : initShadowmappingLoop fboComplete s.frustumSplits s.frustumSplits 0 = false := by
      rcases hfail with h | h
      · omega
      · exact h
    simp [hsize, hloop]
  · simp [hsize]

/-- When the shadow targets have to be allocated and the allocation fails,
`generateShadowMap` returns false, records only the message and leaves the shadows flag
as it was. -/
theorem generateShadowMap_fails (fboComplete : Nat → Bool) (s : DrawState)
    (hinit : s.reinitShadowmapping = true ∨ s.shadowFBOs = 0)
    (hfail : s.shadowmapSize ≤ 0
      ∨ initShadowmappingLoop fboComplete s.frustumSplits s.frustumSplits 0 = false) :
    (generateShadowMap fboComplete s).1 = false
    ∧ (generateShadowMap fboComplete s).2.2 = [DrawCall.showMessage]
    ∧ (generateShadowMap fboComplete s).2.1.shadows = s.shadows := by
  have hcond : (s.reinitShadowmapping || s.shadowFBOs == 0) = true := by
    rcases hinit with h | h <;> simp [h]
  obtain ⟨h1, h2, h3⟩ :=
    initShadowmapping_fails fboComplete { s with reinitShadowmapping := false } hfail
  simp only [generateShadowMap, hcond, if_true, h1, Bool.not_false]
  exact ⟨trivial, h2, h3⟩

/-- Whenever `draw` reaches `generateShadowMap`, the shadow targets have to be allocated
and the allocation fails, no scene draw call is recorded and the shadows flag stays
set. -/
theorem draw_shadow_failure_general (isPerspectiveProjection : Bool)
    (fboComplete : Nat → Bool) (s : DrawState) (hmodels : s.hasStelModels = true)
    (hshadows : s.shadows = true)
    (hneeded : isPerspectiveProjection = true ∨ s.needsCubemapUpdate = true)
    (hinit : s.reinitShadowmapping = true ∨ s.shadowFBOs = 0)
    (hfail : s.shadowmapSize ≤ 0
      ∨ initShadowmappingLoop fboComplete s.frustumSplits s.frustumSplits 0 = false) :
    DrawCall.drawDirect ∉ (draw isPerspectiveProjection fboComplete s).2
    ∧ DrawCall.drawWithCubeMap ∉ (draw isPerspectiveProjection fboComplete s).2
    ∧ (draw isPerspectiveProjection fboComplete s).1.shadows = true := by
  obtain ⟨hasM, cmc, ric, sh, ncu, rsm, fbos, fix, size, splits, te, de⟩ := s
  simp only at hmodels hshadows hneeded hinit hfail
  subst hmodels hshadows
  have key : ∀ (c r : Bool) (pre : List DrawCall),
      DrawCall.drawDirect ∉ pre → DrawCall.drawWithCubeMap ∉ pre →
      (generateShadowMap fboComplete
          ⟨true, c, r, true, ncu, rsm, fbos, fix, size, splits, te, de⟩).1 = false
      ∧ DrawCall.drawDirect ∉ pre ++ [DrawCall.calculateLighting]
          ++ (generateShadowMap fboComplete
            ⟨true, c, r, true, ncu, rsm, fbos, fix, size, splits, te, de⟩).2.2
      ∧ DrawCall.drawWithCubeMap ∉ pre ++ [DrawCall.calculateLighting]
          ++ (generateShadowMap fboComplete
            ⟨true, c, r, true, ncu, rsm, fbos, fix, size, splits, te, de⟩).2.2
      ∧ (generateShadowMap fboComplete
          ⟨true, c, r, true, ncu, rsm, fbos, fix, size, splits, te, de⟩).2.1.shadows
        = true := by
    intro c r pre p1 p2
    obtain ⟨g1, g2, g3⟩ := generateShadowMap_fails fboComplete
      ⟨true, c, r, true, ncu, rsm, fbos, fix, size, splits, te, de⟩ hinit hfail
    refine ⟨g1, ?_, ?_, g3⟩
    · rw [g2]
      simp [p1]
    · rw [g2]
      simp [p2]
  unfold draw
  simp only [Bool.not_true, Bool.false_eq_true, if_false]
  by_cases hp : isPerspectiveProjection = true
  · obtain ⟨k1, k2, k3, k4⟩ := key false ric [DrawCall.deleteCubemapping] (by simp) (by simp)
    simp only [hp, Bool.not_true, Bool.false_eq_true, if_false, if_true, Bool.true_or, k1]
    exact ⟨k2, k3, k4⟩
  · have hpf : isPerspectiveProjection = false := by simpa using hp
    have hnc : ncu = true := by
      rcases hneeded with h | h
      · exact absurd h hp
      · exact h
    subst hnc
    by_cases hc : (!cmc || ric) = true
    · obtain ⟨k1, k2, k3, k4⟩ := key true false [DrawCall.initCubemapping] (by simp) (by simp)
      simp only [hpf, Bool.not_false, if_true, hc, Bool.false_or, k1]
      exact ⟨k2, k3, k4⟩
    · obtain ⟨k1, k2, k3, k4⟩ := key cmc ric [] (by simp) (by simp)
      simp only [hpf, Bool.not_false, if_true, hc, Bool.false_eq_true, if_false,
        Bool.false_or, k1]
      exact ⟨k2, k3, k4⟩

/-! ## Claims about the cubemap resource set -/

/-- On consistent resources `deleteCubemapping` leaves the flag clear and every handle
zero, and keeps the mode. -/
theorem deleteCubemapping_absent (s : CubemapResources) (hs : s.consistent) :
    (deleteCubemapping s).cubeMappingCreated = false ∧ (deleteCubemapping s).allZero
    ∧ (deleteCubemapping s).cubemappingMode = s.cubemappingMode := by
  obtain ⟨h1, h2, h3⟩ := hs
  unfold deleteCubemapping
  by_cases hc : s.cubeMappingCreated = true
  · simp only [hc, if_true, CubemapResources.allZero]
    refine ⟨trivial, ⟨?_, ?_, ?_, ?_, ?_, ?_⟩, trivial⟩
    · split_ifs with h
      · rfl
      · simpa using h
    · split_ifs with h
      · rfl
      · simpa using h
    · split_ifs with h
      · intro x hx
        exact (List.mem_replicate.mp hx).2
      · exact h2 (by simpa using h)
    · split_ifs with h
      · rfl
      · simpa using h
    · split_ifs with h
      · rfl
      · simpa using h
    · split_ifs with h
      · intro x hx
        exact (List.mem_replicate.mp hx).2
      · exact h3 (by simpa using h)
  · have hf : s.cubeMappingCreated = false := by simpa using hc
    simp only [hf, Bool.false_eq_true, if_false]
    exact ⟨trivial, h1 hf, trivial⟩

theorem getD_zero_ne_zero (l : List Nat) (hlen : l.length = 6) (hall : ∀ h ∈ l, h ≠ 0) :
    l.getD 0 0 ≠ 0 := by
  cases l with
  | nil => simp at hlen
  | cons a rest =>
    simp only [List.getD_cons_zero]
    exact hall a (List.mem_cons_self a rest)

/-- The framebuffer loop ends with false only when it met an incomplete framebuffer (or
did not run at all). -/
theorem sideFramebufferLoop_false (fboComplete : Nat → Bool) (l : List Nat) (r : Bool)
    (h : sideFramebufferLoop fboComplete l r = false) :
    (l = [] ∧ r = false) ∨ ∃ i ∈ l, fboComplete i = false := by
  induction l generalizing r with
  | nil =>
    left
    exact ⟨rfl, by simpa [sideFramebufferLoop] using h⟩
  | cons a rest ih =>
    right
    simp only [sideFramebufferLoop] at h
    by_cases ha : fboComplete a = true
    · simp only [ha, Bool.not_true, Bool.false_eq_true, if_false] at h
      rcases ih true h with ⟨_, ht⟩ | ⟨i, hi, hf⟩
      · exact absurd ht (by decide)
      · exact ⟨i, List.mem_cons_of_mem a hi, hf⟩
    · exact ⟨a, List.mem_cons_self a rest, by simpa using ha⟩

/-- C19, counterexample: from the resources the constructor leaves (mode CUBEMAP), with
non-zero names handed out and every framebuffer reported incomplete, `initCubemapping`
returns false although the created flag is set and the cube texture handle is not
zero. -/
theorem initCubemapping_failure_keeps_resources :
    (initCubemapping ⟨1, 2, [3, 4, 5, 6, 7, 8], 9, 10, [11, 12, 13, 14, 15, 16],
        fun _ => false, true⟩ initialCubemapResources).1 = false
    ∧ (initCubemapping ⟨1, 2, [3, 4, 5, 6, 7, 8], 9, 10, [11, 12, 13, 14, 15, 16],
        fun _ => false, true⟩ initialCubemapResources).2
      = ⟨CubemappingMode.CUBEMAP, 1, 0, [0, 0, 0, 0, 0, 0], 9, 0, [11, 12, 13, 14, 15, 16],
          true⟩
    ∧ ¬ (((initCubemapping ⟨1, 2, [3, 4, 5, 6, 7, 8], 9, 10, [11, 12, 13, 14, 15, 16],
            fun _ => false, true⟩ initialCubemapResources).1 = true
          ∧ (initCubemapping ⟨1, 2, [3, 4, 5, 6, 7, 8], 9, 10, [11, 12, 13, 14, 15, 16],
            fun _ => false, true⟩ initialCubemapResources).2.cubeMappingCreated = true
          ∧ (initCubemapping ⟨1, 2, [3, 4, 5, 6, 7, 8], 9, 10, [11, 12, 13, 14, 15, 16],
            fun _ => false, true⟩ initialCubemapResources).2.neededAllocated)
        ∨ ((initCubemapping ⟨1, 2, [3, 4, 5, 6, 7, 8], 9, 10, [11, 12, 13, 14, 15, 16],
            fun _ => false, true⟩ initialCubemapResources).1 = false
          ∧ (initCubemapping ⟨1, 2, [3, 4, 5, 6, 7, 8], 9, 10, [11, 12, 13, 14, 15, 16],
            fun _ => false, true⟩ initialCubemapResources).2.cubeMappingCreated = false
          ∧ (initCubemapping ⟨1, 2, [3, 4, 5, 6, 7, 8], 9, 10, [11, 12, 13, 14, 15, 16],
            fun _ => false, true⟩ initialCubemapResources).2.allZero)) := by
  have h1 : (initCubemapping ⟨1, 2, [3, 4, 5, 6, 7, 8], 9, 10, [11, 12, 13, 14, 15, 16],
      fun _ => false, true⟩ initialCubemapResources).1 = false := by decide
  have h2 : (initCubemapping ⟨1, 2, [3, 4, 5, 6, 7, 8], 9, 10, [11, 12, 13, 14, 15, 16],
      fun _ => false, true⟩ initialCubemapResources).2
      = ⟨CubemappingMode.CUBEMAP, 1, 0, [0, 0, 0, 0, 0, 0], 9, 0, [11, 12, 13, 14, 15, 16],
          true⟩ := by decide
  refine ⟨h1, h2, ?_⟩
  rw [h1, h2]
  simp

/-- C19, amended: on consistent resources and with the graphics library handing out
non-zero names, after every call of `initCubemapping` the created flag is set and every
handle the resulting mode needs is allocated, whether the call returns true or false (a
false return reports an incomplete framebuffer); the resources stay consistent, and
after `deleteCubemapping` (called on the result, or on the resources before) the created
flag is clear and every cubemap handle is zero. -/
theorem initCubemapping_allocates (gl : GLAnswers) (s : CubemapResources)
    (hgl : gl.namesValid) (hs : s.consistent) :
    (initCubemapping gl s).2.cubeMappingCreated = true
    ∧ (initCubemapping gl s).2.neededAllocated
    ∧ (initCubemapping gl s).2.consistent
    ∧ ((initCubemapping gl s).1 = false → ∃ i, i < 6 ∧ gl.fboComplete i = false)
    ∧ (deleteCubemapping (initCubemapping gl s).2).cubeMappingCreated = false
    ∧ (deleteCubemapping (initCubemapping gl s).2).allZero
    ∧ (deleteCubemapping s).cubeMappingCreated = false
    ∧ (deleteCubemapping s).allZero := by
  obtain ⟨d1, d2, _⟩ := deleteCubemapping_absent s hs
  obtain ⟨g1, g2, g3, g4, g5, g6, g7, g8⟩ := hgl
  have hf := getD_zero_ne_zero gl.faceTex g5 g6
  have hsf := getD_zero_ne_zero gl.sideFramebuffers g7 g8
  have hloop : sideFramebufferLoop gl.fboComplete (List.range 6) false = false →
      ∃ i, i < 6 ∧ gl.fboComplete i = false := by
    intro h
    rcases sideFramebufferLoop_false gl.fboComplete (List.range 6) false h with ⟨hn, _⟩ | ⟨i, hi, hfi⟩
    · exact absurd hn (by decide)
    · exact ⟨i, List.mem_range.mp hi, hfi⟩
  have main : (initCubemapping gl s).2.cubeMappingCreated = true
      ∧ (initCubemapping gl s).2.neededAllocated
      ∧ (initCubemapping gl s).2.consistent
      ∧ ((initCubemapping gl s).1 = false → ∃ i, i < 6 ∧ gl.fboComplete i = false) := by
    unfold initCubemapping
    generalize deleteCubemapping s = s0 at d1 d2
    obtain ⟨mode, t, dt, ts, rb, fb, sfs, created⟩ := s0
    obtain ⟨z1, z2, z3, z4, z5, z6⟩ := d2
    simp only at d1 z1 z2 z3 z4 z5 z6
    subst d1 z1 z2 z4 z5
    cases hgs : gl.geometryShaderSupported <;> cases mode <;>
      simp [CubemapResources.neededAllocated, CubemapResources.consistent,
        CubemapResources.allZero, CubemappingMode.geCubemap, g1, g2, g3, g4, g5, g6, g7, g8,
        hf, hsf] <;>
      (repeat' apply And.intro) <;>
      first
        | exact g6
        | exact g8
        | exact hloop
        | exact fun _ => z3
        | exact fun _ => z6
        | exact fun h => ⟨0, by decide, h⟩
  obtain ⟨m1, m2, m3, m4⟩ := main
  obtain ⟨e1, e2, _⟩ := deleteCubemapping_absent _ m3
  exact ⟨m1, m2, m3, m4, e1, e2, d1, d2⟩

/-- Witness of C19 (amended): the resources the constructor leaves (mode CUBEMAP),
non-zero names and the fourth side framebuffer reported incomplete: the call returns
false with the flag set and the needed handles allocated, and `deleteCubemapping` then
clears the flag and every handle. -/
theorem initCubemapping_allocates_witness :
    (⟨1, 2, [3, 4, 5, 6, 7, 8], 9, 10, [11, 12, 13, 14, 15, 16],
        fun i => decide (i ≠ 3), true⟩ : GLAnswers).namesValid
    ∧ initialCubemapResources.consistent
    ∧ (initCubemapping ⟨1, 2, [3, 4, 5, 6, 7, 8], 9, 10, [11, 12, 13, 14, 15, 16],
        fun i => decide (i ≠ 3), true⟩ initialCubemapResources).1 = false
    ∧ (initCubemapping ⟨1, 2, [3, 4, 5, 6, 7, 8], 9, 10, [11, 12, 13, 14, 15, 16],
        fun i => decide (i ≠ 3), true⟩ initialCubemapResources).2.cubeMappingCreated = true
    ∧ (initCubemapping ⟨1, 2, [3, 4, 5, 6, 7, 8], 9, 10, [11, 12, 13, 14, 15, 16],
        fun i => decide (i ≠ 3), true⟩ initialCubemapResources).2.neededAllocated
    ∧ (deleteCubemapping (initCubemapping ⟨1, 2, [3, 4, 5, 6, 7, 8], 9, 10,
        [11, 12, 13, 14, 15, 16], fun i => decide (i ≠ 3), true⟩
        initialCubemapResources).2).cubeMappingCreated = false
    ∧ (deleteCubemapping (initCubemapping ⟨1, 2, [3, 4, 5, 6, 7, 8], 9, 10,
        [11, 12, 13, 14, 15, 16], fun i => decide (i ≠ 3), true⟩
        initialCubemapResources).2).allZero := by
  have hgl : (⟨1, 2, [3, 4, 5, 6, 7, 8], 9, 10, [11, 12, 13, 14, 15, 16],
      fun i => decide (i ≠ 3), true⟩ : GLAnswers).namesValid := by
    simp [GLAnswers.namesValid]
  have hs : initialCubemapResources.consistent := by
    simp [CubemapResources.consistent, CubemapResources.allZero, initialCubemapResources]
  have h := initCubemapping_allocates _ _ hgl hs
  exact ⟨hgl, hs, by decide, h.1, h.2.1, h.2.2.2.2.1, h.2.2.2.2.2.1⟩

/-! ## Claims about the shader requests of `drawArrays` -/

/-- Every shader request of the model loop passes the parameters `pm`. -/
theorem drawArraysLoop_params (getShader : GlobalShaderParameters → Nat → Option Nat)
    (pm : GlobalShaderParameters) (materials : List Nat) (lastMaterial : Option Nat) :
    ∀ q ∈ drawArraysLoop getShader pm lastMaterial materials, q.1 = pm := by
  induction materials generalizing lastMaterial with
  | nil =>
    intro q hq
    simp [drawArraysLoop] at hq
  | cons m rest ih =>
    intro q hq
    simp only [drawArraysLoop] at hq
    split_ifs at hq with h
    · rcases List.mem_cons.mp hq with rfl | hq'
      · rfl
      · cases hg : getShader pm m with
        | none =>
          rw [hg] at hq'
          simp at hq'
        | some sh =>
          rw [hg] at hq'
          exact ih (some m) q hq'
    · exact ih lastMaterial q hq

/-- C21: whichever bodies `generateShadowMap` chooses among, if it selects Venus every
shader request of `drawArrays` carries the configured parameters with the shadow filter
quality replaced by `OFF`, the lowest quality; if it selects the Sun or the Moon every
request carries the configured parameters; the configured parameters themselves are not
changed by `drawArrays`. -/
theorem drawArrays_venus_quality {K : Type} [LinearOrderedField K]
    (sunPosition moonPosition venusPosition : Vec3 K)
    (shaderParameters : GlobalShaderParameters)
    (getShader : GlobalShaderParameters → Nat → Option Nat) (materials : List Nat) :
    (drawArrays (generateShadowMap.selectCaster sunPosition moonPosition venusPosition).venusOn
        shaderParameters getShader materials).2 = shaderParameters
    ∧ (∀ q ∈ (drawArrays
          (generateShadowMap.selectCaster sunPosition moonPosition venusPosition).venusOn
          shaderParameters getShader materials).1,
        q.1 = (if (generateShadowMap.selectCaster sunPosition moonPosition
              venusPosition).shadowCaster = ShadowCaster.Venus then
            { shaderParameters with shadowFilterQuality := ShadowFilterQuality.OFF }
          else shaderParameters))
    ∧ (∀ quality : ShadowFilterQuality,
        ShadowFilterQuality.OFF.rank ≤ quality.rank) := by
  refine ⟨rfl, ?_, fun quality => Nat.zero_le _⟩
  intro q hq
  have hv : (generateShadowMap.selectCaster sunPosition moonPosition venusPosition).venusOn
      = decide ((generateShadowMap.selectCaster sunPosition moonPosition
          venusPosition).shadowCaster = ShadowCaster.Venus) := by
    simp only [generateShadowMap.selectCaster]
    split_ifs <;> simp
  simp only [drawArrays, hv] at hq
  have := drawArraysLoop_params getShader _ materials none q hq
  rw [this]
  by_cases hc : (generateShadowMap.selectCaster sunPosition moonPosition
      venusPosition).shadowCaster = ShadowCaster.Venus
  · simp [hc]
  · simp [hc]

/-- Witness of C21: Venus is the only body above the horizon, the configured quality is
`HIGH`, and two models with different materials are drawn: both shader requests carry
the quality `OFF`. -/
theorem drawArrays_venus_quality_witness :
    (generateShadowMap.selectCaster (⟨0, 0, -1⟩ : Vec3 ℚ) ⟨3 / 5, 0, -4 / 5⟩
        ⟨4 / 5, 0, 3 / 5⟩).shadowCaster = ShadowCaster.Venus
    ∧ (drawArrays (generateShadowMap.selectCaster (⟨0, 0, -1⟩ : Vec3 ℚ) ⟨3 / 5, 0, -4 / 5⟩
          ⟨4 / 5, 0, 3 / 5⟩).venusOn
        ⟨false, true, true, false, ShadowFilterQuality.HIGH, false, false⟩
        (fun _ m => some m) [7, 9]).1.length = 2
    ∧ ∀ q ∈ (drawArrays (generateShadowMap.selectCaster (⟨0, 0, -1⟩ : Vec3 ℚ)
          ⟨3 / 5, 0, -4 / 5⟩ ⟨4 / 5, 0, 3 / 5⟩).venusOn
        ⟨false, true, true, false, ShadowFilterQuality.HIGH, false, false⟩
        (fun _ m => some m) [7, 9]).1,
        q.1 = (if (generateShadowMap.selectCaster (⟨0, 0, -1⟩ : Vec3 ℚ) ⟨3 / 5, 0, -4 / 5⟩
              ⟨4 / 5, 0, 3 / 5⟩).shadowCaster = ShadowCaster.Venus then
            { (⟨false, true, true, false, ShadowFilterQuality.HIGH, false, false⟩ :
                GlobalShaderParameters) with shadowFilterQuality := ShadowFilterQuality.OFF }
          else ⟨false, true, true, false, ShadowFilterQuality.HIGH, false, false⟩) := by
  have hsel : generateShadowMap.selectCaster (⟨0, 0, -1⟩ : Vec3 ℚ) ⟨3 / 5, 0, -4 / 5⟩
      ⟨4 / 5, 0, 3 / 5⟩ = ⟨⟨4 / 5, 0, 3 / 5⟩, ShadowCaster.Venus, true⟩ := by
    norm_num [generateShadowMap.selectCaster]
  refine ⟨by rw [hsel], ?_, (drawArrays_venus_quality (⟨0, 0, -1⟩ : Vec3 ℚ) ⟨3 / 5, 0, -4 / 5⟩
    ⟨4 / 5, 0, 3 / 5⟩ ⟨false, true, true, false, ShadowFilterQuality.HIGH, false, false⟩
    (fun _ m => some m) [7, 9]).2.1⟩
  rw [hsel]
  decide

/-! ## Claims about the reprojection cube mesh -/

theorem length_flatMap_const {α β : Type} (l : List α) (f : α → List β) (c : Nat)
    (h : ∀ a ∈ l, (f a).length = c) : (l.flatMap f).length = l.length * c := by
  induction l with
  | nil => simp
  | cons a rest ih =>
    rw [List.flatMap_cons, List.length_append, h a (List.mem_cons_self a rest),
      ih (fun b hb => h b (List.mem_cons_of_mem a hb)), List.length_cons]
    ring

theorem frontIndices_length : frontIndices.length = 2400 := by
  unfold frontIndices
  rw [length_flatMap_const _ _ 120]
  · simp [sub]
  · intro y _
    rw [length_flatMap_const _ _ 6]
    · simp [sub]
    · intro x _
      rfl

theorem cubePlaneFront_length {K : Type} [LinearOrderedField K] :
    (cubePlaneFront : List (Vec3 K)).length = 441 := by
  unfold cubePlaneFront
  rw [length_flatMap_const _ _ 21]
  · simp [sub]
  · intro y _
    rw [List.length_map, List.length_range]
    rfl

theorem planeIndices_length (k : Nat) (l : List Nat) : (planeIndices k l).length = l.length := by
  simp [planeIndices]

theorem planeVertices_length {V : Type} (k : Nat) (mat : V → V) (l : List V) :
    (planeVertices k mat l).length = l.length := by
  simp [planeVertices]

/-- Every index of the front face is below `vtxCount`. -/
theorem frontIndices_lt (v : Nat) (hv : v ∈ frontIndices) : v < 441 := by
  simp only [frontIndices, List.mem_flatMap, List.mem_range, sub] at hv
  obtain ⟨y, hy, x, hx, hmem⟩ := hv
  simp only [vertexIdx, toUShort, sub, List.mem_cons, List.mem_singleton, List.mem_nil_iff,
    or_false, Nat.reduceAdd] at hmem
  have h1 : (y + 1) * 21 + x < 65536 := by omega
  have h2 : y * 21 + x < 65536 := by omega
  have h3 : (y + 1) * 21 + (x + 1) < 65536 := by omega
  have h4 : y * 21 + (x + 1) < 65536 := by omega
  rw [Nat.mod_eq_of_lt h1, Nat.mod_eq_of_lt h2, Nat.mod_eq_of_lt h3, Nat.mod_eq_of_lt h4] at hmem
  rcases hmem with h | h | h | h | h | h <;> omega

/-- The value at position `i` after the index part of `PLANE(k, ...)`. -/
theorem planeIndices_getD (k : Nat) (l : List Nat) (i : Nat) (hi : i < l.length) :
    (planeIndices k l).getD i 0
      = if k * idxCount ≤ i ∧ i < (k + 1) * idxCount then toUShort (l.getD i 0 + k * vtxCount)
        else l.getD i 0 := by
  have h1 : i < (planeIndices k l).length := by rw [planeIndices_length]; exact hi
  rw [List.getD_eq_getElem _ _ h1, List.getD_eq_getElem _ _ hi]
  simp [planeIndices]

theorem cubeIndicesInit_length :
    ((List.range 6).flatMap fun _ => frontIndices).length = 14400 := by
  rw [length_flatMap_const _ _ 2400]
  · simp
  · intro _ _
    exact frontIndices_length

theorem cubeIndicesInit_lt (i : Nat) (hi : i < 14400) :
    ((List.range 6).flatMap fun _ => frontIndices).getD i 0 < 441 := by
  have hlen := cubeIndicesInit_length
  rw [List.getD_eq_getElem _ _ (by rw [hlen]; exact hi)]
  have hmem := List.getElem_mem (l := (List.range 6).flatMap fun _ => frontIndices)
    (by rw [hlen]; exact hi : i < ((List.range 6).flatMap fun _ => frontIndices).length)
  obtain ⟨_, _, hv⟩ := List.mem_flatMap.mp hmem
  exact frontIndices_lt _ hv

/-- The index list after the `PLANE` lines: the entry at position `k*2400 + j` of face `k`
is the entry of the copied front face raised by `441*k`. -/
theorem cubeIndices_getD (k j : Nat) (hk : k < 6) (hj : j < 2400) :
    cubeIndices.getD (k * 2400 + j) 0
      = ((List.range 6).flatMap fun _ => frontIndices).getD (k * 2400 + j) 0 + 441 * k := by
  have hlen := cubeIndicesInit_length
  have hi : k * 2400 + j < 14400 := by omega
  have hv := cubeIndicesInit_lt (k * 2400 + j) hi
  have hc : idxCount = 2400 := frontIndices_length
  have hvc : vtxCount = 441 := rfl
  unfold cubeIndices
  simp only []
  rw [planeIndices_getD 5 _ _ (by simp only [planeIndices_length, hlen]; exact hi),
    planeIndices_getD 4 _ _ (by simp only [planeIndices_length, hlen]; exact hi),
    planeIndices_getD 3 _ _ (by simp only [planeIndices_length, hlen]; exact hi),
    planeIndices_getD 2 _ _ (by simp only [planeIndices_length, hlen]; exact hi),
    planeIndices_getD 1 _ _ (by rw [hlen]; exact hi)]
  simp only [hc, hvc, toUShort]
  generalize ((List.range 6).flatMap fun _ => frontIndices).getD (k * 2400 + j) 0 = v at hv ⊢
  interval_cases k <;> simp <;> split_ifs <;> omega

/-- C22: the reprojection cube mesh has 441 vertices per face (a grid of 21 x 21 points
for 20 x 20 cells), 6*441 = 2646 vertices and 6*2400 = 14400 triangle indices in all,
`drawFromCubeMap` draws 2400 indices per face, and every index at a position of face `k`
(positions `2400*k .. 2400*k + 2399`) refers to a vertex of face `k`'s own range
`[441*k, 441*(k+1))`. `planeMat` stands for the rotations of the faces 1 to 5. -/
theorem cube_mesh_counts {K : Type} [LinearOrderedField K] (planeMat : Nat → Vec3 K → Vec3 K) :
    sub = 20 ∧ vtxCount = 441
    ∧ (cubePlaneFront : List (Vec3 K)).length = 441
    ∧ frontIndices.length = 2400
    ∧ (cubeVertices planeMat).length = 2646
    ∧ cubeIndices.length = 14400
    ∧ faceIndexCount = 2400
    ∧ ∀ k j, k < 6 → j < 2400 →
        441 * k ≤ cubeIndices.getD (k * 2400 + j) 0
        ∧ cubeIndices.getD (k * 2400 + j) 0 < 441 * (k + 1) := by
  have hidx : cubeIndices.length = 14400 := by
    unfold cubeIndices
    simp only [planeIndices_length]
    exact cubeIndicesInit_length
  refine ⟨rfl, rfl, cubePlaneFront_length, frontIndices_length, ?_, hidx, ?_, ?_⟩
  · unfold cubeVertices
    simp only [planeVertices_length]
    rw [length_flatMap_const _ _ 441]
    · simp
    · intro _ _
      exact cubePlaneFront_length
  · unfold faceIndexCount cubeIndexCount
    rw [hidx]
  · intro k j hk hj
    rw [cubeIndices_getD k j hk hj]
    have := cubeIndicesInit_lt (k * 2400 + j) (by omega)
    constructor <;> omega

/-- Witness of C22: position 5 of face 3 (index position 7205) holds a vertex index in
`[1323, 1764)`. -/
theorem cube_mesh_counts_witness :
    (3 < 6 ∧ 5 < 2400)
    ∧ 441 * 3 ≤ cubeIndices.getD (3 * 2400 + 5) 0
    ∧ cubeIndices.getD (3 * 2400 + 5) 0 < 441 * (3 + 1) :=
  ⟨⟨by decide, by decide⟩,
    (cube_mesh_counts (fun _ (v : Vec3 ℚ) => v)).2.2.2.2.2.2.2 3 5 (by decide) (by decide)⟩

/-! ## Claims about the split loop of `renderShadowMaps` -/

/-- State of the split loop after the first `n` splits. -/
theorem renderShadowMaps_prefix {M V : Type} (focusBody : Nat → List V)
    (crop : List V → M × M) (s : ShadowTargets M) (n : Nat) :
    ((List.range n).foldl (renderShadowMapsStep focusBody crop) (s, [])).2
      = (List.range n).flatMap (expectedSplitCalls focusBody)
    ∧ ((List.range n).foldl (renderShadowMapsStep focusBody crop) (s, [])).1.shadowCPM.length
      = s.shadowCPM.length
    ∧ ∀ i, (((List.range n).foldl (renderShadowMapsStep focusBody crop)
          (s, [])).1.shadowCPM)[i]?
        = if i < n ∧ i < s.shadowCPM.length ∧ (focusBody i).length ≠ 0 then
            some (crop (focusBody i)).1
          else s.shadowCPM[i]? := by
  induction n with
  | zero => simp
  | succ n ih =>
    obtain ⟨ih1, ih2, ih3⟩ := ih
    rw [List.range_succ, List.foldl_append, List.flatMap_append]
    simp only [List.foldl_cons, List.foldl_nil, List.flatMap_cons, List.flatMap_nil,
      List.append_nil]
    by_cases hb : (focusBody n).length = 0
    · have hstep : renderShadowMapsStep focusBody crop
          ((List.range n).foldl (renderShadowMapsStep focusBody crop) (s, [])) n
          = (((List.range n).foldl (renderShadowMapsStep focusBody crop) (s, [])).1,
            ((List.range n).foldl (renderShadowMapsStep focusBody crop) (s, [])).2
              ++ [ShadowCall.clearDepth n]) := by
        simp [renderShadowMapsStep, hb]
      rw [hstep]
      refine ⟨?_, ih2, ?_⟩
      · simp [ih1, expectedSplitCalls, hb]
      · intro i
        rw [ih3 i]
        by_cases hin : i = n
        · subst hin
          simp [hb]
        · have : (i < n + 1) = (i < n) := by
            apply propext
            omega
          simp only [this]
    · have hstep : renderShadowMapsStep focusBody crop
          ((List.range n).foldl (renderShadowMapsStep focusBody crop) (s, [])) n
          = ({ shadowCPM := ((List.range n).foldl (renderShadowMapsStep focusBody crop)
                (s, [])).1.shadowCPM.set n (crop (focusBody n)).1
               projectionMatrix := (crop (focusBody n)).2 },
            ((List.range n).foldl (renderShadowMapsStep focusBody crop) (s, [])).2
              ++ [ShadowCall.clearDepth n] ++ [ShadowCall.drawScene n]) := by
        simp [renderShadowMapsStep, hb]
      rw [hstep]
      refine ⟨?_, ?_, ?_⟩
      · simp [ih1, expectedSplitCalls, hb]
      · simp [ih2]
      · intro i
        simp only [List.getElem?_set, ih2]
        by_cases hin : n = i
        · subst hin
          by_cases hl : n < s.shadowCPM.length
          · simp [hl, hb]
          · simp only [hl, if_false, if_true, false_and, and_false]
            rw [List.getElem?_eq_none (by omega)]
        · have : (i < n + 1) = (i < n) := by
            apply propext
            omega
          simp only [hin, if_false, ih3 i, this]

/-- C23: in the split loop of `renderShadowMaps` every split has its depth target cleared;
a split whose focus polyhedron has no vertices issues no scene draw and its loop
iteration leaves the lookup matrices and the projection matrix unchanged; a split with
at least one vertex is followed by exactly one scene draw and gets the lookup matrix
computed for its polyhedron, and the projection matrix is the one computed with it. -/
theorem renderShadowMaps_splits {M V : Type} (frustumSplits : Nat)
    (focusBody : Nat → List V) (crop : List V → M × M) (s : ShadowTargets M)
    (hlen : s.shadowCPM.length = frustumSplits) :
    (renderShadowMaps frustumSplits focusBody crop s).2
      = (List.range frustumSplits).flatMap
          (fun i => if (focusBody i).length = 0 then [ShadowCall.clearDepth i]
            else [ShadowCall.clearDepth i, ShadowCall.drawScene i])
    ∧ (∀ i, i < frustumSplits →
        ((renderShadowMaps frustumSplits focusBody crop s).1.shadowCPM)[i]?
          = if (focusBody i).length = 0 then s.shadowCPM[i]?
            else some (crop (focusBody i)).1)
    ∧ (∀ (acc : ShadowTargets M × List ShadowCall) (i : Nat), (focusBody i).length = 0 →
        renderShadowMapsStep focusBody crop acc i
          = (acc.1, acc.2 ++ [ShadowCall.clearDepth i]))
    ∧ (∀ (acc : ShadowTargets M × List ShadowCall) (i : Nat), (focusBody i).length ≠ 0 →
        (renderShadowMapsStep focusBody crop acc i).2
            = acc.2 ++ [ShadowCall.clearDepth i, ShadowCall.drawScene i]
          ∧ (renderShadowMapsStep focusBody crop acc i).1.projectionMatrix
            = (crop (focusBody i)).2
          ∧ (renderShadowMapsStep focusBody crop acc i).1.shadowCPM
            = acc.1.shadowCPM.set i (crop (focusBody i)).1) := by
  obtain ⟨h1, _, h3⟩ := renderShadowMaps_prefix focusBody crop s frustumSplits
  refine ⟨?_, ?_, ?_, ?_⟩
  · unfold renderShadowMaps
    rw [h1]
    rfl
  · intro i hi
    unfold renderShadowMaps
    rw [h3 i]
    have hi2 : i < s.shadowCPM.length := by omega
    by_cases hb : (focusBody i).length = 0
    · simp [hb]
    · simp [hb, hi, hi2]
  · intro acc i hb
    simp [renderShadowMapsStep, hb]
  · intro acc i hb
    simp [renderShadowMapsStep, hb]

/-- Witness of C23: three splits, the middle one with an empty focus polyhedron; matrices
are stood for by numbers. The calls are clear 0, draw 0, clear 1, clear 2, draw 2, and
the lookup matrix of split 1 is the old one. -/
theorem renderShadowMaps_splits_witness :
    (⟨[10, 11, 12], 0⟩ : ShadowTargets Nat).shadowCPM.length = 3
    ∧ (renderShadowMaps 3 (fun i => if i = 1 then ([] : List Nat) else [i, i])
          (fun body => (100 + body.length, 200 + body.length)) ⟨[10, 11, 12], 0⟩).2
      = (List.range 3).flatMap
          (fun i => if ((fun i => if i = 1 then ([] : List Nat) else [i, i]) i).length = 0
            then [ShadowCall.clearDepth i]
            else [ShadowCall.clearDepth i, ShadowCall.drawScene i])
    ∧ (renderShadowMaps 3 (fun i => if i = 1 then ([] : List Nat) else [i, i])
          (fun body => (100 + body.length, 200 + body.length)) ⟨[10, 11, 12], 0⟩).2
      = [ShadowCall.clearDepth 0, ShadowCall.drawScene 0, ShadowCall.clearDepth 1,
          ShadowCall.clearDepth 2, ShadowCall.drawScene 2]
    ∧ (renderShadowMaps 3 (fun i => if i = 1 then ([] : List Nat) else [i, i])
          (fun body => (100 + body.length, 200 + body.length)) ⟨[10, 11, 12], 0⟩).1.shadowCPM
      = [102, 11, 102] :=
  ⟨rfl, (renderShadowMaps_splits 3 (fun i => if i = 1 then ([] : List Nat) else [i, i])
    (fun body => (100 + body.length, 200 + body.length)) ⟨[10, 11, 12], 0⟩ rfl).1,
    by decide, by decide⟩

/-! ## Claims about the grid position -/

/-- C24: when `invRotate` undoes `zRotateMatrix` (the rotation matrix is invertible and
`inverse()` returns its inverse), `getCurrentGridPosition` called right after
`setGridPosition(p)` returns `p`, and `setGridPosition` leaves the eye height
unchanged. -/
theorem getCurrentGridPosition_setGridPosition {K : Type} [LinearOrderedField K]
    (zRotateMatrix invRotate : Vec3 K → Vec3 K) (p : Vec3 K) (s : GridState K)
    (hinv : ∀ v, zRotateMatrix (invRotate v) = v) :
    getCurrentGridPosition zRotateMatrix (setGridPosition invRotate p s) = p
    ∧ (setGridPosition invRotate p s).eye_height = s.eye_height := by
  refine ⟨?_, rfl⟩
  have hneg : ∀ v : Vec3 K, v.neg.neg = v := by
    intro v
    cases v
    simp [Vec3.neg]
  simp only [getCurrentGridPosition, setGridPosition, hneg, hinv, Vec3.sub]
  cases p
  simp

/-- Witness of C24: the rotation by a quarter turn about the vertical axis and its
inverse, over the rationals. -/
theorem getCurrentGridPosition_setGridPosition_witness :
    (∀ v : Vec3 ℚ, (fun w : Vec3 ℚ => (⟨-w.y, w.x, w.z⟩ : Vec3 ℚ))
        ((fun w : Vec3 ℚ => (⟨w.y, -w.x, w.z⟩ : Vec3 ℚ)) v) = v)
    ∧ getCurrentGridPosition (fun w : Vec3 ℚ => (⟨-w.y, w.x, w.z⟩ : Vec3 ℚ))
        (setGridPosition (fun w : Vec3 ℚ => (⟨w.y, -w.x, w.z⟩ : Vec3 ℚ)) ⟨5, 7, 2⟩
          ⟨⟨1, 2, 3⟩, 17 / 10, ⟨100, 200, 300⟩, 42⟩) = ⟨5, 7, 2⟩
    ∧ (setGridPosition (fun w : Vec3 ℚ => (⟨w.y, -w.x, w.z⟩ : Vec3 ℚ)) ⟨5, 7, 2⟩
          ⟨⟨1, 2, 3⟩, 17 / 10, ⟨100, 200, 300⟩, 42⟩).eye_height = 17 / 10 := by
  have hinv : ∀ v : Vec3 ℚ, (fun w : Vec3 ℚ => (⟨-w.y, w.x, w.z⟩ : Vec3 ℚ))
      ((fun w : Vec3 ℚ => (⟨w.y, -w.x, w.z⟩ : Vec3 ℚ)) v) = v := by
    intro v
    cases v
    simp
  exact ⟨hinv, getCurrentGridPosition_setGridPosition _ _ ⟨5, 7, 2⟩
    ⟨⟨1, 2, 3⟩, 17 / 10, ⟨100, 200, 300⟩, 42⟩ hinv⟩

/-! ## Further claims about the lighting-state selector -/

theorem sqrt_six_tenths_ge : (0.7 : ℝ) ≤ Real.sqrt 0.6 := by
  rw [Real.le_sqrt' (by norm_num)]
  norm_num

/-- C25, evaluation at the failing input: with the Sun at altitude sine 1/2 and the Moon
below the horizon the ambient brightness is 0.375 and the directional brightness is the
cap 0.7, so their sum is 1.075 and not below 1. -/
theorem calculateLightSource_total_exceeds_one :
    (calculateLightSource Real.sqrt Real.cos true none ⟨Real.sqrt 3 / 2, 0, 1 / 2⟩
        ⟨Real.sqrt 3 / 2, 0, -1 / 2⟩ ⟨0, 1, 0⟩ 0 0).ambientBrightness = 0.375
    ∧ (calculateLightSource Real.sqrt Real.cos true none ⟨Real.sqrt 3 / 2, 0, 1 / 2⟩
        ⟨Real.sqrt 3 / 2, 0, -1 / 2⟩ ⟨0, 1, 0⟩ 0 0).directionalBrightness = 0.7
    ∧ ¬ ((calculateLightSource Real.sqrt Real.cos true none ⟨Real.sqrt 3 / 2, 0, 1 / 2⟩
          ⟨Real.sqrt 3 / 2, 0, -1 / 2⟩ ⟨0, 1, 0⟩ 0 0).ambientBrightness
        + (calculateLightSource Real.sqrt Real.cos true none ⟨Real.sqrt 3 / 2, 0, 1 / 2⟩
          ⟨Real.sqrt 3 / 2, 0, -1 / 2⟩ ⟨0, 1, 0⟩ 0 0).directionalBrightness < 1) := by
  have ha : (calculateLightSource Real.sqrt Real.cos true none ⟨Real.sqrt 3 / 2, 0, 1 / 2⟩
      ⟨Real.sqrt 3 / 2, 0, -1 / 2⟩ ⟨0, 1, 0⟩ 0 0).ambientBrightness = 0.375 := by
    rw [calculateLightSource_ambient]
    have h1 : (1 / 2 : ℝ) > -0.3 := by norm_num
    have h2 : ¬ ((-1 / 2 : ℝ) > 0) := by norm_num
    have h3 : min (0.3 : ℝ) (1 / 2 + 0.3) = 0.3 := min_eq_left (by norm_num)
    simp only [ambientOf, h1, h2, if_true, if_false, h3, MINIMUM_AMBIENT]
    norm_num
  have hd : (calculateLightSource Real.sqrt Real.cos true none ⟨Real.sqrt 3 / 2, 0, 1 / 2⟩
      ⟨Real.sqrt 3 / 2, 0, -1 / 2⟩ ⟨0, 1, 0⟩ 0 0).directionalBrightness = 0.7 := by
    have h1 : (1 / 2 : ℝ) > 0 := by norm_num
    have h2 : (1 / 2 : ℝ) + 0.1 = 0.6 := by norm_num
    simp only [calculateLightSource, h1, if_true, h2]
    exact min_eq_left sqrt_six_tenths_ge
  refine ⟨ha, hd, ?_⟩
  rw [ha, hd]
  norm_num

/-- Over the reals the accumulated ambient brightness is never below the floor. -/
theorem ambientOf_ge_floor (s m ph : ℝ) : 0.075 ≤ ambientOf Real.sqrt Real.cos s m ph := by
  simp only [ambientOf, MINIMUM_AMBIENT, LUNAR_BRIGHTNESS_FACTOR]
  have hsq : 0 ≤ Real.sqrt (m * ((Real.cos ph + 1) / 2)) * 0.2 :=
    mul_nonneg (Real.sqrt_nonneg _) (by norm_num)
  split_ifs with h1 h2 h2 <;>
    first
      | linarith
      | (have hm : (0 : ℝ) ≤ min 0.3 (s + 0.3) := le_min (by norm_num) (by linarith)
         linarith)

/-- The Venus term is at most 0.005 when the altitude sine is at most 1. -/
theorem venus_term_le (v ph : ℝ) (hv : v ≤ 1) :
    Real.sqrt v * ((Real.cos ph + 1) / 2) * 0.005 ≤ 0.005 := by
  have h1 : Real.sqrt v ≤ 1 := Real.sqrt_le_one.mpr hv
  have h0 : 0 ≤ Real.sqrt v := Real.sqrt_nonneg v
  have c1 : (Real.cos ph + 1) / 2 ≤ 1 := by
    have := Real.cos_le_one ph
    linarith
  have c0 : 0 ≤ (Real.cos ph + 1) / 2 := by
    have := Real.neg_one_le_cos ph
    linarith
  have hp : Real.sqrt v * ((Real.cos ph + 1) / 2) ≤ 1 := by
    calc Real.sqrt v * ((Real.cos ph + 1) / 2) ≤ 1 * 1 :=
          mul_le_mul h1 c1 c0 (by norm_num)
      _ = 1 := by norm_num
  linarith

/-- C26: for every input whose Venus altitude sine is at most 1 (as for every unit
direction) and every phase angle, the Venus term `0.005*sqrt(sinVenus)*(cos(phase)+1)/2`
minus half the ambient excess `(ambient - 0.05)/2` is at most 0; `calculateLightSource`
never returns Venus as caster, and when neither Sun nor Moon is above the horizon it
returns directional brightness 0 and caster `None`. `sqrt` and `cos` are the real
functions. -/
theorem calculateLightSource_never_venus (shadows : Bool) (lightscape : Option ℝ)
    (sunPosition moonPosition venusPosition : Vec3 ℝ) (moonPhaseAngle venusPhaseAngle : ℝ)
    (hvenus : venusPosition.z ≤ 1) :
    0.005 * Real.sqrt venusPosition.z * (Real.cos venusPhaseAngle + 1) / 2
        - ((calculateLightSource Real.sqrt Real.cos shadows lightscape sunPosition
            moonPosition venusPosition moonPhaseAngle venusPhaseAngle).ambientBrightness
          - 0.05) / 2 ≤ 0
    ∧ (calculateLightSource Real.sqrt Real.cos shadows lightscape sunPosition moonPosition
        venusPosition moonPhaseAngle venusPhaseAngle).shadowcaster ≠ ShadowCaster.Venus
    ∧ (sunPosition.z ≤ 0 → moonPosition.z ≤ 0 →
        (calculateLightSource Real.sqrt Real.cos shadows lightscape sunPosition moonPosition
            venusPosition moonPhaseAngle venusPhaseAngle).directionalBrightness = 0
        ∧ (calculateLightSource Real.sqrt Real.cos shadows lightscape sunPosition
            moonPosition venusPosition moonPhaseAngle venusPhaseAngle).shadowcaster
          = ShadowCaster.None) := by
  have hamb := ambientOf_ge_floor sunPosition.z moonPosition.z moonPhaseAngle
  have hterm := venus_term_le venusPosition.z venusPhaseAngle hvenus
  have hD : Real.sqrt venusPosition.z * ((Real.cos venusPhaseAngle + 1) / 2)
        * VENUS_BRIGHTNESS_FACTOR
      - (ambientOf Real.sqrt Real.cos sunPosition.z moonPosition.z moonPhaseAngle - 0.05) / 2
      ≤ 0 := by
    simp only [VENUS_BRIGHTNESS_FACTOR]
    linarith
  have hmax : max 0 (Real.sqrt venusPosition.z * ((Real.cos venusPhaseAngle + 1) / 2)
        * VENUS_BRIGHTNESS_FACTOR
      - (ambientOf Real.sqrt Real.cos sunPosition.z moonPosition.z moonPhaseAngle - 0.05) / 2)
      = 0 := max_eq_left hD
  refine ⟨?_, ?_, ?_⟩
  · rw [calculateLightSource_ambient]
    have e : 0.005 * Real.sqrt venusPosition.z * (Real.cos venusPhaseAngle + 1) / 2
        = Real.sqrt venusPosition.z * ((Real.cos venusPhaseAngle + 1) / 2) * 0.005 := by ring
    rw [e]
    linarith
  · simp only [calculateLightSource, hmax, gt_iff_lt, lt_self_iff_false, if_false]
    split_ifs <;> simp
  · intro hs hm
    have hs' : ¬ (0 < sunPosition.z) := not_lt.mpr hs
    have hm' : ¬ (0 < moonPosition.z) := not_lt.mpr hm
    simp only [calculateLightSource, hmax, gt_iff_lt, lt_self_iff_false, if_false, hs', hm']
    split_ifs <;> exact ⟨rfl, rfl⟩

/-- Witness of C26: Sun and Moon below the horizon, a full Venus (phase angle 0) at the
zenith: directional brightness 0 and no caster. -/
theorem calculateLightSource_never_venus_witness :
    (1 : ℝ) ≤ 1
    ∧ (calculateLightSource Real.sqrt Real.cos true none ⟨0, 0, -1⟩ ⟨3 / 5, 0, -4 / 5⟩
        ⟨0, 0, 1⟩ 0 0).shadowcaster ≠ ShadowCaster.Venus
    ∧ (calculateLightSource Real.sqrt Real.cos true none ⟨0, 0, -1⟩ ⟨3 / 5, 0, -4 / 5⟩
        ⟨0, 0, 1⟩ 0 0).directionalBrightness = 0
    ∧ (calculateLightSource Real.sqrt Real.cos true none ⟨0, 0, -1⟩ ⟨3 / 5, 0, -4 / 5⟩
        ⟨0, 0, 1⟩ 0 0).shadowcaster = ShadowCaster.None := by
  have h := calculateLightSource_never_venus true none ⟨0, 0, -1⟩ ⟨3 / 5, 0, -4 / 5⟩
    ⟨0, 0, 1⟩ 0 0 le_rfl
  have h3 := h.2.2 (by norm_num) (by norm_num)
  exact ⟨le_rfl, h.2.1, h3.1, h3.2⟩

/-- C28: the lighting selector and the shadow renderer agree on the light. Whenever
`calculateLightSource` yields a positive directional brightness, the light position it
returns is the shadow direction that the caster selection of `generateShadowMap` picks
for the same three body positions; and whenever it returns a caster other than `None`,
the caster selection picks that same caster. -/
theorem calculateLightSource_agrees_with_selectCaster {K : Type} [LinearOrderedField K]
    (sqrtf cosf : K → K) (shadows : Bool) (lightscape : Option K)
    (sunPosition moonPosition venusPosition : Vec3 K) (moonPhaseAngle venusPhaseAngle : K) :
    (0 < (calculateLightSource sqrtf cosf shadows lightscape sunPosition moonPosition
          venusPosition moonPhaseAngle venusPhaseAngle).directionalBrightness →
      (calculateLightSource sqrtf cosf shadows lightscape sunPosition moonPosition
          venusPosition moonPhaseAngle venusPhaseAngle).lightsourcePosition
        = (generateShadowMap.selectCaster sunPosition moonPosition venusPosition).shadowDir)
    ∧ ((calculateLightSource sqrtf cosf shadows lightscape sunPosition moonPosition
          venusPosition moonPhaseAngle venusPhaseAngle).shadowcaster ≠ ShadowCaster.None →
      (calculateLightSource sqrtf cosf shadows lightscape sunPosition moonPosition
          venusPosition moonPhaseAngle venusPhaseAngle).shadowcaster
        = (generateShadowMap.selectCaster sunPosition moonPosition
            venusPosition).shadowCaster) := by
  simp only [calculateLightSource, generateShadowMap.selectCaster]
  constructor
  · split_ifs <;> simp_all
  · cases shadows <;> split_ifs <;> simp_all

/-- Witness of C28: the Sun at altitude sine 1/2 with shadows enabled: the directional
brightness is positive, the caster is not `None`, and position and caster are those the
caster selection picks. -/
theorem calculateLightSource_agrees_with_selectCaster_witness :
    0 < (calculateLightSource Real.sqrt Real.cos true none ⟨Real.sqrt 3 / 2, 0, 1 / 2⟩
        ⟨1, 0, 0⟩ ⟨0, 1, 0⟩ 0 0).directionalBrightness
    ∧ (calculateLightSource Real.sqrt Real.cos true none ⟨Real.sqrt 3 / 2, 0, 1 / 2⟩
        ⟨1, 0, 0⟩ ⟨0, 1, 0⟩ 0 0).shadowcaster ≠ ShadowCaster.None
    ∧ (calculateLightSource Real.sqrt Real.cos true none ⟨Real.sqrt 3 / 2, 0, 1 / 2⟩
        ⟨1, 0, 0⟩ ⟨0, 1, 0⟩ 0 0).lightsourcePosition
      = (generateShadowMap.selectCaster (⟨Real.sqrt 3 / 2, 0, 1 / 2⟩ : Vec3 ℝ) ⟨1, 0, 0⟩
          ⟨0, 1, 0⟩).shadowDir
    ∧ (calculateLightSource Real.sqrt Real.cos true none ⟨Real.sqrt 3 / 2, 0, 1 / 2⟩
        ⟨1, 0, 0⟩ ⟨0, 1, 0⟩ 0 0).shadowcaster
      = (generateShadowMap.selectCaster (⟨Real.sqrt 3 / 2, 0, 1 / 2⟩ : Vec3 ℝ) ⟨1, 0, 0⟩
          ⟨0, 1, 0⟩).shadowCaster := by
  have h1 : (1 / 2 : ℝ) > 0 := by norm_num
  have hd : 0 < (calculateLightSource Real.sqrt Real.cos true none
      ⟨Real.sqrt 3 / 2, 0, 1 / 2⟩ ⟨1, 0, 0⟩ ⟨0, 1, 0⟩ 0 0).directionalBrightness := by
    simp only [calculateLightSource, h1, if_true]
    exact lt_min (by norm_num) (Real.sqrt_pos.mpr (by norm_num))
  have hc : (calculateLightSource Real.sqrt Real.cos true none
      ⟨Real.sqrt 3 / 2, 0, 1 / 2⟩ ⟨1, 0, 0⟩ ⟨0, 1, 0⟩ 0 0).shadowcaster
      ≠ ShadowCaster.None := by
    simp only [calculateLightSource, h1, if_true]
    decide
  have h := calculateLightSource_agrees_with_selectCaster Real.sqrt Real.cos true none
    ⟨Real.sqrt 3 / 2, 0, 1 / 2⟩ ⟨1, 0, 0⟩ ⟨0, 1, 0⟩ 0 0
  exact ⟨hd, hc, h.1 hd, h.2 hc⟩

end Scenery3d

/-! # Claims about the projector -/

namespace Projector

/-- C29, failing input: with limits 10 and 80 and field of view 50, `change_fov 20`
yields 80 although 50 + 20 = 70 lies strictly between the limits (`set_fov 70` yields
70), and `change_fov 30` leaves the field of view at 50 although 50 + 30 clamped to the
limits is 80 (`set_fov 80` yields 80). -/
theorem change_fov_not_add_and_clamp :
    (10 : ℚ) < 50 + 20 ∧ (50 : ℚ) + 20 < 80
    ∧ (change_fov (20 : ℚ) ⟨50, 10, 80⟩).fov = 80
    ∧ (set_fov (50 + 20 : ℚ) ⟨50, 10, 80⟩).fov = 70
    ∧ (change_fov (30 : ℚ) ⟨50, 10, 80⟩).fov = 50
    ∧ (set_fov (50 + 30 : ℚ) ⟨50, 10, 80⟩).fov = 80 := by
  norm_num [change_fov, set_fov]

/-- After the first statement of `change_fov` has added the delta, the second and the
third add it again for their tests: whenever `fov + delta` lies strictly between the
limits and `fov + 2*delta` exceeds the upper limit, the result is the upper limit and
not `fov + delta`. -/
theorem change_fov_overshoot {K : Type} [LinearOrderedField K] (deltaFov : K)
    (p : Projector K) (h1 : p.min_fov < p.fov + deltaFov)
    (h2 : p.fov + deltaFov < p.max_fov) (h3 : p.max_fov < p.fov + deltaFov + deltaFov) :
    (change_fov deltaFov p).fov = p.max_fov ∧ (change_fov deltaFov p).fov ≠ p.fov + deltaFov := by
  obtain ⟨fov, mn, mx⟩ := p
  simp only at h1 h2 h3
  have hd : deltaFov ≠ 0 := by
    intro h
    rw [h] at h2 h3
    linarith
  have hmm : ¬ mx + deltaFov < mn := by
    intro h
    linarith
  have e : (change_fov deltaFov ⟨fov, mn, mx⟩).fov = mx := by
    simp [change_fov, hd, h1, h2, h3, hmm]
  rw [e]
  exact ⟨rfl, h2.ne'⟩

/-- Witness of `change_fov_overshoot`: limits 10 and 80, field of view 50, delta 20. -/
theorem change_fov_overshoot_witness :
    (change_fov (20 : ℚ) ⟨50, 10, 80⟩).fov = 80
    ∧ (change_fov (20 : ℚ) ⟨50, 10, 80⟩).fov ≠ 50 + 20 :=
  change_fov_overshoot (20 : ℚ) ⟨50, 10, 80⟩ (by norm_num) (by norm_num) (by norm_num)

/-- The part of the claim that holds: `change_fov 0` changes nothing. -/
theorem change_fov_zero {K : Type} [LinearOrderedField K] (p : Projector K) :
    change_fov 0 p = p := by
  simp [change_fov]

end Projector

/-! # Claims about texture binding -/

namespace StelTexture

/-- C30, failing input: a texture with `id = 0`, no error recorded, no network reply and
a finished loader whose image is null. `bind` returns true, the texture id is still 0
afterwards and a load error has been recorded. -/
theorem bind_true_without_texture :
    bind 7 ⟨false, ⟨true, 0, 0⟩⟩ ⟨false, some ⟨true, ⟨true, 0, 0⟩⟩, false, 0, -1, -1, false⟩
      = (true, ⟨false, none, true, 0, -1, -1, false⟩) := by
  decide

/-- Every texture without id and without recorded error whose local loader has finished
with a null image makes `bind` return true, with id 0 and the error recorded
afterwards. -/
theorem bind_failed_image (genTexture : Nat) (started : QFuture) (t : StelTexture)
    (loader : QFuture) (hid : t.id = 0) (herr : t.errorOccured = false)
    (hnet : t.networkReply = false) (hl : t.loader = some loader)
    (hfin : loader.isFinished = true) (hnull : loader.result.isNull = true) :
    (bind genTexture started t).1 = true ∧ (bind genTexture started t).2.id = 0
    ∧ (bind genTexture started t).2.errorOccured = true := by
  obtain ⟨nr, l, err, id, w, h, rem⟩ := t
  simp only at hid herr hnet hl
  subst hid herr hnet hl
  simp [bind, glLoad, reportError, hfin, hnull]

/-- Witness of `bind_failed_image`. -/
theorem bind_failed_image_witness :
    (bind 7 ⟨false, ⟨true, 0, 0⟩⟩
      ⟨false, some ⟨true, ⟨true, 0, 0⟩⟩, false, 0, -1, -1, false⟩).1 = true
    ∧ (bind 7 ⟨false, ⟨true, 0, 0⟩⟩
      ⟨false, some ⟨true, ⟨true, 0, 0⟩⟩, false, 0, -1, -1, false⟩).2.id = 0
    ∧ (bind 7 ⟨false, ⟨true, 0, 0⟩⟩
      ⟨false, some ⟨true, ⟨true, 0, 0⟩⟩, false, 0, -1, -1, false⟩).2.errorOccured = true :=
  bind_failed_image 7 ⟨false, ⟨true, 0, 0⟩⟩
    ⟨false, some ⟨true, ⟨true, 0, 0⟩⟩, false, 0, -1, -1, false⟩ ⟨true, ⟨true, 0, 0⟩⟩
    rfl rfl rfl rfl rfl rfl

end StelTexture
